import Mathlib

/-!
# Argentum kernel: inode cache and VFS layer

A shallow embedding of `kernel/fs/inode.c`.  Pointers to `struct Inode` are
modelled by the address of the slot inside `inode_cache.buf`; the intrusive
doubly linked list `inode_cache.head` is the Lean list of the slots in list
order.  Calls into the ext2 layer (which is not part of the excerpt) are
recorded in a call log and their effect on the in-core inode is a parameter.

The embedding is sequential: it describes one kernel thread running a function
from entry to exit.  A spinlock section (`spin_lock (&inode_cache.lock)` ...
`spin_unlock`) is entered with the lock free and left with the lock free, so
the lock is not part of the state; a `kmutex_lock` on a mutex that somebody
holds ends the run with the outcome `blocked`.

The spinlocks and mutexes of `kernel/sync.c`, the key maps of
`kernel/keymaps.h` and the initialization of the PL011 UART
(`kernel/arch/arm/drivers/pl011.c`) are embedded in sections of their own.  The
lookups `fs_name_lookup` and `fs_path_lookup` used by the path-level operations
are parameters.
-/

namespace Argentum

/-! ## Data model -/

/-- The metadata part of `struct Inode`: the fields that mirror the on-disk
inode and that the ext2 layer fills in. -/
structure Meta where
  mode  : Nat
  nlink : Nat
  uid   : Nat
  gid   : Nat
  size  : Nat
  atime : Nat
  mtime : Nat
  ctime : Nat
deriving DecidableEq, Repr

/-- The in-core inode, `struct Inode`.  `addr` is the address of the slot (it
never changes), `mutex` is the holder of the sleeping mutex (`none` when the
mutex is free, otherwise the pid of the owning process).  `ref_count` is a C
`int`; it is kept as a mathematical integer. -/
structure Inode extends Meta where
  addr      : Nat
  ino       : Nat
  dev       : Nat
  ref_count : Int
  flags     : Nat
  mutex     : Option Nat
deriving DecidableEq, Repr

/-- The constants that `inode.c` takes from headers that are not part of the
excerpt (`limits.h`, `errno.h`, `sys/stat.h`, `argentum/fs/fs.h`).  They are
parameters of the embedding. -/
structure Config where
  INODE_CACHE_SIZE : Nat
  LINK_MAX         : Nat
  FS_INODE_VALID   : Nat
  FS_INODE_DIRTY   : Nat
  S_IFMT  : Nat
  S_IFDIR : Nat
  S_IFREG : Nat
  S_IFCHR : Nat
  S_IFBLK : Nat
  S_IRUSR : Nat
  S_IWUSR : Nat
  S_IXUSR : Nat
  S_IRGRP : Nat
  S_IWGRP : Nat
  S_IXGRP : Nat
  S_IROTH : Nat
  S_IWOTH : Nat
  S_IXOTH : Nat
  EPERM   : Int
  ENOENT  : Int
  ENOTDIR : Int
  EEXISTS : Int
  EINVAL  : Int
  EMLINK  : Int
  EXDEV   : Int
  /-- The width in bits of `size_t`, `ssize_t` and `off_t` (the machine word). -/
  LONG_BIT : Nat
  /-- The value of `offsetof(struct dirent, d_name)`. -/
  offsetof_d_name : Nat
  NCALLERPCS : Nat
deriving DecidableEq, Repr

/-- The two flags of `Inode.flags` are different bits of the word: each mask is
non-zero and the masks do not overlap. -/
def Config.FlagsOk (K : Config) : Prop :=
  K.FS_INODE_VALID ≠ 0 ∧ K.FS_INODE_DIRTY ≠ 0 ∧ K.FS_INODE_VALID &&& K.FS_INODE_DIRTY = 0

instance (K : Config) : Decidable K.FlagsOk := by
  unfold Config.FlagsOk; infer_instance

/-- A concrete choice of the constants: the POSIX octal values of the mode
bits, the usual errno numbers, the flags in the two lowest bits. -/
def Config.sample : Config :=
  { INODE_CACHE_SIZE := 4, LINK_MAX := 8,
    FS_INODE_VALID := 1, FS_INODE_DIRTY := 2,
    S_IFMT := 0o170000, S_IFDIR := 0o040000, S_IFREG := 0o100000,
    S_IFCHR := 0o020000, S_IFBLK := 0o060000,
    S_IRUSR := 0o400, S_IWUSR := 0o200, S_IXUSR := 0o100,
    S_IRGRP := 0o040, S_IWGRP := 0o020, S_IXGRP := 0o010,
    S_IROTH := 0o004, S_IWOTH := 0o002, S_IXOTH := 0o001,
    EPERM := 1, ENOENT := 2, ENOTDIR := 20, EEXISTS := 17, EINVAL := 22,
    EMLINK := 31, EXDEV := 18,
    LONG_BIT := 32, offsetof_d_name := 12, NCALLERPCS := 4 }

/-- The fields of `struct Process` that the inode layer reads from
`process_current()`. -/
structure Process where
  pid : Nat
  uid : Nat
  gid : Nat
deriving DecidableEq, Repr

/-- A call into the ext2 layer or the console driver, with the address of the
inode(s) passed and the scalar arguments. -/
inductive Call where
  | ext2_delete_inode (ip : Nat)
  | ext2_read_inode (ip : Nat)
  | ext2_write_inode (ip : Nat)
  | ext2_inode_link (dir : Nat) (name : String) (inode : Nat)
  | ext2_inode_rmdir (dir : Nat) (inode : Nat)
  | ext2_inode_unlink (dir : Nat) (inode : Nat)
  | ext2_inode_lookup (dir : Nat) (name : String)
  | ext2_inode_mkdir (dir : Nat) (name : String) (mode : Nat)
  | ext2_inode_create (dir : Nat) (name : String) (mode : Nat)
  | ext2_inode_mknod (dir : Nat) (name : String) (mode : Nat) (dev : Nat)
  | ext2_inode_read (ip : Nat) (nbyte : Nat) (off : Int)
  | ext2_inode_write (ip : Nat) (nbyte : Nat) (off : Int)
  | ext2_readdir (ip : Nat) (off : Nat)
  | ext2_inode_trunc (ip : Nat)
  | console_read (nbyte : Nat)
  | console_write (nbyte : Nat)
deriving DecidableEq, Repr

/-- The arguments with which `ext2_readdir` calls the `filldir` function it is
given: name, name length, offset of the next entry, inode number and type. -/
structure FillArgs where
  name     : String
  name_len : Nat
  off      : Nat
  ino      : Nat
  type     : Nat
deriving DecidableEq, Repr

/-- The state of the inode layer: the cache list in list order and the log of
the ext2 calls made so far (oldest first). -/
structure FsState where
  inode_cache : List Inode
  calls       : List Call
deriving DecidableEq, Repr

/-- How a kernel function ends, with the state it leaves behind: it returns a
value, it panics, or it goes to sleep on a mutex held by somebody else.
`fault` is the dereference of a pointer that is not a slot of the cache. -/
inductive Outcome (σ α : Type) where
  | ret (a : α) (s : σ)
  | panic (msg : String) (s : σ)
  | blocked (s : σ)
  | fault
deriving DecidableEq, Repr

/-- The ext2 layer, a parameter of the embedding (`ext2.h` and its
implementation are not part of the excerpt).  It reads and writes the on-disk
inode, so its effect on the in-core inode is a new value of the metadata
fields; identity, reference count, flags and mutex belong to the inode layer.
Functions returning `int` also give their result. -/
structure Ext2 where
  ext2_delete_inode : Inode → Meta
  ext2_read_inode   : Inode → Meta
  ext2_write_inode  : Inode → Meta
  /-- Called as (dir, name, inode); gives the result and the new metadata of dir and inode. -/
  ext2_inode_link   : Inode → String → Inode → Int × Meta × Meta
  /-- Called as (dir, inode); gives the result and the new metadata of dir and inode. -/
  ext2_inode_rmdir  : Inode → Inode → Int × Meta × Meta
  /-- Called as (dir, inode); gives the result and the new metadata of dir and inode. -/
  ext2_inode_unlink : Inode → Inode → Int × Meta × Meta
  /-- Called as (dir, name); gives the inode found (`none` is NULL) and the new metadata of dir. -/
  ext2_inode_lookup : Inode → String → Option Nat × Meta
  /-- Called as (dir, name, mode); gives the result, the new metadata of dir and the pointer
  left in `*istore`. -/
  ext2_inode_mkdir  : Inode → String → Nat → Int × Meta × Option Nat
  /-- Called as (dir, name, mode); as `ext2_inode_mkdir`. -/
  ext2_inode_create : Inode → String → Nat → Int × Meta × Option Nat
  /-- Called as (dir, name, mode, dev); as `ext2_inode_mkdir`. -/
  ext2_inode_mknod  : Inode → String → Nat → Nat → Int × Meta × Option Nat
  /-- Called as (ip, nbyte, off); gives the result and the new metadata of ip. -/
  ext2_inode_read   : Inode → Nat → Int → Int × Meta
  /-- Called as (ip, nbyte, off); gives the result and the new metadata of ip. -/
  ext2_inode_write  : Inode → Nat → Int → Int × Meta
  /-- Called as (ip, off); gives the result, the arguments of the call of `filldir` if it
  made one, and the new metadata of ip. -/
  ext2_readdir      : Inode → Nat → Int × Option FillArgs × Meta
  ext2_inode_trunc  : Inode → Meta

/-- The drivers used by the inode layer, parameters of the embedding: the value
of the real-time clock and the results of `console_read (buf, nbyte)` and
`console_write (buf, nbyte)`. -/
structure Drivers where
  rtc_get_time  : Nat
  console_read  : Nat → Int
  console_write : Nat → Int

/-- The state seen by an operation on one inode: the inode and the call log. -/
structure IState where
  ip    : Inode
  calls : List Call
deriving DecidableEq, Repr

/-- The state seen by an operation on an inode and a directory. -/
structure IIState where
  inode : Inode
  dir   : Inode
  calls : List Call
deriving DecidableEq, Repr

/-- The C expression `flags & ~mask`: the bits of `mask` are removed from
`flags`. -/
def clear_bits (flags mask : Nat) : Nat := flags ^^^ (flags &&& mask)

/-- The slot of the cache at address `p`, if `p` points to one. -/
def FsState.deref (s : FsState) (p : Nat) : Option Inode :=
  s.inode_cache.find? (fun ip => ip.addr = p)

/-- The cache list with the contents of the slot at address `p` replaced. -/
def FsState.store (s : FsState) (p : Nat) (inode : Inode) : List Inode :=
  s.inode_cache.map (fun ip => if ip.addr = p then inode else ip)

/-- Flag test `flags & mask` as a C condition. -/
def Inode.has (ip : Inode) (mask : Nat) : Bool := ip.flags &&& mask != 0

/-- Modelled from the spec: `kmutex_holding`, true iff the mutex is held and the
holder is the calling process (as `mutex_holding` of `sync.c`). -/
def kmutex_holding (me : Nat) (m : Option Nat) : Bool := m == some me

/-- Modelled from the spec: `kmutex_lock`, "while holder ≠ null sleep; set
holder = current thread".  The result is the new holder, or `none` when the
caller has to sleep (the mutex is held, be it by the caller itself: mutexes are
not recursive).  `mutex_lock` of `sync.c` is the same loop. -/
def kmutex_lock (me : Nat) (m : Option Nat) : Option (Option Nat) :=
  match m with
  | none => some (some me)
  | some _ => none

/-- Modelled from the spec: `kmutex_unlock`, "requires holding; clears holder".
The result is the new holder, or `none` when the caller does not hold the mutex
and the kernel panics (as `mutex_unlock` of `sync.c`). -/
def kmutex_unlock (me : Nat) (m : Option Nat) : Option (Option Nat) :=
  if kmutex_holding me m then some none else none

/-! ## The inode cache -/

/-- A zeroed slot of the static `inode_cache.buf` after `kmutex_init`. -/
def Inode.zero (addr : Nat) : Inode :=
  { addr := addr, ino := 0, dev := 0, ref_count := 0, flags := 0, mutex := none,
    mode := 0, nlink := 0, uid := 0, gid := 0, size := 0,
    atime := 0, mtime := 0, ctime := 0 }

/-- `fs_inode_cache_init`: every slot of `buf` is appended to the (empty) list,
in address order.  The array size `INODE_CACHE_SIZE` is a parameter. -/
def fs_inode_cache_init (INODE_CACHE_SIZE : Nat) : FsState :=
  { inode_cache := (List.range INODE_CACHE_SIZE).map Inode.zero, calls := [] }

/-- The `LIST_FOREACH` loop of `fs_inode_get`, run on the remaining part of the
list.  `i` is the position of the head of the remaining part, `empty` the
position last stored in the variable `empty`.  The result is `Sum.inl k` when
the loop returned from inside at position `k`, and `Sum.inr empty` when it ran
to the end of the list. -/
def fs_inode_get_loop (ino dev : Nat) : List Inode → Nat → Option Nat → Sum Nat (Option Nat)
  | [], _, empty => Sum.inr empty
  | ip :: rest, i, empty =>
    if ip.ino = ino ∧ ip.dev = dev then Sum.inl i
    else fs_inode_get_loop ino dev rest (i + 1) (if ip.ref_count = 0 then some i else empty)

/-- `fs_inode_get`: the returned pointer (`none` is NULL) and the new state.
The critical section on `inode_cache.lock` is entered with the lock free and
left with the lock free. -/
def fs_inode_get (ino dev : Nat) (s : FsState) : Option Nat × FsState :=
  match fs_inode_get_loop ino dev s.inode_cache 0 none with
  | Sum.inl k =>
    let hit := fun (ip : Inode) => { ip with ref_count := ip.ref_count + 1 }
    (s.inode_cache[k]?.map (·.addr), { s with inode_cache := s.inode_cache.modify hit k })
  | Sum.inr (some k) =>
    let fill := fun (ip : Inode) => { ip with ref_count := 1, ino := ino, dev := dev, flags := 0 }
    (s.inode_cache[k]?.map (·.addr), { s with inode_cache := s.inode_cache.modify fill k })
  | Sum.inr none => (none, s)

/-- `fs_inode_duplicate`. -/
def fs_inode_duplicate (s : FsState) (p : Nat) : Outcome FsState Nat :=
  match s.deref p with
  | none => Outcome.fault
  | some inode =>
    let inode1 := { inode with ref_count := inode.ref_count + 1 }
    Outcome.ret p { s with inode_cache := s.store p inode1 }

/-- `fs_inode_put`.  `kmutex_lock` sleeps when the mutex is held; otherwise the
caller owns the mutex until `kmutex_unlock`.  When the reference count reaches
zero, `list_remove` and `list_add_front` move the slot to the head of the
list. -/
def fs_inode_put (K : Config) (X : Ext2) (cur : Process) (s : FsState) (p : Nat) :
    Outcome FsState Unit :=
  match s.deref p with
  | none => Outcome.fault
  | some inode0 =>
    match kmutex_lock cur.pid inode0.mutex with
    | none => Outcome.blocked s
    | some m =>
      let inode := { inode0 with mutex := m }
      if inode.has K.FS_INODE_DIRTY then
        Outcome.panic "inode dirty" { s with inode_cache := s.store p inode }
      else
        let del : Bool := inode.has K.FS_INODE_VALID && inode.nlink == 0 && inode.ref_count == 1
        let inode1 : Inode :=
          if del then
            { inode with toMeta := X.ext2_delete_inode inode,
                         flags := clear_bits inode.flags K.FS_INODE_VALID }
          else inode
        let calls := if del then s.calls ++ [Call.ext2_delete_inode p] else s.calls
        match kmutex_unlock cur.pid inode1.mutex with
        | none => Outcome.panic "not holding" { inode_cache := s.store p inode1, calls := calls }
        | some m1 =>
          let inode2 := { inode1 with mutex := m1, ref_count := inode1.ref_count - 1 }
          if inode2.ref_count = 0 then
            Outcome.ret () { inode_cache := inode2 :: s.inode_cache.filter (fun ip => ip.addr ≠ p),
                             calls := calls }
          else
            Outcome.ret () { inode_cache := s.store p inode2, calls := calls }

/-! ## Permissions -/

/-- `fs_inode_can_read`. -/
def fs_inode_can_read (K : Config) (my_process : Process) (inode : Inode) : Nat :=
  if my_process.uid = 0 then 1
  else if my_process.uid = inode.uid ∧ inode.mode &&& K.S_IRUSR ≠ 0 then 1
  else if my_process.gid = inode.gid ∧ inode.mode &&& K.S_IRGRP ≠ 0 then 1
  else inode.mode &&& K.S_IROTH

/-- `fs_inode_can_write`. -/
def fs_inode_can_write (K : Config) (my_process : Process) (inode : Inode) : Nat :=
  if my_process.uid = 0 then 1
  else if my_process.uid = inode.uid ∧ inode.mode &&& K.S_IWUSR ≠ 0 then 1
  else if my_process.gid = inode.gid ∧ inode.mode &&& K.S_IWGRP ≠ 0 then 1
  else inode.mode &&& K.S_IWOTH

/-- `fs_inode_can_execute`. -/
def fs_inode_can_execute (K : Config) (my_process : Process) (inode : Inode) : Nat :=
  if my_process.uid = 0 then inode.mode &&& (K.S_IXUSR ||| K.S_IXGRP ||| K.S_IXOTH)
  else if my_process.uid = inode.uid ∧ inode.mode &&& K.S_IXUSR ≠ 0 then 1
  else if my_process.gid = inode.gid ∧ inode.mode &&& K.S_IXGRP ≠ 0 then 1
  else inode.mode &&& K.S_IXOTH

/-- `fs_permissions`: the requested bits (given in the "other" position) are
shifted to the class of the caller and all of them must be set. -/
def fs_permissions (proc : Process) (inode : Inode) (mode : Nat) : Nat :=
  let mode1 := if proc.uid = inode.uid then mode <<< 6
               else if proc.gid = inode.gid then mode <<< 3
               else mode
  if inode.mode &&& mode1 = mode1 then 1 else 0

/-- `fs_inode_holding`. -/
def fs_inode_holding (cur : Process) (ip : Inode) : Bool := kmutex_holding cur.pid ip.mutex

/-- The macro `S_ISDIR`. -/
def S_ISDIR (K : Config) (mode : Nat) : Bool := mode &&& K.S_IFMT == K.S_IFDIR

/-! ## Locking -/

/-- `fs_inode_lock`. -/
def fs_inode_lock (K : Config) (X : Ext2) (cur : Process) (s : IState) : Outcome IState Unit :=
  match kmutex_lock cur.pid s.ip.mutex with
  | none => Outcome.blocked s
  | some m =>
    let ip := { s.ip with mutex := m }
    if ip.has K.FS_INODE_VALID then Outcome.ret () { s with ip := ip }
    else if ip.has K.FS_INODE_DIRTY then Outcome.panic "inode dirty" { s with ip := ip }
    else
      Outcome.ret ()
        { ip := { ip with toMeta := X.ext2_read_inode ip, flags := ip.flags ||| K.FS_INODE_VALID },
          calls := s.calls ++ [Call.ext2_read_inode ip.addr] }

/-- `fs_inode_unlock`. -/
def fs_inode_unlock (K : Config) (X : Ext2) (cur : Process) (s : IState) : Outcome IState Unit :=
  if !s.ip.has K.FS_INODE_VALID then Outcome.panic "inode not valid" s
  else
    let s1 : IState :=
      if s.ip.has K.FS_INODE_DIRTY then
        { ip := { s.ip with toMeta := X.ext2_write_inode s.ip,
                            flags := clear_bits s.ip.flags K.FS_INODE_DIRTY },
          calls := s.calls ++ [Call.ext2_write_inode s.ip.addr] }
      else s
    match kmutex_unlock cur.pid s1.ip.mutex with
    | none => Outcome.panic "not holding" s1
    | some m => Outcome.ret () { s1 with ip := { s1.ip with mutex := m } }

/-! ## Reading and writing -/

/-- Sequencing of two steps: the second runs on the state the first returns
in; a panic, a sleep or a fault of the first ends the run. -/
def Outcome.bind {σ α β : Type} (o : Outcome σ α) (f : α → σ → Outcome σ β) : Outcome σ β :=
  match o with
  | Outcome.ret a s => f a s
  | Outcome.panic msg s => Outcome.panic msg s
  | Outcome.blocked s => Outcome.blocked s
  | Outcome.fault => Outcome.fault

/-- The macro `S_ISCHR`. -/
def S_ISCHR (K : Config) (mode : Nat) : Bool := mode &&& K.S_IFMT == K.S_IFCHR

/-- The macro `S_ISBLK`. -/
def S_ISBLK (K : Config) (mode : Nat) : Bool := mode &&& K.S_IFMT == K.S_IFBLK

/-- The number of values of a machine word: offsets (`off_t`) and byte counts
(`size_t`) are words of `LONG_BIT` bits, and `*off + nbyte` is computed modulo
this number. -/
def Config.word (K : Config) : Nat := 2 ^ K.LONG_BIT

/-- A signed word (`off_t`, `ssize_t`) converted to the unsigned type of the same
width (`size_t`), as the usual arithmetic conversions do when the two types
meet in an expression. -/
def Config.to_word (K : Config) (i : Int) : Nat := (i % (K.word : Int)).toNat

/-- The value that a signed word holds after the integer `i` was stored in it
(two's complement): `i` reduced modulo 2^LONG_BIT into the range
-2^(LONG_BIT-1) .. 2^(LONG_BIT-1) - 1. -/
def Config.to_signed (K : Config) (i : Int) : Int :=
  if K.to_word i < K.word / 2 then (K.to_word i : Int) else (K.to_word i : Int) - (K.word : Int)

/-- `fs_inode_read`.  `off` is the content of `*off` on entry; the result is the
return value and the content of `*off` on exit.  `*off` is an `off_t`, a signed
word, and `nbyte` a `size_t`, an unsigned word of the same width (the types of
`sys/types.h` are not in the excerpt).  In `(*off + nbyte) < *off` the usual
arithmetic conversions turn `*off` into the unsigned type, so the sum and the
comparison are unsigned; `*off += ret` is a signed addition whose result is
stored in the signed word.  The bytes transferred through `buf` are not part of
the state. -/
def fs_inode_read (K : Config) (X : Ext2) (D : Drivers) (cur : Process) (nbyte : Nat) (off : Int)
    (s : IState) : Outcome IState (Int × Int) :=
  if !fs_inode_holding cur s.ip then Outcome.panic "not locked" s
  else if fs_inode_can_read K cur s.ip = 0 then Outcome.ret (-K.EPERM, off) s
  else if S_ISCHR K s.ip.mode || S_ISBLK K s.ip.mode then
    (fs_inode_unlock K X cur s).bind fun _ s1 =>
      let ret := D.console_read nbyte
      let s2 : IState := { s1 with calls := s1.calls ++ [Call.console_read nbyte] }
      (fs_inode_lock K X cur s2).bind fun _ s3 => Outcome.ret (ret, off) s3
  else if (K.to_word off + nbyte) % K.word < K.to_word off then Outcome.ret (-K.EINVAL, off) s
  else
    let r := X.ext2_inode_read s.ip nbyte off
    let s1 : IState := { ip := { s.ip with toMeta := r.2 },
                         calls := s.calls ++ [Call.ext2_inode_read s.ip.addr nbyte off] }
    if r.1 < 0 then Outcome.ret (r.1, off) s1
    else Outcome.ret (r.1, K.to_signed (off + r.1)) s1

/-- `fs_inode_write`, with `off` and the result as for `fs_inode_read`. -/
def fs_inode_write (K : Config) (X : Ext2) (D : Drivers) (cur : Process) (nbyte : Nat) (off : Int)
    (s : IState) : Outcome IState (Int × Int) :=
  if !fs_inode_holding cur s.ip then Outcome.panic "not locked" s
  else if fs_inode_can_write K cur s.ip = 0 then Outcome.ret (-K.EPERM, off) s
  else if S_ISCHR K s.ip.mode || S_ISBLK K s.ip.mode then
    (fs_inode_unlock K X cur s).bind fun _ s1 =>
      let total := D.console_write nbyte
      let s2 : IState := { s1 with calls := s1.calls ++ [Call.console_write nbyte] }
      (fs_inode_lock K X cur s2).bind fun _ s3 => Outcome.ret (total, off) s3
  else if (K.to_word off + nbyte) % K.word < K.to_word off then Outcome.ret (-K.EINVAL, off) s
  else
    let r := X.ext2_inode_write s.ip nbyte off
    let s1 : IState := { ip := { s.ip with toMeta := r.2 },
                         calls := s.calls ++ [Call.ext2_inode_write s.ip.addr nbyte off] }
    if r.1 > 0 then Outcome.ret (r.1, K.to_signed (off + r.1)) s1
    else Outcome.ret (r.1, off) s1

/-! ## Reading a directory -/

/-- The record `struct dirent` that `fs_filldir` writes into the buffer. -/
structure Dirent where
  d_ino     : Nat
  d_off     : Nat
  d_reclen  : Nat
  d_namelen : Nat
  d_type    : Nat
  d_name    : String
deriving DecidableEq, Repr

/-- `fs_filldir`: the record written at `buf`; the function returns its
`d_reclen`.  The sum `name_len + offsetof (struct dirent, d_name)` of a
`uint16_t` and a small constant is exact. -/
def fs_filldir (K : Config) (a : FillArgs) : Dirent :=
  { d_reclen := a.name_len + K.offsetof_d_name, d_ino := a.ino, d_off := a.off,
    d_namelen := a.name_len, d_type := a.type, d_name := a.name }

/-- The value of a machine word read as the signed type `ssize_t`. -/
def Config.to_ssize (K : Config) (n : Nat) : Int :=
  if n % K.word < K.word / 2 then (n % K.word : Nat) else (n % K.word : Nat) - (K.word : Int)

/-- What `fs_inode_read_dir` leaves behind: the return value, the content of
`*off`, the records accepted into the buffer in order, each with the result of
the `ext2_readdir` call that produced it, and for every call of `fs_filldir` the
offset in the buffer at which it wrote and the number of bytes it wrote (header
and name). -/
structure ReadDir where
  ret    : Int
  off    : Nat
  stored : List (Nat × Dirent)
  writes : List (Nat × Nat)
deriving DecidableEq, Repr

/-- The `while (nbyte > 0)` loop of `fs_inode_read_dir` and the final
`return total`.  `fuel` bounds the number of iterations; the result is `none`
when the bound is reached.  `v` holds `total` (in `ret`, as a machine word),
`*off`, and the records and writes so far; `dst` is `buf + total`.  A positive
result of `ext2_readdir` without a call of `filldir` makes the loop read a
`d_reclen` that nobody wrote: this is the outcome `fault`. -/
def fs_inode_read_dir_loop (K : Config) (X : Ext2) :
    Nat → Nat → Nat → ReadDir → IState → Option (Outcome IState ReadDir)
  | 0, _, _, _, _ => none
  | fuel + 1, nbyte, total, v, s =>
    if nbyte > 0 then
      let r := X.ext2_readdir s.ip v.off
      let s1 : IState := { ip := { s.ip with toMeta := r.2.2 },
                           calls := s.calls ++ [Call.ext2_readdir s.ip.addr v.off] }
      let writes := match r.2.1 with
        | some a => v.writes ++ [(total, K.offsetof_d_name + a.name_len)]
        | none => v.writes
      if r.1 < 0 then some (Outcome.ret { v with ret := r.1, writes := writes } s1)
      else if r.1 = 0 then
        some (Outcome.ret { v with ret := K.to_ssize total, writes := writes } s1)
      else
        match r.2.1 with
        | none => some Outcome.fault
        | some a =>
          let de := fs_filldir K a
          if de.d_reclen > nbyte then
            if total = 0 then
              some (Outcome.ret { v with ret := -K.EINVAL, writes := writes } s1)
            else some (Outcome.ret { v with ret := K.to_ssize total, writes := writes } s1)
          else
            fs_inode_read_dir_loop K X fuel (nbyte - de.d_reclen)
              ((total + de.d_reclen) % K.word)
              { ret := 0, off := (v.off + r.1.toNat) % K.word,
                stored := v.stored ++ [(r.1.toNat, de)], writes := writes }
              s1
    else some (Outcome.ret { v with ret := K.to_ssize total } s)

/-- `fs_inode_read_dir`, with `off` the content of `*off` on entry. -/
def fs_inode_read_dir (K : Config) (X : Ext2) (cur : Process) (fuel nbyte off : Nat)
    (s : IState) : Option (Outcome IState ReadDir) :=
  if !fs_inode_holding cur s.ip then some (Outcome.panic "not locked" s)
  else if fs_inode_can_read K cur s.ip = 0 then
    some (Outcome.ret { ret := -K.EPERM, off := off, stored := [], writes := [] } s)
  else
    fs_inode_read_dir_loop K X fuel nbyte 0 { ret := 0, off := off, stored := [], writes := [] } s

/-! ## Metadata -/

/-- The fields of `struct stat` that `fs_inode_stat` fills in. -/
structure Stat where
  st_mode  : Nat
  st_ino   : Nat
  st_dev   : Nat
  st_nlink : Nat
  st_uid   : Nat
  st_gid   : Nat
  st_size  : Nat
  st_atime : Nat
  st_mtime : Nat
  st_ctime : Nat
deriving DecidableEq, Repr

/-- `fs_inode_stat`: the return value and the content of `*buf`. -/
def fs_inode_stat (cur : Process) (s : IState) : Outcome IState (Int × Stat) :=
  if !fs_inode_holding cur s.ip then Outcome.panic "not locked" s
  else
    Outcome.ret
      (0, { st_mode := s.ip.mode, st_ino := s.ip.ino, st_dev := s.ip.dev,
            st_nlink := s.ip.nlink, st_uid := s.ip.uid, st_gid := s.ip.gid,
            st_size := s.ip.size, st_atime := s.ip.atime, st_mtime := s.ip.mtime,
            st_ctime := s.ip.ctime })
      s

/-- `fs_inode_truncate`. -/
def fs_inode_truncate (K : Config) (X : Ext2) (cur : Process) (s : IState) : Outcome IState Int :=
  if !fs_inode_holding cur s.ip then Outcome.panic "not locked" s
  else if fs_inode_can_write K cur s.ip = 0 then Outcome.ret (-K.EPERM) s
  else
    Outcome.ret 0
      { ip := { s.ip with toMeta := X.ext2_inode_trunc s.ip },
        calls := s.calls ++ [Call.ext2_inode_trunc s.ip.addr] }

/-! ## Directory operations -/

/-- `fs_inode_lookup` on the directory `s.ip`.  `istore` tells whether the
pointer `istore` is non-NULL; the result is the return value and, when
something was stored in `*istore`, the pointer stored.  With `istore == NULL`
and `inode == NULL` the code calls `fs_inode_put (NULL)`, whose first step
dereferences the null pointer: the outcome is `fault`. -/
def fs_inode_lookup (K : Config) (X : Ext2) (cur : Process) (name : String) (istore : Bool)
    (s : IState) : Outcome IState (Int × Option (Option Nat)) :=
  if !fs_inode_holding cur s.ip then Outcome.panic "not locked" s
  else if !S_ISDIR K s.ip.mode then Outcome.ret (-K.ENOTDIR, none) s
  else if fs_inode_can_read K cur s.ip = 0 then Outcome.ret (-K.EPERM, none) s
  else
    let l := X.ext2_inode_lookup s.ip name
    let s1 : IState := { ip := { s.ip with toMeta := l.2 },
                         calls := s.calls ++ [Call.ext2_inode_lookup s.ip.addr name] }
    if istore then Outcome.ret (0, some l.1) s1
    else if l.1 = none then Outcome.fault
    else Outcome.ret (0, none) s1

/-- `fs_inode_link`. -/
def fs_inode_link (K : Config) (X : Ext2) (cur : Process) (name : String) (s : IIState) :
    Outcome IIState Int :=
  if !fs_inode_holding cur s.inode then Outcome.panic "inode not locked" s
  else if !fs_inode_holding cur s.dir then Outcome.panic "directory not locked" s
  else if !S_ISDIR K s.dir.mode then Outcome.ret (-K.ENOTDIR) s
  else if fs_inode_can_write K cur s.dir = 0 then Outcome.ret (-K.EPERM) s
  else if S_ISDIR K s.inode.mode then Outcome.ret (-K.EPERM) s
  else if s.inode.nlink ≥ K.LINK_MAX then Outcome.ret (-K.EMLINK) s
  else if s.dir.dev ≠ s.inode.dev then Outcome.ret (-K.EXDEV) s
  else
    let r := X.ext2_inode_link s.dir name s.inode
    Outcome.ret r.1
      { inode := { s.inode with toMeta := r.2.2 }, dir := { s.dir with toMeta := r.2.1 },
        calls := s.calls ++ [Call.ext2_inode_link s.dir.addr name s.inode.addr] }

/-- `fs_inode_rmdir`. -/
def fs_inode_rmdir (K : Config) (X : Ext2) (cur : Process) (s : IIState) : Outcome IIState Int :=
  if !fs_inode_holding cur s.inode then Outcome.panic "inode not locked" s
  else if !fs_inode_holding cur s.dir then Outcome.panic "directory not locked" s
  else if !S_ISDIR K s.dir.mode then Outcome.ret (-K.ENOTDIR) s
  else if fs_inode_can_write K cur s.dir = 0 then Outcome.ret (-K.EPERM) s
  else if S_ISDIR K s.inode.mode then Outcome.ret (-K.EPERM) s
  else
    let r := X.ext2_inode_rmdir s.dir s.inode
    Outcome.ret r.1
      { inode := { s.inode with toMeta := r.2.2 }, dir := { s.dir with toMeta := r.2.1 },
        calls := s.calls ++ [Call.ext2_inode_rmdir s.dir.addr s.inode.addr] }

/-- `fs_inode_unlink`. -/
def fs_inode_unlink (K : Config) (X : Ext2) (cur : Process) (s : IIState) : Outcome IIState Int :=
  if !fs_inode_holding cur s.inode then Outcome.panic "inode not locked" s
  else if !fs_inode_holding cur s.dir then Outcome.panic "directory not locked" s
  else if !S_ISDIR K s.dir.mode then Outcome.ret (-K.ENOTDIR) s
  else if fs_inode_can_write K cur s.dir = 0 then Outcome.ret (-K.EPERM) s
  else if S_ISDIR K s.inode.mode then Outcome.ret (-K.EPERM) s
  else
    let r := X.ext2_inode_unlink s.dir s.inode
    Outcome.ret r.1
      { inode := { s.inode with toMeta := r.2.2 }, dir := { s.dir with toMeta := r.2.1 },
        calls := s.calls ++ [Call.ext2_inode_unlink s.dir.addr s.inode.addr] }

/-- `fs_inode_create` on the directory `s.ip`.  `istore` is the content of
`*istore` on entry; the result is the return value and the content of `*istore`
on exit. -/
def fs_inode_create (K : Config) (X : Ext2) (cur : Process) (name : String) (mode dev : Nat)
    (istore : Option Nat) (s : IState) : Outcome IState (Int × Option Nat) :=
  if !fs_inode_holding cur s.ip then Outcome.panic "directory not locked" s
  else if !S_ISDIR K s.ip.mode then Outcome.ret (-K.ENOTDIR, istore) s
  else if fs_inode_can_write K cur s.ip = 0 then Outcome.ret (-K.EPERM, istore) s
  else
    let l := X.ext2_inode_lookup s.ip name
    let dir : Inode := { s.ip with toMeta := l.2 }
    let calls := s.calls ++ [Call.ext2_inode_lookup s.ip.addr name]
    if l.1 ≠ none then Outcome.ret (-K.EEXISTS, istore) { ip := dir, calls := calls }
    else if mode &&& K.S_IFMT = K.S_IFDIR then
      let r := X.ext2_inode_mkdir dir name mode
      Outcome.ret (r.1, r.2.2)
        { ip := { dir with toMeta := r.2.1 },
          calls := calls ++ [Call.ext2_inode_mkdir dir.addr name mode] }
    else if mode &&& K.S_IFMT = K.S_IFREG then
      let r := X.ext2_inode_create dir name mode
      Outcome.ret (r.1, r.2.2)
        { ip := { dir with toMeta := r.2.1 },
          calls := calls ++ [Call.ext2_inode_create dir.addr name mode] }
    else
      let r := X.ext2_inode_mknod dir name mode dev
      Outcome.ret (r.1, r.2.2)
        { ip := { dir with toMeta := r.2.1 },
          calls := calls ++ [Call.ext2_inode_mknod dir.addr name mode dev] }

/-- `fs_inode_chmod`. -/
def fs_inode_chmod (K : Config) (D : Drivers) (current : Process) (mode : Nat) (s : IState) :
    Outcome IState Int :=
  if !fs_inode_holding current s.ip then Outcome.panic "not holding" s
  else if current.uid ≠ 0 ∧ s.ip.uid ≠ current.uid then Outcome.ret (-K.EPERM) s
  else
    let ip : Inode := { s.ip with mode := mode, ctime := D.rtc_get_time,
                                  flags := s.ip.flags ||| K.FS_INODE_DIRTY }
    Outcome.ret 0 { s with ip := ip }

/-! ## Locking two inodes -/

/-- A call of `fs_inode_lock` or `fs_inode_unlock`, with the address of the
inode passed. -/
inductive InodeCall where
  | lock (ip : Nat)
  | unlock (ip : Nat)
deriving DecidableEq, Repr

/-- `fs_inode_lock_two`: the calls it makes, in program order.  The pointers
are compared as addresses. -/
def fs_inode_lock_two (inode1 inode2 : Nat) : List InodeCall :=
  if inode1 < inode2 then [InodeCall.lock inode1, InodeCall.lock inode2]
  else [InodeCall.lock inode2, InodeCall.lock inode1]

/-- `fs_inode_unlock_two`: the calls it makes, in program order. -/
def fs_inode_unlock_two (inode1 inode2 : Nat) : List InodeCall :=
  if inode1 < inode2 then [InodeCall.unlock inode2, InodeCall.unlock inode1]
  else [InodeCall.unlock inode1, InodeCall.unlock inode2]

/-- An operation on one inode, run on the slot of the cache at address `p`. -/
def FsState.on_inode {α : Type} (s : FsState) (p : Nat) (f : IState → Outcome IState α) :
    Outcome FsState α :=
  match s.deref p with
  | none => Outcome.fault
  | some ip =>
    match f { ip := ip, calls := s.calls } with
    | Outcome.ret a t => Outcome.ret a { inode_cache := s.store p t.ip, calls := t.calls }
    | Outcome.panic msg t => Outcome.panic msg { inode_cache := s.store p t.ip, calls := t.calls }
    | Outcome.blocked t => Outcome.blocked { inode_cache := s.store p t.ip, calls := t.calls }
    | Outcome.fault => Outcome.fault

/-- The effect of one call on the cache. -/
def InodeCall.run (K : Config) (X : Ext2) (cur : Process) (c : InodeCall) (s : FsState) :
    Outcome FsState Unit :=
  match c with
  | InodeCall.lock p => s.on_inode p (fs_inode_lock K X cur)
  | InodeCall.unlock p => s.on_inode p (fs_inode_unlock K X cur)

/-- The effect of a sequence of calls made one after the other. -/
def InodeCall.run_all (K : Config) (X : Ext2) (cur : Process) :
    List InodeCall → FsState → Outcome FsState Unit
  | [], s => Outcome.ret () s
  | c :: cs, s => (c.run K X cur s).bind fun _ t => InodeCall.run_all K X cur cs t

/-! ## Spinlocks (`kernel/sync.c`) -/

/-- The lock `struct SpinLock`: the flag `locked`, the owning CPU (`none` is
NULL), the name and the saved caller PCs. -/
structure SpinLock where
  locked : Nat
  cpu    : Option Nat
  name   : String
  pcs    : List Nat
deriving DecidableEq, Repr

/-- Modelled from the spec: the per-CPU state behind `my_cpu ()`, `irq_save ()`
and `irq_restore ()` (their code is not in the excerpt): the identity of the
CPU, the IRQ nesting counter, whether interrupts are enabled, and whether they
were enabled when the outermost `irq_save` disabled them. -/
structure Cpu where
  id             : Nat
  irq_save_count : Nat
  irq_flags      : Bool
  irq_enabled    : Bool
deriving DecidableEq, Repr

/-- Modelled from the spec: `irq_save`, "acquiring disables interrupts on the
local CPU"; nested calls increment the per-CPU counter. -/
def irq_save (c : Cpu) : Cpu :=
  { c with irq_flags := if c.irq_save_count = 0 then c.irq_enabled else c.irq_flags,
           irq_enabled := false,
           irq_save_count := c.irq_save_count + 1 }

/-- Modelled from the spec: `irq_restore`, interrupts are re-enabled "only when
the outermost lock on that CPU is released". -/
def irq_restore (c : Cpu) : Cpu :=
  if c.irq_save_count = 0 then c
  else
    { c with irq_save_count := c.irq_save_count - 1,
             irq_enabled := if c.irq_save_count - 1 = 0 then c.irq_flags else c.irq_enabled }

/-- The state seen by the spinlock functions: the lock and the CPU that runs
the function. -/
structure SpinState where
  lock : SpinLock
  cpu  : Cpu
deriving DecidableEq, Repr

/-- `spin_init`. -/
def spin_init (lock : SpinLock) (name : String) : SpinLock :=
  { lock with locked := 0, cpu := none, name := name }

/-- `spin_holding`: the result and the state after the call. -/
def spin_holding (s : SpinState) : Int × SpinState :=
  let c1 := irq_save s.cpu
  let r : Int := if s.lock.locked ≠ 0 ∧ s.lock.cpu = some c1.id then 1 else 0
  (r, { s with cpu := irq_restore c1 })

/-- `spin_save_caller_pcs`: `stack` lists the return addresses found along the
frame pointer chain, up to the frame whose pointer is NULL; the first
`NCALLERPCS` of them are recorded and the rest of the array is zeroed. -/
def spin_save_caller_pcs (K : Config) (stack : List Nat) : List Nat :=
  stack.take K.NCALLERPCS ++ List.replicate (K.NCALLERPCS - stack.length) 0

/-- `spin_lock`.  The `ldrex`/`strex` loop waits until `locked` is 0 and then
sets it to 1; on a lock that is held the CPU spins, which is the outcome
`blocked`. -/
def spin_lock (K : Config) (stack : List Nat) (s : SpinState) : Outcome SpinState Unit :=
  let s1 : SpinState := { s with cpu := irq_save s.cpu }
  let h := spin_holding s1
  if h.1 ≠ 0 then Outcome.panic "CPU %d is already holding %s" h.2
  else if h.2.lock.locked ≠ 0 then Outcome.blocked h.2
  else
    Outcome.ret ()
      { h.2 with lock := { h.2.lock with locked := 1, cpu := some h.2.cpu.id,
                                         pcs := spin_save_caller_pcs K stack } }

/-- `spin_unlock`. -/
def spin_unlock (s : SpinState) : Outcome SpinState Unit :=
  let h := spin_holding s
  if h.1 = 0 then Outcome.panic "CPU %d cannot release %s: held by %d" h.2
  else
    Outcome.ret ()
      { lock := { h.2.lock with cpu := none, pcs := h.2.lock.pcs.set 0 0, locked := 0 },
        cpu := irq_restore h.2.cpu }

/-! ## Mutexes (`kernel/sync.c`) -/

/-- The lock `struct Mutex`: the inner spinlock, the queue of sleeping
processes, the holder (`none` is NULL) and the name. -/
structure Mutex where
  lock    : SpinLock
  queue   : List Nat
  process : Option Nat
  name    : String
deriving DecidableEq, Repr

/-- Modelled from the spec: a call of `process_sleep` or of `process_wakeup` on
the queue of the mutex (their code is not in the excerpt).  "While holder ≠ null
calls `wait_queue_sleep (mutex.q, mutex.lock)`" and "wakes the queue": only the
call is recorded. -/
inductive SyncCall where
  | process_sleep
  | process_wakeup
deriving DecidableEq, Repr

/-- The state seen by the mutex functions: the mutex, the CPU that runs the
function and the calls of `process_sleep` and `process_wakeup` made so far. -/
structure MutexState where
  mutex : Mutex
  cpu   : Cpu
  calls : List SyncCall
deriving DecidableEq, Repr

/-- A spinlock function run on the inner spinlock `mutex->lock`. -/
def MutexState.on_lock {α : Type} (s : MutexState) (f : SpinState → Outcome SpinState α) :
    Outcome MutexState α :=
  match f { lock := s.mutex.lock, cpu := s.cpu } with
  | Outcome.ret a t =>
    Outcome.ret a { mutex := { s.mutex with lock := t.lock }, cpu := t.cpu, calls := s.calls }
  | Outcome.panic msg t =>
    Outcome.panic msg { mutex := { s.mutex with lock := t.lock }, cpu := t.cpu, calls := s.calls }
  | Outcome.blocked t =>
    Outcome.blocked { mutex := { s.mutex with lock := t.lock }, cpu := t.cpu, calls := s.calls }
  | Outcome.fault => Outcome.fault

/-- `mutex_init`. -/
def mutex_init (mutex : Mutex) (name : String) : Mutex :=
  { lock := spin_init mutex.lock name, queue := [], process := none, name := name }

/-- `mutex_lock`.  `my_process` is the value of `my_process ()` (`none` is
NULL) and `stack` the chain of return addresses seen by `spin_lock`.  On a mutex
that is held the caller goes to sleep in `process_sleep`: the outcome is
`blocked`, with the call recorded. -/
def mutex_lock (K : Config) (stack : List Nat) (my_process : Option Nat) (s : MutexState) :
    Outcome MutexState Unit :=
  (s.on_lock (spin_lock K stack)).bind fun _ s1 =>
    if s1.mutex.process ≠ none then
      Outcome.blocked { s1 with calls := s1.calls ++ [SyncCall.process_sleep] }
    else
      let s2 : MutexState := { s1 with mutex := { s1.mutex with process := my_process } }
      s2.on_lock spin_unlock

/-- `mutex_holding`: the result and the state after the call. -/
def mutex_holding (K : Config) (stack : List Nat) (my_process : Option Nat) (s : MutexState) :
    Outcome MutexState Int :=
  (s.on_lock (spin_lock K stack)).bind fun _ s1 =>
    let process := s1.mutex.process
    (s1.on_lock spin_unlock).bind fun _ s2 =>
      Outcome.ret (if process ≠ none ∧ process = my_process then 1 else 0) s2

/-- `mutex_unlock`.  `stack1` is the chain of return addresses seen by the
`spin_lock` inside `mutex_holding`, `stack` the one seen by the `spin_lock` of
`mutex_unlock` itself. -/
def mutex_unlock (K : Config) (stack1 stack : List Nat) (my_process : Option Nat)
    (s : MutexState) : Outcome MutexState Unit :=
  (mutex_holding K stack1 my_process s).bind fun h s1 =>
    if h = 0 then Outcome.panic "not holding" s1
    else
      (s1.on_lock (spin_lock K stack)).bind fun _ s2 =>
        let s3 : MutexState :=
          { s2 with mutex := { s2.mutex with process := none },
                    calls := s2.calls ++ [SyncCall.process_wakeup] }
        s3.on_lock spin_unlock

/-! ## Key maps (`kernel/keymaps.h`) -/

/-- A character constant of C, an `int`. -/
def key (c : Char) : Int := c.toNat

/-- The macro `C(x)`, the key code for Ctrl+x: `(x) - '@'`, an `int`. -/
def C (x : Int) : Int := x - key '@'

/-- The value of an `int` initializer stored in a `uint8_t` array element. -/
def to_uint8 (i : Int) : Nat := (i % 256).toNat

/-- A `uint8_t [256]` table given by its leading initializers and its designated
initializers `[index] value`; the elements not mentioned are 0. -/
def key_table (leading : List Int) (designated : List (Nat × Int)) : List Nat :=
  (List.range 256).map fun sc =>
    match designated.lookup sc with
    | some v => to_uint8 v
    | none => to_uint8 (leading.getD sc 0)

/-- The table `shiftmap`: scan codes in the "shift" state.  Characters that the
source writes with an escape or that are brackets or quotes are given by their
code. -/
def shiftmap : List Nat :=
  key_table
    [0, 27, key '!', key '@', key '#', key '$', key '%', key '^',
     key '&', key '*', 40, 41, key '_', key '+', 8, 9,
     key 'Q', key 'W', key 'E', key 'R', key 'T', key 'Y', key 'U', key 'I',
     key 'O', key 'P', 123, 125, 10, 0, key 'A', key 'S',
     key 'D', key 'F', key 'G', key 'H', key 'J', key 'K', key 'L', key ':',
     34, key '~', 0, key '|', key 'Z', key 'X', key 'C', key 'V',
     key 'B', key 'N', key 'M', key '<', key '>', key '?', 0, key '*',
     0, key ' ', 0, 0, 0, 0, 0, 0,
     0, 0, 0, 0, 0, 0, 0, key '7',
     key '8', key '9', key '-', key '4', key '5', key '6', key '+', key '1',
     key '2', key '3', key '0', key '.', 0, 0, 0, 0]
    [(0x9C, 10), (0xB5, key '/')]

/-- The table `ctrlmap`: scan codes in the "ctrl" state, entry by entry as in
the source (the entry for scan code 0x15 is written `('Y')` there). -/
def ctrlmap : List Nat :=
  key_table
    [0, 0, 0, 0, 0, 0, 0, 0,
     0, 0, 0, 0, 0, 0, 0, 0,
     C (key 'Q'), C (key 'W'), C (key 'E'), C (key 'R'), C (key 'T'), key 'Y', C (key 'U'),
     C (key 'I'),
     C (key 'O'), C (key 'P'), 0, 0, 13, 0, C (key 'A'), C (key 'S'),
     C (key 'D'), C (key 'F'), C (key 'G'), C (key 'H'), C (key 'J'), C (key 'K'), C (key 'L'), 0,
     0, 0, 0, C 92, C (key 'Z'), C (key 'X'), C (key 'C'), C (key 'V'),
     C (key 'B'), C (key 'N'), C (key 'M'), 0, 0, C (key '/'), 0, 0]
    [(0x9C, 13), (0xB5, C (key '/'))]

/-! ## The PL011 UART (`kernel/arch/arm/drivers/pl011.c`) -/

/-- The registers of the UART that `pl011_init` writes, each a `uint32_t` at
`base [...]`. -/
structure Pl011 where
  UARTCR   : Nat
  UARTIBRD : Nat
  UARTFBRD : Nat
  UARTLCR  : Nat
  UARTECR  : Nat
  UARTIMSC : Nat
deriving DecidableEq, Repr

/-- `pl011_init`: the return value and the registers after the call, or `none`
for a division by zero.  `uart_clock` and `baud_rate` are `unsigned long`, so
the products are taken modulo the word size. -/
def pl011_init (K : Config) (pl011 : Pl011) (uart_clock baud_rate : Nat) : Option (Int × Pl011) :=
  if (16 * baud_rate) % K.word = 0 ∨ baud_rate = 0 then none
  else
    let r1 := { pl011 with UARTCR := clear_bits pl011.UARTCR (1 <<< 0) }
    let r2 := { r1 with UARTIBRD := (uart_clock / ((16 * baud_rate) % K.word)) &&& 0xFFFF }
    let r3 := { r2 with UARTFBRD := (((uart_clock * 4) % K.word / baud_rate) >>> 6) &&& 0x3F }
    let r4 := { r3 with UARTLCR := (1 <<< 4) ||| (3 <<< 5) }
    let r5 := { r4 with UARTECR := 0 }
    let r6 := { r5 with UARTCR := (1 <<< 0) ||| (1 <<< 8) ||| (1 <<< 9) }
    let r7 := { r6 with UARTIMSC := r6.UARTIMSC ||| (1 <<< 4) }
    some (0, r7)

/-! ## Unlock and put, and `fs_chmod` -/

/-- `fs_inode_unlock_put`, on the slot of the cache at address `p`. -/
def fs_inode_unlock_put (K : Config) (X : Ext2) (cur : Process) (s : FsState) (p : Nat) :
    Outcome FsState Unit :=
  (s.on_inode p (fs_inode_unlock K X cur)).bind fun _ t => fs_inode_put K X cur t p

/-- `fs_chmod`.  The code of `fs_name_lookup` is not part of the excerpt; it is
a parameter: called as (path, state) it gives its return value, the pointer it
leaves in `ip` and the state after the call. -/
def fs_chmod (K : Config) (X : Ext2) (D : Drivers) (cur : Process)
    (fs_name_lookup : String → FsState → Int × Nat × FsState) (path : String) (mode : Nat)
    (s : FsState) : Outcome FsState Int :=
  let l := fs_name_lookup path s
  if l.1 < 0 then Outcome.ret l.1 l.2.2
  else
    (l.2.2.on_inode l.2.1 (fs_inode_lock K X cur)).bind fun _ s1 =>
      (s1.on_inode l.2.1 (fs_inode_chmod K D cur mode)).bind fun r s2 =>
        (fs_inode_unlock_put K X cur s2 l.2.1).bind fun _ s3 => Outcome.ret r s3

/-! ## `fs_link`, `fs_unlink` and `fs_rmdir` -/

/-- The result of `fs_path_lookup (path, name, istore, &dir)`, whose code is not
part of the excerpt: the return value, the name copied to `name`, the pointer
left in `*istore` when `istore` is not NULL (`none` is the NULL pointer) and the
pointer left in `dir`. -/
structure PathLookup where
  r    : Int
  name : String
  ip   : Option Nat
  dir  : Nat
deriving DecidableEq, Repr

/-- An operation on an inode and a directory, run on the slots of the cache at
addresses `pi` (the inode) and `pd` (the directory).  The directory is written
back first and the inode second.  The path-level operations get here with two
different slots only: with one slot for both, `fs_inode_lock_two` before it does
not return. -/
def FsState.on_two {α : Type} (s : FsState) (pi pd : Nat) (f : IIState → Outcome IIState α) :
    Outcome FsState α :=
  match s.deref pi, s.deref pd with
  | some inode, some dir =>
    let back := fun (t : IIState) =>
      ({ inode_cache :=
           ({ inode_cache := s.store pd t.dir, calls := t.calls } : FsState).store pi t.inode,
         calls := t.calls } : FsState)
    match f { inode := inode, dir := dir, calls := s.calls } with
    | Outcome.ret a t => Outcome.ret a (back t)
    | Outcome.panic msg t => Outcome.panic msg (back t)
    | Outcome.blocked t => Outcome.blocked (back t)
    | Outcome.fault => Outcome.fault
  | _, _ => Outcome.fault

/-- `fs_link`.  The code of `fs_name_lookup` and of `fs_path_lookup` is not part
of the excerpt; they are parameters: called as (path, state) resp. as
(path, whether `istore` is non-NULL, state) they give their results and the
state after the call.  The statements after the label `out1` run after the body,
whichever way the body is left. -/
def fs_link (K : Config) (X : Ext2) (cur : Process)
    (fs_name_lookup : String → FsState → Int × Nat × FsState)
    (fs_path_lookup : String → Bool → FsState → PathLookup × FsState)
    (path1 path2 : String) (s : FsState) : Outcome FsState Int :=
  let n := fs_name_lookup path1 s
  if n.1 < 0 then Outcome.ret n.1 n.2.2
  else
    let ip := n.2.1
    let l := fs_path_lookup path2 false n.2.2
    let body : Outcome FsState Int :=
      if l.1.r < 0 then Outcome.ret l.1.r l.2
      else
        (InodeCall.run_all K X cur (fs_inode_lock_two l.1.dir ip) l.2).bind fun _ s1 =>
          (s1.on_two ip l.1.dir (fs_inode_link K X cur l.1.name)).bind fun r s2 =>
            (InodeCall.run_all K X cur (fs_inode_unlock_two l.1.dir ip) s2).bind fun _ s3 =>
              (fs_inode_put K X cur s3 l.1.dir).bind fun _ s4 => Outcome.ret r s4
    body.bind fun r s5 => (fs_inode_put K X cur s5 ip).bind fun _ s6 => Outcome.ret r s6

/-- `fs_unlink`, with `fs_path_lookup` as for `fs_link`. -/
def fs_unlink (K : Config) (X : Ext2) (cur : Process)
    (fs_path_lookup : String → Bool → FsState → PathLookup × FsState)
    (path : String) (s : FsState) : Outcome FsState Int :=
  let l := fs_path_lookup path true s
  if l.1.r < 0 then Outcome.ret l.1.r l.2
  else
    match l.1.ip with
    | none => (fs_inode_put K X cur l.2 l.1.dir).bind fun _ s1 => Outcome.ret (-K.ENOENT) s1
    | some ip =>
      (InodeCall.run_all K X cur (fs_inode_lock_two l.1.dir ip) l.2).bind fun _ s1 =>
        (s1.on_two ip l.1.dir (fs_inode_unlink K X cur)).bind fun r s2 =>
          (InodeCall.run_all K X cur (fs_inode_unlock_two l.1.dir ip) s2).bind fun _ s3 =>
            (fs_inode_put K X cur s3 l.1.dir).bind fun _ s4 =>
              (fs_inode_put K X cur s4 ip).bind fun _ s5 => Outcome.ret r s5

/-- `fs_rmdir`, with `fs_path_lookup` as for `fs_link`. -/
def fs_rmdir (K : Config) (X : Ext2) (cur : Process)
    (fs_path_lookup : String → Bool → FsState → PathLookup × FsState)
    (path : String) (s : FsState) : Outcome FsState Int :=
  let l := fs_path_lookup path true s
  if l.1.r < 0 then Outcome.ret l.1.r l.2
  else
    match l.1.ip with
    | none => (fs_inode_put K X cur l.2 l.1.dir).bind fun _ s1 => Outcome.ret (-K.ENOENT) s1
    | some ip =>
      (InodeCall.run_all K X cur (fs_inode_lock_two l.1.dir ip) l.2).bind fun _ s1 =>
        (s1.on_two ip l.1.dir (fs_inode_rmdir K X cur)).bind fun r s2 =>
          (InodeCall.run_all K X cur (fs_inode_unlock_two l.1.dir ip) s2).bind fun _ s3 =>
            (fs_inode_put K X cur s3 l.1.dir).bind fun _ s4 =>
              (fs_inode_put K X cur s4 ip).bind fun _ s5 => Outcome.ret r s5

/-- The slot at address `p` exists, nobody holds its mutex and it is not
DIRTY. -/
def FsState.idle (K : Config) (s : FsState) (p : Nat) : Prop :=
  match s.deref p with
  | some a => a.mutex = none ∧ a.has K.FS_INODE_DIRTY = false
  | none => False

instance (K : Config) (s : FsState) (p : Nat) : Decidable (s.idle K p) := by
  unfold FsState.idle
  split <;> infer_instance

/-- Between the states `s` and `t` one reference to the slot at address `p` was
released: its reference count is one less, and its mutex is free in `t`. -/
def FsState.released (s t : FsState) (p : Nat) : Prop :=
  match s.deref p, t.deref p with
  | some a, some b => b.ref_count = a.ref_count - 1 ∧ b.mutex = none
  | _, _ => False

instance (s t : FsState) (p : Nat) : Decidable (s.released t p) := by
  unfold FsState.released
  split <;> infer_instance

/-- Every slot whose address is not in `ps` is in `t` as it is in `s`. -/
def FsState.untouched (s t : FsState) (ps : List Nat) : Prop :=
  ∀ q, q ∉ ps → t.deref q = s.deref q

/-- An operation on an inode and a directory that returns when the caller holds
both, and then leaves address, mutex, flags and reference count of both as they
were. -/
def KeepsSlots (cur : Process) (f : IIState → Outcome IIState Int) : Prop :=
  ∀ u, fs_inode_holding cur u.inode = true → fs_inode_holding cur u.dir = true →
    ∃ r t, f u = Outcome.ret r t ∧
      t.inode.addr = u.inode.addr ∧ t.inode.mutex = u.inode.mutex ∧
      t.inode.flags = u.inode.flags ∧ t.inode.ref_count = u.inode.ref_count ∧
      t.dir.addr = u.dir.addr ∧ t.dir.mutex = u.dir.mutex ∧
      t.dir.flags = u.dir.flags ∧ t.dir.ref_count = u.dir.ref_count

/-! ## Reachable cache states -/

/-- The cache states that the kernel can reach from `fs_inode_cache_init`:
by `fs_inode_get`, `fs_inode_duplicate` and `fs_inode_put` (with any behaviour
of the ext2 layer and any calling process), and by the operations on single
inodes, which change neither the address, the key nor the reference count of a
slot. -/
inductive Reachable (K : Config) : FsState → Prop where
  | init : Reachable K (fs_inode_cache_init K.INODE_CACHE_SIZE)
  | get (ino dev : Nat) (s : FsState) :
      Reachable K s → Reachable K (fs_inode_get ino dev s).2
  | duplicate (p r : Nat) (s t : FsState) :
      Reachable K s → fs_inode_duplicate s p = Outcome.ret r t → Reachable K t
  | put (X : Ext2) (cur : Process) (p : Nat) (s t : FsState) :
      Reachable K s → fs_inode_put K X cur s p = Outcome.ret () t → Reachable K t
  | inode_op (f : Inode → Inode) (calls : List Call) (s : FsState) :
      Reachable K s →
      (∀ ip, (f ip).addr = ip.addr ∧ (f ip).ino = ip.ino ∧ (f ip).dev = ip.dev ∧
        (f ip).ref_count = ip.ref_count) →
      Reachable K { inode_cache := s.inode_cache.map f, calls := calls }

/-- No two slots of the cache list are at the same address. -/
def FsState.Distinct (s : FsState) : Prop := (s.inode_cache.map (·.addr)).Nodup

/-- The cache states that the kernel can reach from `fs_inode_cache_init` when
`fs_inode_duplicate` and `fs_inode_put` are applied only to slots with
`ref_count ≥ 1` (to pointers that carry a reference): by `fs_inode_get`,
`fs_inode_duplicate` and `fs_inode_put` (with any behaviour of the ext2 layer
and any calling process), and by the operations on single inodes, which change
neither the address, the key nor the reference count of a slot. -/
inductive ReachableRef (K : Config) : FsState → Prop where
  | init : ReachableRef K (fs_inode_cache_init K.INODE_CACHE_SIZE)
  | get (ino dev : Nat) (s : FsState) :
      ReachableRef K s → ReachableRef K (fs_inode_get ino dev s).2
  | duplicate (p r : Nat) (s t : FsState) (ip : Inode) :
      ReachableRef K s → s.deref p = some ip → 1 ≤ ip.ref_count →
      fs_inode_duplicate s p = Outcome.ret r t → ReachableRef K t
  | put (X : Ext2) (cur : Process) (p : Nat) (s t : FsState) (ip : Inode) :
      ReachableRef K s → s.deref p = some ip → 1 ≤ ip.ref_count →
      fs_inode_put K X cur s p = Outcome.ret () t → ReachableRef K t
  | inode_op (f : Inode → Inode) (calls : List Call) (s : FsState) :
      ReachableRef K s →
      (∀ ip, (f ip).addr = ip.addr ∧ (f ip).ino = ip.ino ∧ (f ip).dev = ip.dev ∧
        (f ip).ref_count = ip.ref_count) →
      ReachableRef K { inode_cache := s.inode_cache.map f, calls := calls }

/-- Of two slots of the cache list with the same key (ino, dev), the one that
comes later in the list has no reference. -/
def later_unreferenced (a b : Inode) : Prop := a.ino = b.ino → a.dev = b.dev → b.ref_count = 0

/-- Among the slots with the same key only the first one in list order can be
referenced, and no reference count is negative. -/
def FsState.KeysOk (s : FsState) : Prop :=
  s.inode_cache.Pairwise later_unreferenced ∧ ∀ a ∈ s.inode_cache, 0 ≤ a.ref_count

/-! ## Sample inputs -/

/-- An ext2 layer that leaves the in-core metadata alone and reports success. -/
def Ext2.sample : Ext2 :=
  { ext2_delete_inode := fun ip => ip.toMeta,
    ext2_read_inode := fun ip => ip.toMeta,
    ext2_write_inode := fun ip => ip.toMeta,
    ext2_inode_link := fun dir _ inode => (0, dir.toMeta, inode.toMeta),
    ext2_inode_rmdir := fun dir inode => (0, dir.toMeta, inode.toMeta),
    ext2_inode_unlink := fun dir inode => (0, dir.toMeta, inode.toMeta),
    ext2_inode_lookup := fun dir name => (if name = "f" then some 2 else none, dir.toMeta),
    ext2_inode_mkdir := fun dir _ _ => (0, dir.toMeta, some 3),
    ext2_inode_create := fun dir _ _ => (0, dir.toMeta, some 3),
    ext2_inode_mknod := fun dir _ _ _ => (0, dir.toMeta, some 3),
    ext2_inode_read := fun ip nbyte _ => (nbyte, ip.toMeta),
    ext2_inode_write := fun ip nbyte _ => (nbyte, ip.toMeta),
    ext2_readdir := fun ip off =>
      (if off < 48 then 16 else 0,
       if off < 48 then some { name := "abcd", name_len := 4, off := off + 16, ino := 20 + off,
                               type := 1 }
       else none,
       ip.toMeta),
    ext2_inode_trunc := fun ip => { ip.toMeta with size := 0 } }

/-- A clock that shows 1000 and a console that transfers every byte. -/
def Drivers.sample : Drivers :=
  { rtc_get_time := 1000, console_read := fun nbyte => nbyte, console_write := fun nbyte => nbyte }

/-- A slot with the given address, key, reference count and flags, mutex free. -/
def Inode.sample (addr ino dev : Nat) (ref_count : Int) (flags : Nat) : Inode :=
  { Inode.zero addr with ino := ino, dev := dev, ref_count := ref_count, flags := flags }

/-- A cache of three slots: two carry the key (5, 7), one is unreferenced. -/
def FsState.sample : FsState :=
  { inode_cache := [Inode.sample 0 1 7 2 1, Inode.sample 1 5 7 1 1, Inode.sample 2 5 7 0 0],
    calls := [] }

/-- The cache after `fs_inode_cache_init` and one `fs_inode_get 5 7`. -/
def FsState.afterGet : FsState :=
  (fs_inode_get 5 7 (fs_inode_cache_init Config.sample.INODE_CACHE_SIZE)).2

/-- The cache after the slot at address 3 of `FsState.afterGet` was put. -/
def FsState.afterPut : FsState :=
  { inode_cache := [Inode.sample 3 5 7 0 0, Inode.zero 0, Inode.zero 1, Inode.zero 2],
    calls := [] }

/-- A regular file owned by uid 1000 and gid 100 whose mode 0007 grants
read, write and execute to "other" only. -/
def Inode.otherOnly : Inode :=
  { Inode.zero 0 with mode := 0o100007, uid := 1000, gid := 100, nlink := 1 }

/-- A fresh slot, as `fs_inode_get` hands it out: flags clear, mutex free. -/
def IState.fresh : IState := { ip := Inode.sample 0 5 7 1 0, calls := [] }

/-- A VALID and DIRTY inode locked by `Process.sample`. -/
def IState.dirty : IState :=
  { ip := { Inode.sample 0 5 7 1 3 with mutex := some 1 }, calls := [] }

/-- A directory with mode 0755, two links, owned by uid 1000 and locked by
`Process.sample`. -/
def Inode.sampleDir (addr ino nlink : Nat) : Inode :=
  { addr := addr, ino := ino, dev := 7, ref_count := 1, flags := 1, mutex := some 1,
    mode := 0o040755, nlink := nlink, uid := 1000, gid := 100, size := 0,
    atime := 0, mtime := 0, ctime := 0 }

/-- A regular file with mode 0644, owned by uid 1000 and locked by
`Process.sample`. -/
def Inode.sampleFile (addr ino nlink : Nat) : Inode :=
  { addr := addr, ino := ino, dev := 7, ref_count := 1, flags := 1, mutex := some 1,
    mode := 0o100644, nlink := nlink, uid := 1000, gid := 100, size := 0,
    atime := 0, mtime := 0, ctime := 0 }

/-- A directory at address 1 and a regular file at address 2. -/
def IIState.fileInDir : IIState :=
  { dir := Inode.sampleDir 1 2 2, inode := Inode.sampleFile 2 12 1, calls := [] }

/-- A directory at address 1 and a subdirectory of it at address 2. -/
def IIState.dirInDir : IIState :=
  { dir := Inode.sampleDir 1 2 3, inode := Inode.sampleDir 2 12 2, calls := [] }

/-- The directory of `IIState.fileInDir`, locked by `Process.sample`. -/
def IState.heldDir : IState := { ip := Inode.sampleDir 1 2 2, calls := [] }

/-- A regular file, VALID and clean, locked by `Process.sample`. -/
def IState.heldFile : IState := { ip := Inode.sampleFile 2 12 1, calls := [] }

/-- What reading `IState.heldDir` into a buffer of 40 bytes gives with
`Ext2.sample`: two records of 16 bytes are accepted, the third one does not
fit. -/
def ReadDir.sample : ReadDir :=
  { ret := 32, off := 32,
    stored := [(16, { d_ino := 20, d_off := 16, d_reclen := 16, d_namelen := 4, d_type := 1,
                      d_name := "abcd" }),
               (16, { d_ino := 36, d_off := 32, d_reclen := 16, d_namelen := 4, d_type := 1,
                      d_name := "abcd" })],
    writes := [(0, 16), (16, 16), (32, 16)] }

/-- The state after that read: three calls of `ext2_readdir`. -/
def IState.afterReadDir : IState :=
  { IState.heldDir with
    calls := [Call.ext2_readdir 1 0, Call.ext2_readdir 1 16, Call.ext2_readdir 1 32] }

/-- The regular file of `IState.heldFile` with its mutex held by process 9. -/
def IState.foreignFile : IState :=
  { ip := { Inode.sampleFile 2 12 1 with mutex := some 9 }, calls := [] }

/-- A directory held by `Process.sample` and a file in it whose mutex is free. -/
def IIState.unlockedFile : IIState :=
  { dir := Inode.sampleDir 1 2 2, inode := { Inode.sampleFile 2 12 1 with mutex := none },
    calls := [] }

/-- A spinlock held by CPU 0. -/
def SpinLock.sample : SpinLock := { locked := 1, cpu := some 0, name := "inode_cache", pcs := [] }

/-- CPU 0 inside one spinlock section, interrupts disabled. -/
def Cpu.sample : Cpu := { id := 0, irq_save_count := 1, irq_flags := true, irq_enabled := false }

/-- CPU 1 outside of any spinlock section. -/
def Cpu.other : Cpu := { id := 1, irq_save_count := 0, irq_flags := false, irq_enabled := true }

/-- The UART registers after reset, all zero. -/
def Pl011.sample : Pl011 :=
  { UARTCR := 0, UARTIBRD := 0, UARTFBRD := 0, UARTLCR := 0, UARTECR := 0, UARTIMSC := 0 }

/-- A cache whose slot at address 2 is a VALID and clean regular file owned by
uid 1000, with one reference and its mutex free. -/
def FsState.withFile : FsState :=
  { inode_cache := [Inode.zero 0, Inode.zero 1, { Inode.sampleFile 2 12 1 with mutex := none }],
    calls := [] }

/-- The cache of `FsState.withFile` with the file VALID, DIRTY and locked by
`Process.sample`. -/
def FsState.withDirtyFile : FsState :=
  { inode_cache := [Inode.zero 0, Inode.zero 1, { Inode.sampleFile 2 12 1 with flags := 3 }],
    calls := [] }

/-- A name lookup that finds every path at the slot with address 2 and takes a
reference to it. -/
def fs_name_lookup.sample (_ : String) (s : FsState) : Int × Nat × FsState :=
  match fs_inode_duplicate s 2 with
  | Outcome.ret p t => (0, p, t)
  | _ => (-2, 0, s)

/-- A mutex that nobody holds, its spinlock free. -/
def Mutex.sample : Mutex :=
  mutex_init { lock := { locked := 0, cpu := none, name := "", pcs := [0, 0, 0, 0] },
               queue := [], process := none, name := "" } "inode"

/-- The mutex `Mutex.sample` seen from CPU 1, before any sleep or wakeup. -/
def MutexState.sample : MutexState := { mutex := Mutex.sample, cpu := Cpu.other, calls := [] }

/-- The mutex `Mutex.sample` held by process 1. -/
def MutexState.held : MutexState :=
  { mutex := { Mutex.sample with process := some 1 }, cpu := Cpu.other, calls := [] }

/-- The cache after `fs_inode_cache_init`, `fs_inode_get (5, 7)`,
`fs_inode_get (0, 0)` and another `fs_inode_get (5, 7)`: the slot at address 3
carries the key (5, 7) with two references, the slot at address 0 the key (0, 0)
with one reference, and the unreferenced slots at addresses 1 and 2 still have
the key (0, 0) of a zeroed slot. -/
def FsState.afterGets : FsState :=
  (fs_inode_get 5 7 (fs_inode_get 0 0 FsState.afterGet).2).2

/-- The cache `FsState.afterGets` after one reference to the slot at address 3
was put. -/
def FsState.afterGetsPut : FsState :=
  { inode_cache := [Inode.sample 0 0 0 1 0, Inode.zero 1, Inode.zero 2, Inode.sample 3 5 7 1 0],
    calls := [] }

/-- The cache `FsState.afterGetsPut` after the slot at address 0 was duplicated
and the last reference to the slot at address 3 was put: that slot is now at the
front of the list. -/
def FsState.afterPuts : FsState :=
  { inode_cache := [Inode.sample 3 5 7 0 0, Inode.sample 0 0 0 2 0, Inode.zero 1, Inode.zero 2],
    calls := [] }

/-- A cache with a directory at address 1 and a regular file at address 2, both
VALID, with one reference each and their mutexes free. -/
def FsState.dirAndFile : FsState :=
  { inode_cache := [Inode.zero 0, { Inode.sampleDir 1 2 2 with mutex := none },
                    { Inode.sampleFile 2 12 1 with mutex := none }],
    calls := [] }

/-- The cache `FsState.dirAndFile` after a lookup took a reference to the file. -/
def FsState.fileFound : FsState :=
  { inode_cache := [Inode.zero 0, { Inode.sampleDir 1 2 2 with mutex := none },
                    { Inode.sampleFile 2 12 1 with mutex := none, ref_count := 2 }],
    calls := [] }

/-- The cache `FsState.dirAndFile` after lookups took a reference to the
directory and to the file. -/
def FsState.bothFound : FsState :=
  { inode_cache := [Inode.zero 0, { Inode.sampleDir 1 2 2 with mutex := none, ref_count := 2 },
                    { Inode.sampleFile 2 12 1 with mutex := none, ref_count := 2 }],
    calls := [] }

/-- A path lookup that finds the directory of every path at the slot with
address 1 and, when asked for it, the last component at the slot with address 2,
and takes a reference to what it hands over. -/
def fs_path_lookup.sample (path : String) (istore : Bool) (s : FsState) : PathLookup × FsState :=
  match fs_inode_duplicate s 1 with
  | Outcome.ret _ t =>
    if istore then
      match fs_inode_duplicate t 2 with
      | Outcome.ret _ u => ({ r := 0, name := path, ip := some 2, dir := 1 }, u)
      | _ => ({ r := 0, name := path, ip := none, dir := 1 }, t)
    else ({ r := 0, name := path, ip := none, dir := 1 }, t)
  | _ => ({ r := -2, name := path, ip := none, dir := 0 }, s)

/-- A process that is not the superuser. -/
def Process.sample : Process := { pid := 1, uid := 1000, gid := 100 }

/-- The superuser. -/
def Process.root : Process := { pid := 2, uid := 0, gid := 0 }

/-! # Theorems -/

/-! ## The mutex -/

theorem kmutex_lock_free (me : Nat) : kmutex_lock me none = some (some me) := rfl

theorem kmutex_lock_held (me q : Nat) : kmutex_lock me (some q) = none := rfl

theorem kmutex_unlock_holder (me : Nat) : kmutex_unlock me (some me) = some none := by
  simp [kmutex_unlock, kmutex_holding]

/-! ## Bits -/

theorem clear_bits_and_self (f m : Nat) : clear_bits f m &&& m = 0 := by
  apply Nat.eq_of_testBit_eq
  intro i
  simp only [clear_bits, Nat.testBit_and, Nat.testBit_xor, Nat.zero_testBit]
  cases f.testBit i <;> cases m.testBit i <;> rfl

theorem testBit_disjoint {m d : Nat} (h : m &&& d = 0) (i : Nat) :
    (m.testBit i && d.testBit i) = false := by
  rw [← Nat.testBit_and, h, Nat.zero_testBit]

theorem clear_bits_and_other (f m d : Nat) (h : m &&& d = 0) :
    clear_bits f m &&& d = f &&& d := by
  apply Nat.eq_of_testBit_eq
  intro i
  have := testBit_disjoint h i
  simp only [clear_bits, Nat.testBit_and, Nat.testBit_xor]
  revert this
  cases f.testBit i <;> cases m.testBit i <;> cases d.testBit i <;> simp

theorem or_and_self (f m : Nat) : (f ||| m) &&& m = m := by
  apply Nat.eq_of_testBit_eq
  intro i
  simp only [Nat.testBit_and, Nat.testBit_or]
  cases f.testBit i <;> cases m.testBit i <;> rfl

theorem or_and_other (f m d : Nat) (h : m &&& d = 0) : (f ||| m) &&& d = f &&& d := by
  apply Nat.eq_of_testBit_eq
  intro i
  have := testBit_disjoint h i
  simp only [Nat.testBit_and, Nat.testBit_or]
  revert this
  cases f.testBit i <;> cases m.testBit i <;> cases d.testBit i <;> simp

theorem lor_eq_zero (a b : Nat) : a ||| b = 0 ↔ a = 0 ∧ b = 0 := by
  constructor
  · intro h
    have ht : ∀ i, (a.testBit i || b.testBit i) = false := by
      intro i
      rw [← Nat.testBit_or, h, Nat.zero_testBit]
    constructor
    · apply Nat.eq_of_testBit_eq
      intro i
      have := ht i
      rw [Nat.zero_testBit]
      revert this
      cases a.testBit i <;> simp
    · apply Nat.eq_of_testBit_eq
      intro i
      have := ht i
      rw [Nat.zero_testBit]
      revert this
      cases b.testBit i <;> simp
  · rintro ⟨rfl, rfl⟩
    rfl

/-! ## Lists -/

theorem modify_eq_set_of_getElem? {α : Type} (f : α → α) :
    ∀ (l : List α) (k : Nat) (a : α), l[k]? = some a → l.modify f k = l.set k (f a)
  | [], k, a, h => by simp at h
  | x :: l, 0, a, h => by
    simp at h
    simp [h]
  | x :: l, k + 1, a, h => by
    simp at h
    simp [modify_eq_set_of_getElem? f l k a h]

/-! ## fs_inode_get -/

/-- The loop leaves from inside at the first slot with the wanted key. -/
theorem fs_inode_get_loop_hit (ino dev : Nat) :
    ∀ (l : List Inode) (i : Nat) (empty : Option Nat),
      (∃ ip ∈ l, ip.ino = ino ∧ ip.dev = dev) →
      ∃ k ip, l[k]? = some ip ∧ (ip.ino = ino ∧ ip.dev = dev) ∧
        (∀ j jp, j < k → l[j]? = some jp → ¬ (jp.ino = ino ∧ jp.dev = dev)) ∧
        fs_inode_get_loop ino dev l i empty = Sum.inl (i + k)
  | [], _, _, h => by simp at h
  | x :: l, i, empty, h => by
    by_cases hx : x.ino = ino ∧ x.dev = dev
    · refine ⟨0, x, by simp, hx, ?_, ?_⟩
      · intro j jp hj; omega
      · simp [fs_inode_get_loop, hx]
    · have h1 : ∃ ip ∈ l, ip.ino = ino ∧ ip.dev = dev := by
        obtain ⟨ip, hip, hm⟩ := h
        rcases List.mem_cons.mp hip with rfl | hin
        · exact absurd hm hx
        · exact ⟨ip, hin, hm⟩
      obtain ⟨k, ip, hk, hm, hfirst, hloop⟩ :=
        fs_inode_get_loop_hit ino dev l (i + 1) (if x.ref_count = 0 then some i else empty) h1
      refine ⟨k + 1, ip, by simpa using hk, hm, ?_, ?_⟩
      · intro j jp hj hjp
        cases j with
        | zero =>
          simp at hjp
          subst hjp
          exact hx
        | succ j =>
          simp at hjp
          exact hfirst j jp (by omega) hjp
      · rw [fs_inode_get_loop, if_neg hx, hloop]
        congr 1
        omega

/-- Without a slot with the wanted key the loop runs to the end; `empty` then
holds the last slot with `ref_count == 0`, or its initial value if there is
none. -/
theorem fs_inode_get_loop_miss (ino dev : Nat) :
    ∀ (l : List Inode) (i : Nat) (empty : Option Nat),
      (∀ ip ∈ l, ¬ (ip.ino = ino ∧ ip.dev = dev)) →
      ((∃ k ip, l[k]? = some ip ∧ ip.ref_count = 0 ∧
          (∀ j jp, k < j → l[j]? = some jp → jp.ref_count ≠ 0) ∧
          fs_inode_get_loop ino dev l i empty = Sum.inr (some (i + k))) ∨
       ((∀ ip ∈ l, ip.ref_count ≠ 0) ∧ fs_inode_get_loop ino dev l i empty = Sum.inr empty))
  | [], _, _, _ => by
    right
    simp [fs_inode_get_loop]
  | x :: l, i, empty, h => by
    have hx : ¬ (x.ino = ino ∧ x.dev = dev) := h x (List.mem_cons_self _ _)
    have hl : ∀ ip ∈ l, ¬ (ip.ino = ino ∧ ip.dev = dev) :=
      fun ip hip => h ip (List.mem_cons_of_mem _ hip)
    rcases fs_inode_get_loop_miss ino dev l (i + 1) (if x.ref_count = 0 then some i else empty) hl
      with ⟨k, ip, hk, hz, hlast, hloop⟩ | ⟨hnone, hloop⟩
    · left
      refine ⟨k + 1, ip, by simpa using hk, hz, ?_, ?_⟩
      · intro j jp hj hjp
        cases j with
        | zero => omega
        | succ j =>
          simp at hjp
          exact hlast j jp (by omega) hjp
      · rw [fs_inode_get_loop, if_neg hx, hloop]
        congr 2
        omega
    · by_cases hz : x.ref_count = 0
      · left
        refine ⟨0, x, by simp, hz, ?_, ?_⟩
        · intro j jp hj hjp
          cases j with
          | zero => omega
          | succ j =>
            simp at hjp
            exact hnone jp (List.getElem?_mem hjp)
        · rw [fs_inode_get_loop, if_neg hx, hloop, if_pos hz]
          rfl
      · right
        refine ⟨?_, ?_⟩
        · intro ip hip
          rcases List.mem_cons.mp hip with rfl | hin
          · exact hz
          · exact hnone ip hin
        · rw [fs_inode_get_loop, if_neg hx, hloop, if_neg hz]

/-- C1. A hit of `fs_inode_get`: when some slot of the cache list carries the
key (ino, dev), the call returns the first such slot in list order, and the new
cache is the old one with the reference count of that slot incremented by one;
no other field, no other slot, the list order and the ext2 call log are not
changed. -/
theorem fs_inode_get_hit (ino dev : Nat) (s : FsState)
    (h : ∃ ip ∈ s.inode_cache, ip.ino = ino ∧ ip.dev = dev) :
    ∃ k ip, s.inode_cache[k]? = some ip ∧ (ip.ino = ino ∧ ip.dev = dev) ∧
      (∀ j jp, j < k → s.inode_cache[j]? = some jp → ¬ (jp.ino = ino ∧ jp.dev = dev)) ∧
      fs_inode_get ino dev s =
        (some ip.addr,
         { inode_cache := s.inode_cache.set k { ip with ref_count := ip.ref_count + 1 },
           calls := s.calls }) := by
  obtain ⟨k, ip, hk, hm, hfirst, hloop⟩ := fs_inode_get_loop_hit ino dev s.inode_cache 0 none h
  refine ⟨k, ip, hk, hm, hfirst, ?_⟩
  simp only [Nat.zero_add] at hloop
  simp only [fs_inode_get, hloop, hk, Option.map_some']
  rw [modify_eq_set_of_getElem? _ _ _ _ hk]

/-- C2. A miss of `fs_inode_get`: when no slot carries the key (ino, dev), then
either (a) some slot has `ref_count = 0`, the call returns the last such slot in
list order and the new cache is the old one with that slot set to `ref_count = 1`,
the key (ino, dev) and `flags = 0` (so VALID and DIRTY are clear), everything
else unchanged; or (b) no slot has `ref_count = 0`, the call returns NULL and
the state is unchanged. -/
theorem fs_inode_get_miss (K : Config) (ino dev : Nat) (s : FsState)
    (h : ∀ ip ∈ s.inode_cache, ¬ (ip.ino = ino ∧ ip.dev = dev)) :
    ((∃ ip ∈ s.inode_cache, ip.ref_count = 0) →
      ∃ k ip, s.inode_cache[k]? = some ip ∧ ip.ref_count = 0 ∧
        (∀ j jp, k < j → s.inode_cache[j]? = some jp → jp.ref_count ≠ 0) ∧
        fs_inode_get ino dev s =
          (some ip.addr,
           { inode_cache := s.inode_cache.set k
               { ip with ref_count := 1, ino := ino, dev := dev, flags := 0 },
             calls := s.calls }) ∧
        ∀ ip1 : Inode, (fs_inode_get ino dev s).2.inode_cache[k]? = some ip1 →
          ip1.has K.FS_INODE_VALID = false ∧ ip1.has K.FS_INODE_DIRTY = false) ∧
    ((∀ ip ∈ s.inode_cache, ip.ref_count > 0) → fs_inode_get ino dev s = (none, s)) := by
  rcases fs_inode_get_loop_miss ino dev s.inode_cache 0 none h
    with ⟨k, ip, hk, hz, hlast, hloop⟩ | ⟨hnone, hloop⟩
  · simp only [Nat.zero_add] at hloop
    have hget : fs_inode_get ino dev s =
        (some ip.addr,
         { inode_cache := s.inode_cache.set k
             { ip with ref_count := 1, ino := ino, dev := dev, flags := 0 },
           calls := s.calls }) := by
      simp only [fs_inode_get, hloop, hk, Option.map_some']
      rw [modify_eq_set_of_getElem? _ _ _ _ hk]
    constructor
    · intro _
      refine ⟨k, ip, hk, hz, hlast, hget, ?_⟩
      intro ip1 h1
      rw [hget] at h1
      have hlt : k < s.inode_cache.length := by
        rcases Nat.lt_or_ge k s.inode_cache.length with hlt | hge
        · exact hlt
        · rw [List.getElem?_eq_none hge] at hk
          exact absurd hk (by simp)
      simp only [List.getElem?_set_self hlt, Option.some.injEq] at h1
      subst h1
      simp [Inode.has]
    · intro hpos
      have := hpos ip (List.getElem?_mem hk)
      omega
  · constructor
    · intro ⟨ip, hip, hz⟩
      exact absurd hz (hnone ip hip)
    · intro _
      simp only [fs_inode_get, hloop]

/-- Witness for C1 on the sample cache: the key (5, 7) is found in the slot at
address 1, the first of the two slots that carry it. -/
theorem fs_inode_get_hit_witness :
    (∃ ip ∈ FsState.sample.inode_cache, ip.ino = 5 ∧ ip.dev = 7) ∧
    ∃ k ip, FsState.sample.inode_cache[k]? = some ip ∧ (ip.ino = 5 ∧ ip.dev = 7) ∧
      (∀ j jp, j < k → FsState.sample.inode_cache[j]? = some jp → ¬ (jp.ino = 5 ∧ jp.dev = 7)) ∧
      fs_inode_get 5 7 FsState.sample =
        (some ip.addr,
         { inode_cache := FsState.sample.inode_cache.set k { ip with ref_count := ip.ref_count + 1 },
           calls := FsState.sample.calls }) :=
  ⟨by decide, fs_inode_get_hit 5 7 FsState.sample (by decide)⟩

/-- Witness for C2 on the sample cache: no slot carries the key (9, 9) and one
slot is unreferenced; that slot is taken. -/
theorem fs_inode_get_miss_witness :
    (∀ ip ∈ FsState.sample.inode_cache, ¬ (ip.ino = 9 ∧ ip.dev = 9)) ∧
    (∃ ip ∈ FsState.sample.inode_cache, ip.ref_count = 0) ∧
    ∃ k ip, FsState.sample.inode_cache[k]? = some ip ∧ ip.ref_count = 0 ∧
      (∀ j jp, k < j → FsState.sample.inode_cache[j]? = some jp → jp.ref_count ≠ 0) ∧
      fs_inode_get 9 9 FsState.sample =
        (some ip.addr,
         { inode_cache := FsState.sample.inode_cache.set k
             { ip with ref_count := 1, ino := 9, dev := 9, flags := 0 },
           calls := FsState.sample.calls }) ∧
      ∀ ip1 : Inode, (fs_inode_get 9 9 FsState.sample).2.inode_cache[k]? = some ip1 →
        ip1.has Config.sample.FS_INODE_VALID = false ∧
        ip1.has Config.sample.FS_INODE_DIRTY = false :=
  ⟨by decide, by decide,
   (fs_inode_get_miss Config.sample 9 9 FsState.sample (by decide)).1 (by decide)⟩

/-! ## fs_inode_put and the re-get -/

theorem find?_set_of_nodup :
    ∀ (l : List Inode) (k : Nat) (a b : Inode),
      (l.map (·.addr)).Nodup → l[k]? = some a → b.addr = a.addr →
      (l.set k b).find? (fun ip => decide (ip.addr = a.addr)) = some b
  | [], k, a, b, _, h, _ => by simp at h
  | x :: l, 0, a, b, _, h, hb => by
    simp at h
    subst h
    simp [List.find?, hb]
  | x :: l, k + 1, a, b, hnd, h, hb => by
    simp at h
    simp only [List.map_cons, List.nodup_cons] at hnd
    have hx : x.addr ≠ a.addr := by
      intro heq
      apply hnd.1
      rw [heq]
      exact List.mem_map_of_mem _ (List.getElem?_mem h)
    simp only [List.set_cons_succ, List.find?_cons, hx, decide_False]
    exact find?_set_of_nodup l k a b hnd.2 h hb

theorem find?_store (p : Nat) (b : Inode) (hb : b.addr = p) :
    ∀ (l : List Inode) (a : Inode), l.find? (fun ip => decide (ip.addr = p)) = some a →
      (l.map (fun ip => if ip.addr = p then b else ip)).find? (fun ip => decide (ip.addr = p)) = some b
  | [], a, h => by simp at h
  | x :: l, a, h => by
    by_cases hx : x.addr = p
    · simp [List.find?, hx, hb]
    · simp only [List.find?_cons, hx, decide_False] at h
      simp only [List.map_cons, hx, if_false, List.find?_cons, decide_False]
      exact find?_store p b hb l a h

/-- The loop can only leave from inside at a slot with the wanted key. -/
theorem fs_inode_get_loop_inl (ino dev : Nat) :
    ∀ (l : List Inode) (i : Nat) (empty : Option Nat) (n : Nat),
      fs_inode_get_loop ino dev l i empty = Sum.inl n →
      ∃ k ip, n = i + k ∧ l[k]? = some ip ∧ ip.ino = ino ∧ ip.dev = dev
  | [], _, _, _, h => by simp [fs_inode_get_loop] at h
  | x :: l, i, empty, n, h => by
    by_cases hx : x.ino = ino ∧ x.dev = dev
    · simp only [fs_inode_get_loop, hx, and_self, if_true, Sum.inl.injEq] at h
      exact ⟨0, x, by omega, by simp, hx.1, hx.2⟩
    · rw [fs_inode_get_loop, if_neg hx] at h
      obtain ⟨k, ip, hn, hk, hm⟩ := fs_inode_get_loop_inl ino dev l (i + 1) _ n h
      exact ⟨k + 1, ip, by omega, by simpa using hk, hm⟩

/-- Whenever `fs_inode_get` returns a pointer, the new cache is the old one with
one slot replaced; the slot keeps its address and now carries the key. -/
theorem fs_inode_get_some (ino dev : Nat) (s t : FsState) (p : Nat)
    (h : fs_inode_get ino dev s = (some p, t)) :
    ∃ k ip ip1, s.inode_cache[k]? = some ip ∧ ip.addr = p ∧ ip1.addr = p ∧
      ip1.ino = ino ∧ ip1.dev = dev ∧
      t = { inode_cache := s.inode_cache.set k ip1, calls := s.calls } := by
  unfold fs_inode_get at h
  split at h
  · rename_i k hloop
    obtain ⟨k1, ip, hn, hk, hi, hd⟩ := fs_inode_get_loop_inl ino dev _ _ _ _ hloop
    simp only [Nat.zero_add] at hn
    subst hn
    simp only [hk, Option.map_some', Prod.mk.injEq, Option.some.injEq] at h
    refine ⟨k, ip, { ip with ref_count := ip.ref_count + 1 }, hk, h.1, h.1, hi, hd, ?_⟩
    rw [← h.2, modify_eq_set_of_getElem? _ _ _ _ hk]
  · rename_i k hloop
    cases hk : s.inode_cache[k]? with
    | none => simp [hk] at h
    | some ip =>
      simp only [hk, Option.map_some', Prod.mk.injEq, Option.some.injEq] at h
      refine ⟨k, ip, { ip with ref_count := 1, ino := ino, dev := dev, flags := 0 },
        hk, h.1, h.1, rfl, rfl, ?_⟩
      rw [← h.2, modify_eq_set_of_getElem? _ _ _ _ hk]
  · simp at h

theorem deref_addr (s : FsState) (p : Nat) (ip : Inode) (h : s.deref p = some ip) :
    ip.addr = p := by
  have := List.find?_some h
  simpa using this

/-- What `fs_inode_put` does on a slot whose mutex is free. -/
theorem fs_inode_put_cases (K : Config) (X : Ext2) (cur : Process) (s : FsState) (p : Nat)
    (ip : Inode) (hp : s.deref p = some ip) (hm : ip.mutex = none) :
    (ip.has K.FS_INODE_DIRTY = true →
      ∃ t, fs_inode_put K X cur s p = Outcome.panic "inode dirty" t ∧ t.calls = s.calls) ∧
    (ip.has K.FS_INODE_DIRTY = false →
      ∃ t ip1, fs_inode_put K X cur s p = Outcome.ret () t ∧ t.deref p = some ip1 ∧
        ip1.ref_count = ip.ref_count - 1 ∧
        ip1.addr = ip.addr ∧ ip1.ino = ip.ino ∧ ip1.dev = ip.dev ∧ ip1.mutex = none ∧
        ((ip.has K.FS_INODE_VALID = true ∧ ip.nlink = 0 ∧ ip.ref_count = 1) →
          t.calls = s.calls ++ [Call.ext2_delete_inode p] ∧ ip1.has K.FS_INODE_VALID = false) ∧
        (¬ (ip.has K.FS_INODE_VALID = true ∧ ip.nlink = 0 ∧ ip.ref_count = 1) →
          t.calls = s.calls ∧ ip1.flags = ip.flags ∧ ip1.toMeta = ip.toMeta) ∧
        (ip.ref_count = 1 →
          t.inode_cache = ip1 :: s.inode_cache.filter (fun jp => jp.addr ≠ p)) ∧
        (ip.ref_count ≠ 1 → t.inode_cache = s.store p ip1)) := by
  have ha := deref_addr s p ip hp
  constructor
  · intro hd
    refine ⟨{ s with inode_cache := s.store p { ip with mutex := some cur.pid } }, ?_, rfl⟩
    have hd1 : ({ ip with mutex := some cur.pid } : Inode).has K.FS_INODE_DIRTY = true := hd
    simp only [fs_inode_put, hp, hm, kmutex_lock_free, hd1, if_true]
  · intro hd
    have hd1 : ({ ip with mutex := some cur.pid } : Inode).has K.FS_INODE_DIRTY = false := hd
    by_cases hdel : ip.has K.FS_INODE_VALID = true ∧ ip.nlink = 0 ∧ ip.ref_count = 1
    · obtain ⟨hv, hn, hr⟩ := hdel
      have hb : (({ ip with mutex := some cur.pid } : Inode).has K.FS_INODE_VALID &&
          ({ ip with mutex := some cur.pid } : Inode).nlink == 0 &&
          ({ ip with mutex := some cur.pid } : Inode).ref_count == 1) = true := by
        simp only [Bool.and_eq_true, beq_iff_eq]
        exact ⟨⟨hv, hn⟩, hr⟩
      have hput : fs_inode_put K X cur s p = Outcome.ret ()
          { inode_cache :=
              { ip with toMeta := X.ext2_delete_inode { ip with mutex := some cur.pid },
                        flags := clear_bits ip.flags K.FS_INODE_VALID,
                        mutex := none, ref_count := ip.ref_count - 1 } ::
                s.inode_cache.filter (fun jp => jp.addr ≠ p),
            calls := s.calls ++ [Call.ext2_delete_inode p] } := by
        simp only [fs_inode_put, hp, hm, kmutex_lock_free, hd1, hb]
        simp [hr, kmutex_unlock_holder]
      refine ⟨_, ?ip1, hput, ?_⟩
      case ip1 =>
        exact { ip with toMeta := X.ext2_delete_inode { ip with mutex := some cur.pid },
                        flags := clear_bits ip.flags K.FS_INODE_VALID,
                        mutex := none, ref_count := ip.ref_count - 1 }
      refine ⟨?_, rfl, rfl, rfl, rfl, rfl, ?_, ?_, ?_, ?_⟩
      · simp [FsState.deref, List.find?, ha]
      · intro _
        refine ⟨rfl, ?_⟩
        simp [Inode.has, clear_bits_and_self]
      · intro hneg
        exact absurd ⟨hv, hn, hr⟩ hneg
      · intro _
        rfl
      · intro hne
        exact absurd hr hne
    · have hb : (({ ip with mutex := some cur.pid } : Inode).has K.FS_INODE_VALID &&
          ({ ip with mutex := some cur.pid } : Inode).nlink == 0 &&
          ({ ip with mutex := some cur.pid } : Inode).ref_count == 1) = false := by
        rw [Bool.eq_false_iff]
        intro h
        apply hdel
        simp only [Bool.and_eq_true, beq_iff_eq] at h
        exact ⟨h.1.1, h.1.2, h.2⟩
      by_cases hr : ip.ref_count = 1
      · have hput : fs_inode_put K X cur s p = Outcome.ret ()
            { inode_cache := { ip with mutex := none, ref_count := ip.ref_count - 1 } ::
                s.inode_cache.filter (fun jp => jp.addr ≠ p),
              calls := s.calls } := by
          simp only [fs_inode_put, hp, hm, kmutex_lock_free, hd1, hb]
          simp [hr, kmutex_unlock_holder]
        refine ⟨_, ?ip1, hput, ?_⟩
        case ip1 => exact { ip with mutex := none, ref_count := ip.ref_count - 1 }
        refine ⟨?_, rfl, rfl, rfl, rfl, rfl, ?_, ?_, ?_, ?_⟩
        · simp [FsState.deref, List.find?, ha]
        · intro h
          exact absurd h hdel
        · intro _
          exact ⟨rfl, rfl, rfl⟩
        · intro _
          rfl
        · intro hne
          exact absurd hr hne
      · have hput : fs_inode_put K X cur s p = Outcome.ret ()
            { inode_cache := s.store p { ip with mutex := none, ref_count := ip.ref_count - 1 },
              calls := s.calls } := by
          have h0 : ¬ (ip.ref_count - 1 = 0) := by omega
          simp only [fs_inode_put, hp, hm, kmutex_lock_free, hd1, hb]
          simp [h0, kmutex_unlock_holder]
        refine ⟨_, ?ip1, hput, ?_⟩
        case ip1 => exact { ip with mutex := none, ref_count := ip.ref_count - 1 }
        refine ⟨?_, rfl, rfl, rfl, rfl, rfl, ?_, ?_, ?_, ?_⟩
        · exact find?_store p { ip with mutex := none, ref_count := ip.ref_count - 1 } ha
            s.inode_cache ip hp
        · intro h
          exact absurd h hdel
        · intro _
          exact ⟨rfl, rfl, rfl⟩
        · intro h
          exact absurd h hr
        · intro _
          rfl

/-- C4. `fs_inode_put` on a slot whose mutex is free (the call does not have to
sleep).  With DIRTY set it panics with "inode dirty" and makes no ext2 call.
With DIRTY clear it returns; `ext2_delete_inode` is called (once, on this inode)
exactly when VALID is set, `nlink = 0` and `ref_count = 1`, and in that case
VALID is cleared, while otherwise flags and metadata are unchanged; the
reference count drops by one, key, address and mutex are as before; the slot is
moved to the front of the list when the count reaches 0 and stays in place
otherwise. -/
theorem fs_inode_put_spec (K : Config) (X : Ext2) (cur : Process) (s : FsState) (p : Nat)
    (ip : Inode) (hp : s.deref p = some ip) (hm : ip.mutex = none) :
    (ip.has K.FS_INODE_DIRTY = true →
      ∃ t, fs_inode_put K X cur s p = Outcome.panic "inode dirty" t ∧ t.calls = s.calls) ∧
    (ip.has K.FS_INODE_DIRTY = false →
      ∃ t ip1, fs_inode_put K X cur s p = Outcome.ret () t ∧ t.deref p = some ip1 ∧
        ip1.ref_count = ip.ref_count - 1 ∧
        ip1.addr = ip.addr ∧ ip1.ino = ip.ino ∧ ip1.dev = ip.dev ∧ ip1.mutex = none ∧
        ((ip.has K.FS_INODE_VALID = true ∧ ip.nlink = 0 ∧ ip.ref_count = 1) →
          t.calls = s.calls ++ [Call.ext2_delete_inode p] ∧ ip1.has K.FS_INODE_VALID = false) ∧
        (¬ (ip.has K.FS_INODE_VALID = true ∧ ip.nlink = 0 ∧ ip.ref_count = 1) →
          t.calls = s.calls ∧ ip1.flags = ip.flags ∧ ip1.toMeta = ip.toMeta) ∧
        (ip.ref_count = 1 →
          t.inode_cache = ip1 :: s.inode_cache.filter (fun jp => jp.addr ≠ p)) ∧
        (ip.ref_count ≠ 1 → t.inode_cache = s.store p ip1)) :=
  fs_inode_put_cases K X cur s p ip hp hm

/-- Witness for C4 on the sample cache: the slot at address 1 is VALID, clean,
has no links and one reference, so the put deletes the on-disk inode, clears
VALID and moves the slot to the front. -/
theorem fs_inode_put_spec_witness :
    FsState.sample.deref 1 = some (Inode.sample 1 5 7 1 1) ∧
    (Inode.sample 1 5 7 1 1).mutex = none ∧
    (Inode.sample 1 5 7 1 1).has Config.sample.FS_INODE_DIRTY = false ∧
    ∃ t ip1, fs_inode_put Config.sample Ext2.sample Process.sample FsState.sample 1
        = Outcome.ret () t ∧
      t.deref 1 = some ip1 ∧ ip1.ref_count = 0 ∧
      t.calls = [Call.ext2_delete_inode 1] ∧ ip1.has Config.sample.FS_INODE_VALID = false ∧
      t.inode_cache = ip1 :: FsState.sample.inode_cache.filter (fun jp => jp.addr ≠ 1) := by
  have h := (fs_inode_put_spec Config.sample Ext2.sample Process.sample FsState.sample 1
    (Inode.sample 1 5 7 1 1) (by decide) (by decide)).2 (by decide)
  obtain ⟨t, ip1, hput, hderef, hrc, _, _, _, _, hdel, _, hfront, _⟩ := h
  refine ⟨by decide, by decide, by decide, t, ip1, hput, hderef, ?_, ?_, ?_, hfront (by decide)⟩
  · rw [hrc]; decide
  · exact (hdel (by decide)).1
  · exact (hdel (by decide)).2

/-! ## Slot addresses stay distinct -/

theorem map_addr_modify (f : Inode → Inode) (hf : ∀ ip, (f ip).addr = ip.addr) :
    ∀ (l : List Inode) (k : Nat), (l.modify f k).map (·.addr) = l.map (·.addr)
  | [], k => by simp
  | x :: l, 0 => by simp [hf]
  | x :: l, k + 1 => by simp [map_addr_modify f hf l k]

theorem map_addr_store (p : Nat) (b : Inode) (hb : b.addr = p) :
    ∀ (l : List Inode),
      (l.map (fun ip => if ip.addr = p then b else ip)).map (·.addr) = l.map (·.addr)
  | [] => rfl
  | x :: l => by
    by_cases hx : x.addr = p
    · simp [hx, hb, map_addr_store p b hb l]
    · simp [hx, map_addr_store p b hb l]

theorem fs_inode_get_distinct (ino dev : Nat) (s : FsState) (h : s.Distinct) :
    (fs_inode_get ino dev s).2.Distinct := by
  unfold FsState.Distinct at *
  unfold fs_inode_get
  split
  · simpa [map_addr_modify] using h
  · simpa [map_addr_modify] using h
  · exact h

theorem fs_inode_duplicate_distinct (s t : FsState) (p r : Nat) (h : s.Distinct)
    (hd : fs_inode_duplicate s p = Outcome.ret r t) : t.Distinct := by
  unfold fs_inode_duplicate at hd
  cases hp : s.deref p with
  | none => simp [hp] at hd
  | some ip =>
    have ha := deref_addr s p ip hp
    simp only [hp, Outcome.ret.injEq] at hd
    rw [← hd.2]
    unfold FsState.Distinct at *
    simp only [FsState.store]
    rw [map_addr_store p { ip with ref_count := ip.ref_count + 1 } ha]
    exact h

theorem fs_inode_put_distinct (K : Config) (X : Ext2) (cur : Process) (s t : FsState) (p : Nat)
    (h : s.Distinct) (hput : fs_inode_put K X cur s p = Outcome.ret () t) : t.Distinct := by
  cases hp : s.deref p with
  | none => simp [fs_inode_put, hp] at hput
  | some ip =>
    cases hm : ip.mutex with
    | some q => simp [fs_inode_put, hp, hm, kmutex_lock_held] at hput
    | none =>
      have ha := deref_addr s p ip hp
      have hspec := fs_inode_put_cases K X cur s p ip hp hm
      cases hd : ip.has K.FS_INODE_DIRTY with
      | true =>
        obtain ⟨u, hu, _⟩ := hspec.1 hd
        rw [hu] at hput
        exact absurd hput (by simp)
      | false =>
        obtain ⟨u, ip1, hu, _, _, ha1, _, _, _, _, _, hfront, hstay⟩ := hspec.2 hd
        rw [hu] at hput
        simp only [Outcome.ret.injEq, true_and] at hput
        subst hput
        unfold FsState.Distinct at *
        by_cases hr : ip.ref_count = 1
        · rw [hfront hr]
          simp only [List.map_cons, List.nodup_cons]
          constructor
          · intro hmem
            obtain ⟨jp, hjp, hja⟩ := List.mem_map.mp hmem
            have := (List.mem_filter.mp hjp).2
            simp only [decide_eq_true_eq] at this
            apply this
            rw [hja, ha1, ha]
          · exact List.Nodup.sublist (List.Sublist.map _ (List.filter_sublist _)) h
        · rw [hstay hr]
          simp only [FsState.store]
          rw [map_addr_store p ip1 (by rw [ha1, ha])]
          exact h

/-- Every reachable cache state has pairwise distinct slot addresses. -/
theorem Reachable.distinct (K : Config) (s : FsState) (h : Reachable K s) : s.Distinct := by
  induction h with
  | init =>
    unfold FsState.Distinct fs_inode_cache_init
    simp only [List.map_map]
    have : ((fun (x : Inode) => x.addr) ∘ Inode.zero) = id := by
      funext a
      rfl
    rw [this, List.map_id]
    exact List.nodup_range _
  | get ino dev s _ ih => exact fs_inode_get_distinct ino dev s ih
  | duplicate p r s t _ hd ih => exact fs_inode_duplicate_distinct s t p r ih hd
  | put X cur p s t _ hput ih => exact fs_inode_put_distinct K X cur s t p ih hput
  | inode_op f calls s _ hf ih =>
    unfold FsState.Distinct at *
    simp only [List.map_map]
    have : ((fun (x : Inode) => x.addr) ∘ f) = (fun (x : Inode) => x.addr) := by
      funext a
      exact (hf a).1
    rw [this]
    exact ih

/-! ## A released inode is found again -/

theorem find?_store_ne (p q : Nat) (b : Inode) (hb : b.addr = p) (hq : q ≠ p) :
    ∀ (l : List Inode),
      (l.map (fun ip => if ip.addr = p then b else ip)).find? (fun ip => decide (ip.addr = q))
        = l.find? (fun ip => decide (ip.addr = q))
  | [] => rfl
  | x :: l => by
    have ih := find?_store_ne p q b hb hq l
    by_cases hx : x.addr = p
    · have h1 : ¬ b.addr = q := by rw [hb]; exact fun h => hq h.symm
      have h2 : ¬ x.addr = q := by rw [hx]; exact fun h => hq h.symm
      simp only [List.map_cons, hx, if_true]
      rw [List.find?_cons_of_neg _ (by simpa using h1), List.find?_cons_of_neg _ (by simpa using h2)]
      exact ih
    · simp only [List.map_cons, hx, if_false]
      by_cases hxq : x.addr = q
      · rw [List.find?_cons_of_pos _ (by simpa using hxq), List.find?_cons_of_pos _ (by simpa using hxq)]
      · rw [List.find?_cons_of_neg _ (by simpa using hxq), List.find?_cons_of_neg _ (by simpa using hxq)]
        exact ih

theorem find?_filter_ne (p q : Nat) (hq : q ≠ p) :
    ∀ (l : List Inode),
      (l.filter (fun ip => decide (ip.addr ≠ p))).find? (fun ip => decide (ip.addr = q))
        = l.find? (fun ip => decide (ip.addr = q))
  | [] => rfl
  | x :: l => by
    have ih := find?_filter_ne p q hq l
    by_cases hx : x.addr = p
    · have h2 : ¬ x.addr = q := by rw [hx]; exact fun h => hq h.symm
      rw [List.filter_cons_of_neg (by simpa using hx), List.find?_cons_of_neg _ (by simpa using h2)]
      exact ih
    · rw [List.filter_cons_of_pos (by simpa using hx)]
      by_cases hxq : x.addr = q
      · rw [List.find?_cons_of_pos _ (by simpa using hxq), List.find?_cons_of_pos _ (by simpa using hxq)]
      · rw [List.find?_cons_of_neg _ (by simpa using hxq), List.find?_cons_of_neg _ (by simpa using hxq)]
        exact ih

/-- A returning `fs_inode_put` leaves the key (ino, dev) of every slot as it
was. -/
theorem fs_inode_put_keeps_keys (K : Config) (X : Ext2) (cur : Process) (s t : FsState) (p : Nat)
    (hput : fs_inode_put K X cur s p = Outcome.ret () t) (q : Nat) (iq : Inode)
    (hq : s.deref q = some iq) :
    ∃ iq2, t.deref q = some iq2 ∧ iq2.ino = iq.ino ∧ iq2.dev = iq.dev := by
  cases hp : s.deref p with
  | none => simp [fs_inode_put, hp] at hput
  | some ip =>
    cases hm : ip.mutex with
    | some r => simp [fs_inode_put, hp, hm, kmutex_lock_held] at hput
    | none =>
      have ha := deref_addr s p ip hp
      have hspec := fs_inode_put_cases K X cur s p ip hp hm
      cases hd : ip.has K.FS_INODE_DIRTY with
      | true =>
        obtain ⟨u, hu, _⟩ := hspec.1 hd
        rw [hu] at hput
        exact absurd hput (by simp)
      | false =>
        obtain ⟨u, ip1, hu, hderef, _, ha1, hi1, hd1, _, _, _, hfront, hstay⟩ := hspec.2 hd
        rw [hu] at hput
        simp only [Outcome.ret.injEq, true_and] at hput
        subst hput
        by_cases hqp : q = p
        · subst hqp
          rw [hp] at hq
          simp only [Option.some.injEq] at hq
          subst hq
          exact ⟨ip1, hderef, hi1, hd1⟩
        · refine ⟨iq, ?_, rfl, rfl⟩
          have hb : ip1.addr = p := by rw [ha1, ha]
          unfold FsState.deref at hq ⊢
          by_cases hr : ip.ref_count = 1
          · have hne : ¬ ip1.addr = q := by rw [hb]; exact fun h => hqp h.symm
            rw [hfront hr, List.find?_cons]
            simp only [hne, decide_False]
            rw [find?_filter_ne p q hqp]
            exact hq
          · rw [hstay hr]
            simp only [FsState.store]
            rw [find?_store_ne p q ip1 hb hqp]
            exact hq

/-- The re-get on a cache with distinct slot addresses. -/
theorem fs_inode_reget (K : Config) (X : Ext2) (cur : Process) (ino dev p : Nat)
    (s0 s1 s2 : FsState) (hdist : s0.Distinct)
    (hget : fs_inode_get ino dev s0 = (some p, s1))
    (hput : fs_inode_put K X cur s1 p = Outcome.ret () s2)
    (hzero : ∃ ip, s2.deref p = some ip ∧ ip.ref_count = 0) :
    ∃ ip rest, s2.inode_cache = ip :: rest ∧ ip.addr = p ∧ ip.ino = ino ∧ ip.dev = dev ∧
      fs_inode_get ino dev s2 =
        (some p, { inode_cache := { ip with ref_count := 1 } :: rest, calls := s2.calls }) := by
  obtain ⟨k, ip, ip1, hk, hia, h1a, h1i, h1d, hs1⟩ := fs_inode_get_some ino dev s0 s1 p hget
  have hp : s1.deref p = some ip1 := by
    rw [hs1]
    unfold FsState.deref
    have := find?_set_of_nodup s0.inode_cache k ip ip1 hdist hk (by rw [h1a, hia])
    rw [hia] at this
    exact this
  cases hm : ip1.mutex with
  | some r => simp [fs_inode_put, hp, hm, kmutex_lock_held] at hput
  | none =>
    have hspec := fs_inode_put_cases K X cur s1 p ip1 hp hm
    cases hd : ip1.has K.FS_INODE_DIRTY with
    | true =>
      obtain ⟨u, hu, _⟩ := hspec.1 hd
      rw [hu] at hput
      exact absurd hput (by simp)
    | false =>
      obtain ⟨u, ip2, hu, hderef, hrc, ha2, hi2, hd2, _, _, _, hfront, _⟩ := hspec.2 hd
      rw [hu] at hput
      simp only [Outcome.ret.injEq, true_and] at hput
      subst hput
      obtain ⟨iz, hz, hz0⟩ := hzero
      rw [hderef] at hz
      simp only [Option.some.injEq] at hz
      subst hz
      have hr : ip1.ref_count = 1 := by omega
      have hkey : ip2.ino = ino ∧ ip2.dev = dev := ⟨by rw [hi2, h1i], by rw [hd2, h1d]⟩
      refine ⟨ip2, _, hfront hr, by rw [ha2, h1a], hkey.1, hkey.2, ?_⟩
      simp only [fs_inode_get, hfront hr, fs_inode_get_loop]
      rw [if_pos hkey]
      simp [ha2, h1a, hz0]

/-- C3. A re-get hits.  `fs_inode_put` does not change the key (ino, dev) of any
slot; and in every cache state reachable from `fs_inode_cache_init`, when
`fs_inode_get ino dev` returned the slot `p` and `fs_inode_put` then released
it with its reference count dropping to 0, the next `fs_inode_get ino dev`
finds the key in the first slot of the list, which is the same slot `p`,
returns it and leaves it with `ref_count = 1`, the rest of the cache
unchanged. -/
theorem fs_inode_reget_hits (K : Config) (X : Ext2) (cur : Process) (ino dev p : Nat)
    (s0 s1 s2 : FsState) (hreach : Reachable K s0)
    (hget : fs_inode_get ino dev s0 = (some p, s1))
    (hput : fs_inode_put K X cur s1 p = Outcome.ret () s2)
    (hzero : ∃ ip, s2.deref p = some ip ∧ ip.ref_count = 0) :
    (∀ q iq, s1.deref q = some iq →
      ∃ iq2, s2.deref q = some iq2 ∧ iq2.ino = iq.ino ∧ iq2.dev = iq.dev) ∧
    ∃ ip rest, s2.inode_cache = ip :: rest ∧ ip.addr = p ∧ ip.ino = ino ∧ ip.dev = dev ∧
      fs_inode_get ino dev s2 =
        (some p, { inode_cache := { ip with ref_count := 1 } :: rest, calls := s2.calls }) :=
  ⟨fun q iq hq => fs_inode_put_keeps_keys K X cur s1 s2 p hput q iq hq,
   fs_inode_reget K X cur ino dev p s0 s1 s2 (Reachable.distinct K s0 hreach) hget hput hzero⟩

/-- Witness for C3: on the freshly initialised cache of four slots the key
(5, 7) is given the slot at address 3; after the put the slot is found again. -/
theorem fs_inode_reget_hits_witness :
    Reachable Config.sample (fs_inode_cache_init Config.sample.INODE_CACHE_SIZE) ∧
    fs_inode_get 5 7 (fs_inode_cache_init Config.sample.INODE_CACHE_SIZE)
      = (some 3, FsState.afterGet) ∧
    fs_inode_put Config.sample Ext2.sample Process.sample FsState.afterGet 3
      = Outcome.ret () FsState.afterPut ∧
    (∃ ip, FsState.afterPut.deref 3 = some ip ∧ ip.ref_count = 0) ∧
    (fs_inode_get 5 7 FsState.afterPut).1 = some 3 := by
  have hget : fs_inode_get 5 7 (fs_inode_cache_init Config.sample.INODE_CACHE_SIZE)
      = (some 3, FsState.afterGet) := by decide
  have hput : fs_inode_put Config.sample Ext2.sample Process.sample FsState.afterGet 3
      = Outcome.ret () FsState.afterPut := by decide
  have hzero : ∃ ip, FsState.afterPut.deref 3 = some ip ∧ ip.ref_count = 0 :=
    ⟨Inode.sample 3 5 7 0 0, by decide, by decide⟩
  obtain ⟨_, ip, rest, _, _, _, _, h⟩ :=
    fs_inode_reget_hits Config.sample Ext2.sample Process.sample 5 7 3 _ _ _
      Reachable.init hget hput hzero
  exact ⟨Reachable.init, hget, hput, hzero, by rw [h]⟩

/-! ## Permissions -/

/-- C5. Root bypass: for a current process with uid 0 and any inode,
`fs_inode_can_read` and `fs_inode_can_write` return non-zero, and
`fs_inode_can_execute` returns non-zero if and only if at least one of S_IXUSR,
S_IXGRP, S_IXOTH is set in the mode of the inode. -/
theorem fs_inode_can_root (K : Config) (my_process : Process) (inode : Inode)
    (h : my_process.uid = 0) :
    fs_inode_can_read K my_process inode ≠ 0 ∧
    fs_inode_can_write K my_process inode ≠ 0 ∧
    (fs_inode_can_execute K my_process inode ≠ 0 ↔
      (inode.mode &&& K.S_IXUSR ≠ 0 ∨ inode.mode &&& K.S_IXGRP ≠ 0 ∨
        inode.mode &&& K.S_IXOTH ≠ 0)) := by
  refine ⟨by simp [fs_inode_can_read, h], by simp [fs_inode_can_write, h], ?_⟩
  simp only [fs_inode_can_execute, h, if_true, Nat.and_or_distrib_left, ne_eq, lor_eq_zero]
  tauto

/-- Witness for C5: the superuser and a directory with mode 0755 owned by
somebody else. -/
theorem fs_inode_can_root_witness :
    Process.root.uid = 0 ∧
    fs_inode_can_read Config.sample Process.root (Inode.sampleDir 1 2 2) ≠ 0 ∧
    fs_inode_can_write Config.sample Process.root (Inode.sampleDir 1 2 2) ≠ 0 ∧
    (fs_inode_can_execute Config.sample Process.root (Inode.sampleDir 1 2 2) ≠ 0 ↔
      ((Inode.sampleDir 1 2 2).mode &&& Config.sample.S_IXUSR ≠ 0 ∨
        (Inode.sampleDir 1 2 2).mode &&& Config.sample.S_IXGRP ≠ 0 ∨
        (Inode.sampleDir 1 2 2).mode &&& Config.sample.S_IXOTH ≠ 0)) :=
  ⟨rfl, fs_inode_can_root Config.sample Process.root (Inode.sampleDir 1 2 2) rfl⟩

/-- C6. Class selection, evaluated on a file with mode 0007 and the process
that owns it (uid 1000, not the superuser): all three owner bits are clear, yet
`fs_inode_can_read`, `fs_inode_can_write` and `fs_inode_can_execute` fall
through to the "other" bits and return non-zero, whereas `fs_permissions`, which
selects exactly one class, denies each of the three requests. -/
theorem fs_inode_can_owner_falls_through :
    Process.sample.uid ≠ 0 ∧ Process.sample.uid = Inode.otherOnly.uid ∧
    Inode.otherOnly.mode &&& Config.sample.S_IRUSR = 0 ∧
    Inode.otherOnly.mode &&& Config.sample.S_IWUSR = 0 ∧
    Inode.otherOnly.mode &&& Config.sample.S_IXUSR = 0 ∧
    fs_inode_can_read Config.sample Process.sample Inode.otherOnly = 4 ∧
    fs_inode_can_write Config.sample Process.sample Inode.otherOnly = 2 ∧
    fs_inode_can_execute Config.sample Process.sample Inode.otherOnly = 1 ∧
    fs_permissions Process.sample Inode.otherOnly 4 = 0 ∧
    fs_permissions Process.sample Inode.otherOnly 2 = 0 ∧
    fs_permissions Process.sample Inode.otherOnly 1 = 0 := by
  decide

/-! ## Locking -/

/-- C7. `fs_inode_lock` on an inode whose mutex is free (the call does not have
to sleep).  With VALID and DIRTY clear it calls `ext2_read_inode` exactly once
and returns with VALID set and the mutex held by the caller; with VALID set it
returns with the mutex held, no ext2 call and nothing else changed; with VALID
clear and DIRTY set it panics.  And whatever the state on entry, after a call
that returns VALID is set. -/
theorem fs_inode_lock_spec (K : Config) (X : Ext2) (cur : Process) (s : IState)
    (hK : K.FlagsOk) :
    (s.ip.mutex = none → s.ip.has K.FS_INODE_VALID = false → s.ip.has K.FS_INODE_DIRTY = false →
      ∃ t, fs_inode_lock K X cur s = Outcome.ret () t ∧
        t.calls = s.calls ++ [Call.ext2_read_inode s.ip.addr] ∧
        t.ip.has K.FS_INODE_VALID = true ∧ t.ip.has K.FS_INODE_DIRTY = false ∧
        t.ip.mutex = some cur.pid ∧
        t.ip.addr = s.ip.addr ∧ t.ip.ino = s.ip.ino ∧ t.ip.dev = s.ip.dev ∧
        t.ip.ref_count = s.ip.ref_count) ∧
    (s.ip.mutex = none → s.ip.has K.FS_INODE_VALID = true →
      fs_inode_lock K X cur s = Outcome.ret () { s with ip := { s.ip with mutex := some cur.pid } }) ∧
    (s.ip.mutex = none → s.ip.has K.FS_INODE_VALID = false → s.ip.has K.FS_INODE_DIRTY = true →
      ∃ t, fs_inode_lock K X cur s = Outcome.panic "inode dirty" t ∧ t.calls = s.calls) ∧
    (∀ t, fs_inode_lock K X cur s = Outcome.ret () t → t.ip.has K.FS_INODE_VALID = true) := by
  obtain ⟨hV, _, hVD⟩ := hK
  have hor : ∀ f : Nat, (f ||| K.FS_INODE_VALID) &&& K.FS_INODE_VALID ≠ 0 := by
    intro f
    rw [or_and_self]
    exact hV
  refine ⟨?_, ?_, ?_, ?_⟩
  · intro hm hv hd
    have hv1 : ({ s.ip with mutex := some cur.pid } : Inode).has K.FS_INODE_VALID = false := hv
    have hd1 : ({ s.ip with mutex := some cur.pid } : Inode).has K.FS_INODE_DIRTY = false := hd
    have hret : fs_inode_lock K X cur s = Outcome.ret ()
        { ip := { s.ip with toMeta := X.ext2_read_inode { s.ip with mutex := some cur.pid },
                            flags := s.ip.flags ||| K.FS_INODE_VALID,
                            mutex := some cur.pid },
          calls := s.calls ++ [Call.ext2_read_inode s.ip.addr] } := by
      simp only [fs_inode_lock, hm, kmutex_lock_free, hv1, hd1, Bool.false_eq_true, if_false]
    refine ⟨_, hret, rfl, ?_, ?_, rfl, rfl, rfl, rfl, rfl⟩
    · simp only [Inode.has, bne_iff_ne]
      exact hor _
    · simp only [Inode.has, or_and_other _ _ _ hVD]
      exact hd
  · intro hm hv
    have hv1 : ({ s.ip with mutex := some cur.pid } : Inode).has K.FS_INODE_VALID = true := hv
    simp only [fs_inode_lock, hm, kmutex_lock_free, hv1, if_true]
  · intro hm hv hd
    have hv1 : ({ s.ip with mutex := some cur.pid } : Inode).has K.FS_INODE_VALID = false := hv
    have hd1 : ({ s.ip with mutex := some cur.pid } : Inode).has K.FS_INODE_DIRTY = true := hd
    have hpanic : fs_inode_lock K X cur s = Outcome.panic "inode dirty"
        { s with ip := { s.ip with mutex := some cur.pid } } := by
      simp only [fs_inode_lock, hm, kmutex_lock_free, hv1, hd1, Bool.false_eq_true, if_false, if_true]
    exact ⟨_, hpanic, rfl⟩
  · intro t ht
    cases hm : s.ip.mutex with
    | some q => simp [fs_inode_lock, hm, kmutex_lock_held] at ht
    | none =>
      cases hv : s.ip.has K.FS_INODE_VALID with
      | true =>
        have hv1 : ({ s.ip with mutex := some cur.pid } : Inode).has K.FS_INODE_VALID = true := hv
        simp only [fs_inode_lock, hm, kmutex_lock_free, hv1, if_true, Outcome.ret.injEq, true_and] at ht
        rw [← ht]
        exact hv
      | false =>
        have hv1 : ({ s.ip with mutex := some cur.pid } : Inode).has K.FS_INODE_VALID = false := hv
        cases hd : s.ip.has K.FS_INODE_DIRTY with
        | true =>
          have hd1 : ({ s.ip with mutex := some cur.pid } : Inode).has K.FS_INODE_DIRTY = true := hd
          simp [fs_inode_lock, hm, kmutex_lock_free, hv1, hd1] at ht
        | false =>
          have hd1 : ({ s.ip with mutex := some cur.pid } : Inode).has K.FS_INODE_DIRTY = false := hd
          simp only [fs_inode_lock, hm, kmutex_lock_free, hv1, hd1, Bool.false_eq_true, if_false, Outcome.ret.injEq,
            true_and] at ht
          rw [← ht]
          simp only [Inode.has, bne_iff_ne]
          exact hor _

/-- Witness for C7: the first lock of a fresh slot reads the inode in. -/
theorem fs_inode_lock_spec_witness :
    Config.sample.FlagsOk ∧
    ∃ t, fs_inode_lock Config.sample Ext2.sample Process.sample IState.fresh = Outcome.ret () t ∧
      t.calls = IState.fresh.calls ++ [Call.ext2_read_inode IState.fresh.ip.addr] ∧
      t.ip.has Config.sample.FS_INODE_VALID = true ∧
      t.ip.has Config.sample.FS_INODE_DIRTY = false ∧
      t.ip.mutex = some Process.sample.pid ∧
      t.ip.addr = IState.fresh.ip.addr ∧ t.ip.ino = IState.fresh.ip.ino ∧
      t.ip.dev = IState.fresh.ip.dev ∧ t.ip.ref_count = IState.fresh.ip.ref_count :=
  ⟨by decide,
   (fs_inode_lock_spec Config.sample Ext2.sample Process.sample IState.fresh (by decide)).1
     (by decide) (by decide) (by decide)⟩

/-- C8. `fs_inode_unlock` called by the holder of the mutex.  On a VALID inode
it calls `ext2_write_inode` (once) if DIRTY was set on entry and makes no ext2
call otherwise, and it returns with DIRTY clear, VALID still set and the mutex
released.  On an inode whose VALID flag is clear it panics (whoever holds the
mutex) and leaves the state as it was: nothing is written back and the mutex is
not released. -/
theorem fs_inode_unlock_spec (K : Config) (X : Ext2) (cur : Process) (s : IState)
    (hK : K.FlagsOk) :
    (s.ip.has K.FS_INODE_VALID = true → s.ip.mutex = some cur.pid →
      ∃ t, fs_inode_unlock K X cur s = Outcome.ret () t ∧
        (s.ip.has K.FS_INODE_DIRTY = true →
          t.calls = s.calls ++ [Call.ext2_write_inode s.ip.addr]) ∧
        (s.ip.has K.FS_INODE_DIRTY = false → t.calls = s.calls ∧ t.ip.toMeta = s.ip.toMeta) ∧
        t.ip.has K.FS_INODE_DIRTY = false ∧ t.ip.has K.FS_INODE_VALID = true ∧
        t.ip.mutex = none ∧
        t.ip.addr = s.ip.addr ∧ t.ip.ino = s.ip.ino ∧ t.ip.dev = s.ip.dev ∧
        t.ip.ref_count = s.ip.ref_count) ∧
    (s.ip.has K.FS_INODE_VALID = false →
      fs_inode_unlock K X cur s = Outcome.panic "inode not valid" s) := by
  obtain ⟨_, _, hVD⟩ := hK
  have hDV : K.FS_INODE_DIRTY &&& K.FS_INODE_VALID = 0 := by rw [Nat.and_comm]; exact hVD
  constructor
  · intro hv hm
    have hh := kmutex_unlock_holder cur.pid
    cases hd : s.ip.has K.FS_INODE_DIRTY with
    | true =>
      have hret : fs_inode_unlock K X cur s = Outcome.ret ()
          { ip := { s.ip with toMeta := X.ext2_write_inode s.ip,
                              flags := clear_bits s.ip.flags K.FS_INODE_DIRTY,
                              mutex := none },
            calls := s.calls ++ [Call.ext2_write_inode s.ip.addr] } := by
        simp only [fs_inode_unlock, hv, hd, hm, hh, Bool.not_true, Bool.false_eq_true, if_false,
          if_true]
      refine ⟨_, hret, fun _ => rfl, fun h => absurd h (by simp), ?_, ?_, rfl, rfl, rfl, rfl, rfl⟩
      · simp [Inode.has, clear_bits_and_self]
      · simp only [Inode.has, clear_bits_and_other _ _ _ hDV]
        exact hv
    | false =>
      have hret : fs_inode_unlock K X cur s = Outcome.ret ()
          { s with ip := { s.ip with mutex := none } } := by
        simp only [fs_inode_unlock, hv, hd, hm, hh, Bool.not_true, Bool.false_eq_true, if_false]
      exact ⟨_, hret, fun h => absurd h (by simp), fun _ => ⟨rfl, rfl⟩, hd, hv, rfl, rfl, rfl,
        rfl, rfl⟩
  · intro hv
    simp only [fs_inode_unlock, hv, Bool.not_false, if_true]

/-- Witness for C8: unlocking a VALID and DIRTY inode held by the caller writes
it back. -/
theorem fs_inode_unlock_spec_witness :
    Config.sample.FlagsOk ∧
    ∃ t, fs_inode_unlock Config.sample Ext2.sample Process.sample IState.dirty = Outcome.ret () t ∧
      t.calls = [Call.ext2_write_inode 0] ∧
      t.ip.has Config.sample.FS_INODE_DIRTY = false ∧
      t.ip.has Config.sample.FS_INODE_VALID = true ∧ t.ip.mutex = none := by
  obtain ⟨t, hret, hw, _, hd, hv, hm, _⟩ :=
    (fs_inode_unlock_spec Config.sample Ext2.sample Process.sample IState.dirty (by decide)).1
      (by decide) (by decide)
  exact ⟨by decide, t, hret, hw (by decide), hd, hv, hm⟩

/-! ## Directory operations -/

/-- C9. Error mapping of `fs_inode_link` when the caller holds both inodes.  If
`dir` is not a directory the result is -ENOTDIR; otherwise, if `dir` is not
writable, -EPERM.  For a writable directory: -EPERM if `inode` is a directory;
otherwise -EMLINK if `inode.nlink ≥ LINK_MAX`; otherwise -EXDEV if the devices
differ; in all these refusals the state is returned unchanged (no ext2 call, no
change of `nlink`).  Otherwise `ext2_inode_link (dir, name, inode)` is called
once and its result is returned. -/
theorem fs_inode_link_spec (K : Config) (X : Ext2) (cur : Process) (name : String) (s : IIState)
    (hi : fs_inode_holding cur s.inode = true) (hdir : fs_inode_holding cur s.dir = true) :
    (S_ISDIR K s.dir.mode = false → fs_inode_link K X cur name s = Outcome.ret (-K.ENOTDIR) s) ∧
    (S_ISDIR K s.dir.mode = true → fs_inode_can_write K cur s.dir = 0 →
      fs_inode_link K X cur name s = Outcome.ret (-K.EPERM) s) ∧
    (S_ISDIR K s.dir.mode = true → fs_inode_can_write K cur s.dir ≠ 0 →
      (S_ISDIR K s.inode.mode = true →
        fs_inode_link K X cur name s = Outcome.ret (-K.EPERM) s) ∧
      (S_ISDIR K s.inode.mode = false → s.inode.nlink ≥ K.LINK_MAX →
        fs_inode_link K X cur name s = Outcome.ret (-K.EMLINK) s) ∧
      (S_ISDIR K s.inode.mode = false → s.inode.nlink < K.LINK_MAX → s.dir.dev ≠ s.inode.dev →
        fs_inode_link K X cur name s = Outcome.ret (-K.EXDEV) s) ∧
      (S_ISDIR K s.inode.mode = false → s.inode.nlink < K.LINK_MAX → s.dir.dev = s.inode.dev →
        fs_inode_link K X cur name s =
          Outcome.ret (X.ext2_inode_link s.dir name s.inode).1
            { inode := { s.inode with toMeta := (X.ext2_inode_link s.dir name s.inode).2.2 },
              dir := { s.dir with toMeta := (X.ext2_inode_link s.dir name s.inode).2.1 },
              calls := s.calls ++ [Call.ext2_inode_link s.dir.addr name s.inode.addr] })) := by
  refine ⟨?_, ?_, ?_⟩
  · intro hd
    simp [fs_inode_link, hi, hdir, hd]
  · intro hd hw
    simp [fs_inode_link, hi, hdir, hd, hw]
  · intro hd hw
    refine ⟨?_, ?_, ?_, ?_⟩
    · intro hid
      simp [fs_inode_link, hi, hdir, hd, hw, hid]
    · intro hid hn
      simp [fs_inode_link, hi, hdir, hd, hw, hid, hn]
    · intro hid hn hdev
      have hn1 : ¬ K.LINK_MAX ≤ s.inode.nlink := by omega
      simp [fs_inode_link, hi, hdir, hd, hw, hid, hn1, hdev]
    · intro hid hn hdev
      have hn1 : ¬ K.LINK_MAX ≤ s.inode.nlink := by omega
      simp [fs_inode_link, hi, hdir, hd, hw, hid, hn1, hdev]

/-- Witness for C9: linking a directory is refused with -EPERM. -/
theorem fs_inode_link_spec_witness :
    fs_inode_holding Process.sample IIState.dirInDir.inode = true ∧
    fs_inode_holding Process.sample IIState.dirInDir.dir = true ∧
    fs_inode_link Config.sample Ext2.sample Process.sample "d" IIState.dirInDir
      = Outcome.ret (-Config.sample.EPERM) IIState.dirInDir :=
  ⟨by decide, by decide,
   ((fs_inode_link_spec Config.sample Ext2.sample Process.sample "d" IIState.dirInDir
      (by decide) (by decide)).2.2 (by decide) (by decide)).1 (by decide)⟩

/-- C10. `fs_inode_rmdir` evaluated on a directory inside a writable directory,
both held by the caller: the call returns -EPERM and does not call
`ext2_inode_rmdir`; the state is as before. -/
theorem fs_inode_rmdir_refuses_directory :
    fs_inode_holding Process.sample IIState.dirInDir.inode = true ∧
    fs_inode_holding Process.sample IIState.dirInDir.dir = true ∧
    S_ISDIR Config.sample IIState.dirInDir.dir.mode = true ∧
    fs_inode_can_write Config.sample Process.sample IIState.dirInDir.dir ≠ 0 ∧
    S_ISDIR Config.sample IIState.dirInDir.inode.mode = true ∧
    fs_inode_rmdir Config.sample Ext2.sample Process.sample IIState.dirInDir
      = Outcome.ret (-Config.sample.EPERM) IIState.dirInDir := by
  decide

/-- C11. `fs_inode_unlink` when the caller holds both inodes and `dir` is a
directory it may write: a directory target is refused with -EPERM, the state
is returned unchanged (no call of `ext2_inode_unlink`); for every other target
`ext2_inode_unlink (dir, inode)` is called once and its result is returned. -/
theorem fs_inode_unlink_spec (K : Config) (X : Ext2) (cur : Process) (s : IIState)
    (hi : fs_inode_holding cur s.inode = true) (hdir : fs_inode_holding cur s.dir = true)
    (hd : S_ISDIR K s.dir.mode = true) (hw : fs_inode_can_write K cur s.dir ≠ 0) :
    (S_ISDIR K s.inode.mode = true →
      fs_inode_unlink K X cur s = Outcome.ret (-K.EPERM) s) ∧
    (S_ISDIR K s.inode.mode = false →
      fs_inode_unlink K X cur s =
        Outcome.ret (X.ext2_inode_unlink s.dir s.inode).1
          { inode := { s.inode with toMeta := (X.ext2_inode_unlink s.dir s.inode).2.2 },
            dir := { s.dir with toMeta := (X.ext2_inode_unlink s.dir s.inode).2.1 },
            calls := s.calls ++ [Call.ext2_inode_unlink s.dir.addr s.inode.addr] }) := by
  constructor
  · intro hid
    simp [fs_inode_unlink, hi, hdir, hd, hw, hid]
  · intro hid
    simp [fs_inode_unlink, hi, hdir, hd, hw, hid]

/-- Witness for C11: unlinking a regular file from its directory goes to the
ext2 layer, whose result 0 is returned. -/
theorem fs_inode_unlink_spec_witness :
    fs_inode_holding Process.sample IIState.fileInDir.inode = true ∧
    fs_inode_holding Process.sample IIState.fileInDir.dir = true ∧
    S_ISDIR Config.sample IIState.fileInDir.dir.mode = true ∧
    fs_inode_can_write Config.sample Process.sample IIState.fileInDir.dir ≠ 0 ∧
    S_ISDIR Config.sample IIState.fileInDir.inode.mode = false ∧
    fs_inode_unlink Config.sample Ext2.sample Process.sample IIState.fileInDir =
      Outcome.ret 0 { IIState.fileInDir with calls := [Call.ext2_inode_unlink 1 2] } :=
  ⟨by decide, by decide, by decide, by decide, by decide,
   (fs_inode_unlink_spec Config.sample Ext2.sample Process.sample IIState.fileInDir
      (by decide) (by decide) (by decide) (by decide)).2 (by decide)⟩

/-- C12. `fs_inode_create` on a directory inode held by the caller.  If it is
not a directory the result is -ENOTDIR, otherwise if the caller may not write it
-EPERM, in both cases before any ext2 call.  Otherwise `ext2_inode_lookup` is
called: if it finds the name the result is -EEXISTS and none of
`ext2_inode_mkdir`, `ext2_inode_create`, `ext2_inode_mknod` is called; if not,
the call goes to `ext2_inode_mkdir` for `mode & S_IFMT = S_IFDIR`, to
`ext2_inode_create` for `S_IFREG` and to `ext2_inode_mknod` (with `dev`) for
every other type, and the result of the callee is returned. -/
theorem fs_inode_create_spec (K : Config) (X : Ext2) (cur : Process) (name : String)
    (mode dev : Nat) (istore : Option Nat) (s : IState)
    (hh : fs_inode_holding cur s.ip = true) (hcase : K.S_IFDIR ≠ K.S_IFREG) :
    (S_ISDIR K s.ip.mode = false →
      fs_inode_create K X cur name mode dev istore s = Outcome.ret (-K.ENOTDIR, istore) s) ∧
    (S_ISDIR K s.ip.mode = true → fs_inode_can_write K cur s.ip = 0 →
      fs_inode_create K X cur name mode dev istore s = Outcome.ret (-K.EPERM, istore) s) ∧
    (S_ISDIR K s.ip.mode = true → fs_inode_can_write K cur s.ip ≠ 0 →
      ∀ dir : Inode, dir = { s.ip with toMeta := (X.ext2_inode_lookup s.ip name).2 } →
      ((X.ext2_inode_lookup s.ip name).1 ≠ none →
        fs_inode_create K X cur name mode dev istore s =
          Outcome.ret (-K.EEXISTS, istore)
            { ip := dir, calls := s.calls ++ [Call.ext2_inode_lookup s.ip.addr name] }) ∧
      ((X.ext2_inode_lookup s.ip name).1 = none → mode &&& K.S_IFMT = K.S_IFDIR →
        fs_inode_create K X cur name mode dev istore s =
          Outcome.ret ((X.ext2_inode_mkdir dir name mode).1, (X.ext2_inode_mkdir dir name mode).2.2)
            { ip := { dir with toMeta := (X.ext2_inode_mkdir dir name mode).2.1 },
              calls := s.calls ++ [Call.ext2_inode_lookup s.ip.addr name,
                                   Call.ext2_inode_mkdir s.ip.addr name mode] }) ∧
      ((X.ext2_inode_lookup s.ip name).1 = none → mode &&& K.S_IFMT = K.S_IFREG →
        fs_inode_create K X cur name mode dev istore s =
          Outcome.ret ((X.ext2_inode_create dir name mode).1,
                       (X.ext2_inode_create dir name mode).2.2)
            { ip := { dir with toMeta := (X.ext2_inode_create dir name mode).2.1 },
              calls := s.calls ++ [Call.ext2_inode_lookup s.ip.addr name,
                                   Call.ext2_inode_create s.ip.addr name mode] }) ∧
      ((X.ext2_inode_lookup s.ip name).1 = none → mode &&& K.S_IFMT ≠ K.S_IFDIR →
        mode &&& K.S_IFMT ≠ K.S_IFREG →
        fs_inode_create K X cur name mode dev istore s =
          Outcome.ret ((X.ext2_inode_mknod dir name mode dev).1,
                       (X.ext2_inode_mknod dir name mode dev).2.2)
            { ip := { dir with toMeta := (X.ext2_inode_mknod dir name mode dev).2.1 },
              calls := s.calls ++ [Call.ext2_inode_lookup s.ip.addr name,
                                   Call.ext2_inode_mknod s.ip.addr name mode dev] })) := by
  refine ⟨?_, ?_, ?_⟩
  · intro hd
    simp [fs_inode_create, hh, hd]
  · intro hd hw
    simp [fs_inode_create, hh, hd, hw]
  · intro hd hw dir hdir
    subst hdir
    refine ⟨?_, ?_, ?_, ?_⟩
    · intro hl
      simp [fs_inode_create, hh, hd, hw, hl]
    · intro hl hm
      simp [fs_inode_create, hh, hd, hw, hl, hm]
    · intro hl hm
      have hne : ¬ K.S_IFREG = K.S_IFDIR := fun h => hcase h.symm
      simp [fs_inode_create, hh, hd, hw, hl, hm, hne]
    · intro hl hm1 hm2
      simp [fs_inode_create, hh, hd, hw, hl, hm1, hm2]

/-- Witness for C12: creating the regular file "g" in a directory that has no
such entry goes to `ext2_inode_create`. -/
theorem fs_inode_create_spec_witness :
    fs_inode_holding Process.sample IState.heldDir.ip = true ∧
    Config.sample.S_IFDIR ≠ Config.sample.S_IFREG ∧
    fs_inode_create Config.sample Ext2.sample Process.sample "g" 0o100644 0 none IState.heldDir =
      Outcome.ret (0, some 3)
        { ip := IState.heldDir.ip,
          calls := [Call.ext2_inode_lookup 1 "g", Call.ext2_inode_create 1 "g" 0o100644] } :=
  ⟨by decide, by decide,
   ((fs_inode_create_spec Config.sample Ext2.sample Process.sample "g" 0o100644 0 none
      IState.heldDir (by decide) (by decide)).2.2 (by decide) (by decide) _ rfl).2.2.1
      (by decide) (by decide)⟩

/-- What `fs_inode_chmod` does on an inode held by the caller. -/
theorem fs_inode_chmod_cases (K : Config) (D : Drivers) (current : Process) (mode : Nat)
    (s : IState) (hh : fs_inode_holding current s.ip = true) :
    ((current.uid ≠ 0 ∧ s.ip.uid ≠ current.uid) →
      fs_inode_chmod K D current mode s = Outcome.ret (-K.EPERM) s) ∧
    (¬ (current.uid ≠ 0 ∧ s.ip.uid ≠ current.uid) →
      fs_inode_chmod K D current mode s =
        Outcome.ret 0
          { s with ip := { s.ip with mode := mode, ctime := D.rtc_get_time,
                                     flags := s.ip.flags ||| K.FS_INODE_DIRTY } }) := by
  constructor
  · intro hc
    simp only [fs_inode_chmod, hh, Bool.not_true, Bool.false_eq_true, if_false, if_pos hc]
  · intro hc
    simp only [fs_inode_chmod, hh, Bool.not_true, Bool.false_eq_true, if_false, if_neg hc]

/-- C13. `fs_inode_chmod` on an inode held by the caller.  When the uid of the
current process is non-zero and differs from the uid of the inode, the call
returns -EPERM and the state is unchanged.  Otherwise it returns 0 with `ctime`
set to the RTC time, the DIRTY flag set and `mode` set to the argument, while
uid, gid, nlink, size, atime, mtime, ino, dev, ref_count, the address, the
mutex, the VALID flag and the call log are unchanged.  With a non-zero EPERM,
the refusal occurs exactly in the first case. -/
theorem fs_inode_chmod_spec (K : Config) (D : Drivers) (current : Process) (mode : Nat)
    (s : IState) (hK : K.FlagsOk) (hh : fs_inode_holding current s.ip = true) :
    ((current.uid ≠ 0 ∧ s.ip.uid ≠ current.uid) →
      fs_inode_chmod K D current mode s = Outcome.ret (-K.EPERM) s) ∧
    (¬ (current.uid ≠ 0 ∧ s.ip.uid ≠ current.uid) →
      ∃ t, fs_inode_chmod K D current mode s = Outcome.ret 0 t ∧
        t.ip.ctime = D.rtc_get_time ∧ t.ip.has K.FS_INODE_DIRTY = true ∧ t.ip.mode = mode ∧
        t.ip.uid = s.ip.uid ∧ t.ip.gid = s.ip.gid ∧ t.ip.nlink = s.ip.nlink ∧
        t.ip.size = s.ip.size ∧ t.ip.atime = s.ip.atime ∧ t.ip.mtime = s.ip.mtime ∧
        t.ip.ino = s.ip.ino ∧ t.ip.dev = s.ip.dev ∧ t.ip.ref_count = s.ip.ref_count ∧
        t.ip.addr = s.ip.addr ∧ t.ip.mutex = s.ip.mutex ∧
        t.ip.has K.FS_INODE_VALID = s.ip.has K.FS_INODE_VALID ∧ t.calls = s.calls) ∧
    (K.EPERM ≠ 0 →
      (fs_inode_chmod K D current mode s = Outcome.ret (-K.EPERM) s ↔
        (current.uid ≠ 0 ∧ s.ip.uid ≠ current.uid))) := by
  obtain ⟨_, hD, hVD⟩ := hK
  have hDV : K.FS_INODE_DIRTY &&& K.FS_INODE_VALID = 0 := by rw [Nat.and_comm]; exact hVD
  have hc := fs_inode_chmod_cases K D current mode s hh
  refine ⟨hc.1, ?_, ?_⟩
  · intro hn
    refine ⟨_, hc.2 hn, rfl, ?_, rfl, rfl, rfl, rfl, rfl, rfl, rfl, rfl, rfl, rfl, rfl, rfl, ?_,
      rfl⟩
    · simp only [Inode.has, or_and_self, bne_iff_ne]
      exact hD
    · simp only [Inode.has, or_and_other _ _ _ hDV]
  · intro he
    constructor
    · intro hret
      by_contra hn
      rw [hc.2 hn] at hret
      simp only [Outcome.ret.injEq] at hret
      have : K.EPERM = 0 := by omega
      exact he this
    · exact hc.1

/-- Witness for C13: the owner changes the mode of a held regular file. -/
theorem fs_inode_chmod_spec_witness :
    Config.sample.FlagsOk ∧ fs_inode_holding Process.sample IState.heldFile.ip = true ∧
    ∃ t, fs_inode_chmod Config.sample Drivers.sample Process.sample 0o100600 IState.heldFile
        = Outcome.ret 0 t ∧
      t.ip.ctime = 1000 ∧ t.ip.has Config.sample.FS_INODE_DIRTY = true ∧ t.ip.mode = 0o100600 ∧
      t.ip.uid = 1000 ∧ t.ip.ref_count = 1 := by
  obtain ⟨t, hret, hct, hdirty, hmode, huid, _, _, _, _, _, _, _, hrc, _⟩ :=
    (fs_inode_chmod_spec Config.sample Drivers.sample Process.sample 0o100600 IState.heldFile
      (by decide) (by decide)).2.1 (by decide)
  exact ⟨by decide, by decide, t, hret, hct, hdirty, hmode, huid, hrc⟩

/-! ## Reading and writing -/

/-- A non-negative offset that fits into the signed word is its own unsigned
value. -/
theorem to_word_of_nonneg (K : Config) (i : Int) (h0 : 0 ≤ i) (h1 : i < K.word) :
    K.to_word i = i.toNat := by
  unfold Config.to_word
  rw [Int.emod_eq_of_lt h0 h1]

/-- Storing an integer of the range 0 .. 2^(LONG_BIT-1) - 1 in a signed word
keeps its value. -/
theorem to_signed_of_fits (K : Config) (i : Int) (h0 : 0 ≤ i) (h1 : i < (K.word / 2 : Nat)) :
    K.to_signed i = i := by
  have hw : i < K.word := by
    have := Nat.div_le_self K.word 2
    omega
  unfold Config.to_signed
  rw [to_word_of_nonneg K i h0 hw]
  have h2 : i.toNat < K.word / 2 := by omega
  rw [if_pos h2]
  omega

/-- C15. `fs_inode_read` and `fs_inode_write` evaluated on a held regular file
that the caller may read and write, with 32-bit words, at `*off` = 2^31 - 1 (the
largest `off_t`) and `nbyte` = 1: `*off + nbyte` = 2^31 does not fit into an
`off_t`, but the unsigned sum does not wrap, the test `(*off + nbyte) < *off` is
false, the ext2 layer is called, the call returns 1 and `*off += ret` leaves
-2^31 in `*off`.  Only when the unsigned sum wraps past 2^32 (`nbyte` =
2^32 - 1 at the same offset) do the functions return -EINVAL with `*off`
unchanged and no ext2 call. -/
theorem fs_inode_rw_signed_overflow_undetected :
    fs_inode_holding Process.sample IState.heldFile.ip = true ∧
    S_ISCHR Config.sample IState.heldFile.ip.mode = false ∧
    S_ISBLK Config.sample IState.heldFile.ip.mode = false ∧
    fs_inode_can_read Config.sample Process.sample IState.heldFile.ip ≠ 0 ∧
    fs_inode_can_write Config.sample Process.sample IState.heldFile.ip ≠ 0 ∧
    (2147483647 : Int) = (Config.sample.word / 2 : Nat) - 1 ∧
    ¬ ((2147483647 : Int) + 1 ≤ (Config.sample.word / 2 : Nat) - 1) ∧
    fs_inode_read Config.sample Ext2.sample Drivers.sample Process.sample 1 2147483647
      IState.heldFile
      = Outcome.ret (1, -2147483648)
          { IState.heldFile with calls := [Call.ext2_inode_read 2 1 2147483647] } ∧
    fs_inode_write Config.sample Ext2.sample Drivers.sample Process.sample 1 2147483647
      IState.heldFile
      = Outcome.ret (1, -2147483648)
          { IState.heldFile with calls := [Call.ext2_inode_write 2 1 2147483647] } ∧
    fs_inode_read Config.sample Ext2.sample Drivers.sample Process.sample 4294967295 2147483647
      IState.heldFile = Outcome.ret (-Config.sample.EINVAL, 2147483647) IState.heldFile ∧
    fs_inode_write Config.sample Ext2.sample Drivers.sample Process.sample 4294967295 2147483647
      IState.heldFile = Outcome.ret (-Config.sample.EINVAL, 2147483647) IState.heldFile := by
  refine ⟨by decide, by decide, by decide, by decide, by decide, by decide, by decide,
    by decide, by decide, by decide, by decide⟩

/-- C16. Offset advance: on a held inode that is neither a character nor a
block device, with `*off` a file position (not negative) and `*off + nbyte`
fitting into an `off_t` (at most 2^(LONG_BIT-1) - 1).  If the permission check
fails, `fs_inode_read` and `fs_inode_write` return -EPERM with `*off` and the
state unchanged.  Otherwise the ext2 layer is called once and its result is
returned: a negative result leaves `*off` as it was, and a non-negative byte
count (of at most `nbyte` bytes) advances `*off` by exactly that count, without
overflow of the signed offset. -/
theorem fs_inode_rw_advance (K : Config) (X : Ext2) (D : Drivers) (cur : Process)
    (nbyte : Nat) (off : Int) (s : IState)
    (hh : fs_inode_holding cur s.ip = true)
    (hchr : S_ISCHR K s.ip.mode = false) (hblk : S_ISBLK K s.ip.mode = false)
    (hoff : 0 ≤ off) (hfit : off + nbyte < (K.word / 2 : Nat)) :
    (fs_inode_can_read K cur s.ip = 0 →
      fs_inode_read K X D cur nbyte off s = Outcome.ret (-K.EPERM, off) s) ∧
    (fs_inode_can_read K cur s.ip ≠ 0 →
      ∃ off1, fs_inode_read K X D cur nbyte off s =
          Outcome.ret ((X.ext2_inode_read s.ip nbyte off).1, off1)
            { ip := { s.ip with toMeta := (X.ext2_inode_read s.ip nbyte off).2 },
              calls := s.calls ++ [Call.ext2_inode_read s.ip.addr nbyte off] } ∧
        ((X.ext2_inode_read s.ip nbyte off).1 < 0 → off1 = off) ∧
        (0 ≤ (X.ext2_inode_read s.ip nbyte off).1 →
          (X.ext2_inode_read s.ip nbyte off).1 ≤ nbyte →
          off1 = off + (X.ext2_inode_read s.ip nbyte off).1 ∧
            off1 < (K.word / 2 : Nat))) ∧
    (fs_inode_can_write K cur s.ip = 0 →
      fs_inode_write K X D cur nbyte off s = Outcome.ret (-K.EPERM, off) s) ∧
    (fs_inode_can_write K cur s.ip ≠ 0 →
      ∃ off1, fs_inode_write K X D cur nbyte off s =
          Outcome.ret ((X.ext2_inode_write s.ip nbyte off).1, off1)
            { ip := { s.ip with toMeta := (X.ext2_inode_write s.ip nbyte off).2 },
              calls := s.calls ++ [Call.ext2_inode_write s.ip.addr nbyte off] } ∧
        ((X.ext2_inode_write s.ip nbyte off).1 < 0 → off1 = off) ∧
        (0 ≤ (X.ext2_inode_write s.ip nbyte off).1 →
          (X.ext2_inode_write s.ip nbyte off).1 ≤ nbyte →
          off1 = off + (X.ext2_inode_write s.ip nbyte off).1 ∧
            off1 < (K.word / 2 : Nat))) := by
  have hhalf := Nat.div_le_self K.word 2
  have hw : off < K.word := by omega
  have htw := to_word_of_nonneg K off hoff hw
  have hnlt : ¬ (K.to_word off + nbyte) % K.word < K.to_word off := by
    rw [htw, Nat.mod_eq_of_lt (by omega)]
    omega
  have hexact : ∀ r : Int, 0 ≤ r → r ≤ nbyte →
      K.to_signed (off + r) = off + r ∧ K.to_signed (off + r) < (K.word / 2 : Nat) := by
    intro r h0 h1
    have h2 := to_signed_of_fits K (off + r) (by omega) (by omega)
    rw [h2]
    exact ⟨rfl, by omega⟩
  refine ⟨?_, ?_, ?_, ?_⟩
  · intro hr
    simp [fs_inode_read, hh, hr]
  · intro hr
    by_cases hneg : (X.ext2_inode_read s.ip nbyte off).1 < 0
    · refine ⟨off, ?_, fun _ => rfl, fun h0 _ => absurd hneg (by omega)⟩
      simp [fs_inode_read, hh, hr, hchr, hblk, hnlt, hneg]
    · refine ⟨K.to_signed (off + (X.ext2_inode_read s.ip nbyte off).1), ?_,
        fun h => absurd h hneg, fun h0 h1 => hexact _ h0 h1⟩
      simp [fs_inode_read, hh, hr, hchr, hblk, hnlt, hneg]
  · intro hw
    simp [fs_inode_write, hh, hw]
  · intro hw
    by_cases hpos : (X.ext2_inode_write s.ip nbyte off).1 > 0
    · refine ⟨K.to_signed (off + (X.ext2_inode_write s.ip nbyte off).1), ?_,
        fun h => absurd h (by omega), fun h0 h1 => hexact _ h0 h1⟩
      simp [fs_inode_write, hh, hw, hchr, hblk, hnlt, hpos]
    · refine ⟨off, ?_, fun _ => rfl, fun h0 _ => ?_⟩
      · simp [fs_inode_write, hh, hw, hchr, hblk, hnlt, hpos]
      · have hz : (X.ext2_inode_write s.ip nbyte off).1 = 0 := by omega
        rw [hz]
        exact ⟨by omega, by omega⟩

/-- Witness for C16: reading 10 bytes at offset 100 of a held regular file
returns 10 and leaves the offset at 110. -/
theorem fs_inode_rw_advance_witness :
    fs_inode_holding Process.sample IState.heldFile.ip = true ∧
    S_ISCHR Config.sample IState.heldFile.ip.mode = false ∧
    S_ISBLK Config.sample IState.heldFile.ip.mode = false ∧
    (0 : Int) ≤ 100 ∧ (100 : Int) + (10 : Nat) < (Config.sample.word / 2 : Nat) ∧
    fs_inode_can_read Config.sample Process.sample IState.heldFile.ip ≠ 0 ∧
    ∃ off1 : Int, fs_inode_read Config.sample Ext2.sample Drivers.sample Process.sample 10 100
        IState.heldFile =
        Outcome.ret (10, off1) { IState.heldFile with calls := [Call.ext2_inode_read 2 10 100] } ∧
      off1 = 100 + 10 := by
  obtain ⟨off1, hret, _, hadv⟩ :=
    (fs_inode_rw_advance Config.sample Ext2.sample Drivers.sample Process.sample 10 100
      IState.heldFile (by decide) (by decide) (by decide) (by decide) (by decide)).2.1 (by decide)
  exact ⟨by decide, by decide, by decide, by decide, by decide, by decide, off1, hret,
    (hadv (by decide) (by decide)).1⟩

/-! ## Reading a directory -/

/-- A word whose signed reading is not negative is its own signed reading. -/
theorem to_ssize_nonneg (K : Config) (n : Nat) (hn : n < K.word) (h : 0 ≤ K.to_ssize n) :
    K.to_ssize n = n := by
  unfold Config.to_ssize at *
  rw [Nat.mod_eq_of_lt hn] at *
  split
  · rfl
  · rename_i hge
    rw [if_neg hge] at h
    omega

/-- The loop invariant of `fs_inode_read_dir`: `total` is the sum of the record
lengths accepted so far, `nbyte` is what remains of the `N` bytes of the buffer,
and `*off` is the initial offset advanced by the on-disk lengths of the accepted
records. -/
theorem fs_inode_read_dir_loop_sum (K : Config) (X : Ext2) (hE : 0 < K.EINVAL)
    (N off0 : Nat) (hN : N < K.word) :
    ∀ (fuel nbyte total : Nat) (v : ReadDir) (s t : IState) (w : ReadDir),
      nbyte + total = N →
      total = (v.stored.map (fun e => e.2.d_reclen)).sum →
      v.off = (off0 + (v.stored.map (fun e => e.1)).sum) % K.word →
      fs_inode_read_dir_loop K X fuel nbyte total v s = some (Outcome.ret w t) →
      0 ≤ w.ret →
      w.ret = ((w.stored.map (fun e => e.2.d_reclen)).sum : Nat) ∧ w.ret ≤ (N : Int) ∧
        w.off = (off0 + (w.stored.map (fun e => e.1)).sum) % K.word := by
  intro fuel
  induction fuel with
  | zero =>
    intro nbyte total v s t w _ _ _ h
    simp [fs_inode_read_dir_loop] at h
  | succ fuel ih =>
    intro nbyte total v s t w hsum htot hoff h hret
    have htw : total < K.word := by omega
    have hfinal : ∀ w1 : ReadDir, w1.ret = K.to_ssize total → w1.stored = v.stored →
        w1.off = v.off → 0 ≤ w1.ret →
        w1.ret = ((w1.stored.map (fun e => e.2.d_reclen)).sum : Nat) ∧ w1.ret ≤ (N : Int) ∧
          w1.off = (off0 + (w1.stored.map (fun e => e.1)).sum) % K.word := by
      intro w1 h1 h2 h3 h4
      rw [h1] at h4
      rw [h1, h2, h3, to_ssize_nonneg K total htw h4, ← htot]
      exact ⟨rfl, by omega, hoff⟩
    rw [fs_inode_read_dir_loop] at h
    by_cases hnb : nbyte > 0
    · simp only [if_pos hnb] at h
      by_cases hneg : (X.ext2_readdir s.ip v.off).1 < 0
      · simp only [if_pos hneg, Option.some.injEq, Outcome.ret.injEq] at h
        rw [← h.1] at hret
        simp only at hret
        omega
      · simp only [if_neg hneg] at h
        by_cases hz : (X.ext2_readdir s.ip v.off).1 = 0
        · simp only [if_pos hz, Option.some.injEq, Outcome.ret.injEq] at h
          rw [← h.1] at hret ⊢
          exact hfinal _ rfl rfl rfl hret
        · simp only [if_neg hz] at h
          cases hrec : (X.ext2_readdir s.ip v.off).2.1 with
          | none => simp [hrec] at h
          | some a =>
            simp only [hrec] at h
            by_cases hbig : (fs_filldir K a).d_reclen > nbyte
            · simp only [if_pos hbig] at h
              by_cases ht0 : total = 0
              · simp only [if_pos ht0, Option.some.injEq, Outcome.ret.injEq] at h
                rw [← h.1] at hret
                simp only at hret
                omega
              · simp only [if_neg ht0, Option.some.injEq, Outcome.ret.injEq] at h
                rw [← h.1] at hret ⊢
                exact hfinal _ rfl rfl rfl hret
            · simp only [if_neg hbig] at h
              have hle : (fs_filldir K a).d_reclen ≤ nbyte := by omega
              have hmod : (total + (fs_filldir K a).d_reclen) % K.word
                  = total + (fs_filldir K a).d_reclen := Nat.mod_eq_of_lt (by omega)
              refine ih _ _ _ _ _ _ ?_ ?_ ?_ h hret
              · rw [hmod]
                omega
              · rw [hmod]
                simp [htot]
              · simp only [List.map_append, List.map_cons, List.map_nil, List.sum_append,
                  List.sum_cons, List.sum_nil, Nat.add_zero]
                rw [hoff, Nat.add_mod, Nat.mod_mod, ← Nat.add_mod, Nat.add_assoc]
    · simp only [if_neg hnb, Option.some.injEq, Outcome.ret.injEq] at h
      rw [← h.1] at hret ⊢
      exact hfinal _ rfl rfl rfl hret

/-- With a non-empty record header every accepted record uses up at least one
byte of the buffer, so the loop ends within `nbyte + 1` iterations. -/
theorem fs_inode_read_dir_loop_ends (K : Config) (X : Ext2) (hhdr : 0 < K.offsetof_d_name) :
    ∀ (fuel nbyte total : Nat) (v : ReadDir) (s : IState), nbyte < fuel →
      ∃ o, fs_inode_read_dir_loop K X fuel nbyte total v s = some o := by
  intro fuel
  induction fuel with
  | zero =>
    intro nbyte total v s h
    omega
  | succ fuel ih =>
    intro nbyte total v s hlt
    rw [fs_inode_read_dir_loop]
    by_cases hnb : nbyte > 0
    · simp only [if_pos hnb]
      by_cases hneg : (X.ext2_readdir s.ip v.off).1 < 0
      · simp only [if_pos hneg]
        exact ⟨_, rfl⟩
      · simp only [if_neg hneg]
        by_cases hz : (X.ext2_readdir s.ip v.off).1 = 0
        · simp only [if_pos hz]
          exact ⟨_, rfl⟩
        · simp only [if_neg hz]
          cases hrec : (X.ext2_readdir s.ip v.off).2.1 with
          | none => exact ⟨_, rfl⟩
          | some a =>
            simp only
            by_cases hbig : (fs_filldir K a).d_reclen > nbyte
            · simp only [if_pos hbig]
              by_cases ht0 : total = 0
              · simp only [if_pos ht0]
                exact ⟨_, rfl⟩
              · simp only [if_neg ht0]
                exact ⟨_, rfl⟩
            · simp only [if_neg hbig]
              apply ih
              have hpos : 0 < (fs_filldir K a).d_reclen := by
                simp only [fs_filldir]
                omega
              omega
    · simp only [if_neg hnb]
      exact ⟨_, rfl⟩

/-- C17. Unlocked metadata access is fatal.  When the calling process does not
hold the mutex of the inode, each of `fs_inode_read`, `fs_inode_write`,
`fs_inode_read_dir`, `fs_inode_stat`, `fs_inode_truncate`, `fs_inode_create`,
`fs_inode_lookup` and `fs_inode_chmod` panics; when it does not hold the mutex
of one of the two inodes, each of `fs_inode_link`, `fs_inode_unlink` and
`fs_inode_rmdir` panics.  The state at the panic is the state on entry: no
field of an inode was modified and the ext2 layer was not called. -/
theorem fs_inode_not_holding_panics (K : Config) (X : Ext2) (D : Drivers) (cur : Process)
    (s : IState) (ss : IIState) :
    (fs_inode_holding cur s.ip = false →
      (∀ nbyte off, fs_inode_read K X D cur nbyte off s = Outcome.panic "not locked" s) ∧
      (∀ nbyte off, fs_inode_write K X D cur nbyte off s = Outcome.panic "not locked" s) ∧
      (∀ fuel nbyte off,
        fs_inode_read_dir K X cur fuel nbyte off s = some (Outcome.panic "not locked" s)) ∧
      fs_inode_stat cur s = Outcome.panic "not locked" s ∧
      fs_inode_truncate K X cur s = Outcome.panic "not locked" s ∧
      (∀ name mode dev istore,
        fs_inode_create K X cur name mode dev istore s = Outcome.panic "directory not locked" s) ∧
      (∀ name istore, fs_inode_lookup K X cur name istore s = Outcome.panic "not locked" s) ∧
      (∀ mode, fs_inode_chmod K D cur mode s = Outcome.panic "not holding" s)) ∧
    ((fs_inode_holding cur ss.inode = false ∨ fs_inode_holding cur ss.dir = false) →
      (∀ name, ∃ msg, fs_inode_link K X cur name ss = Outcome.panic msg ss) ∧
      (∃ msg, fs_inode_unlink K X cur ss = Outcome.panic msg ss) ∧
      (∃ msg, fs_inode_rmdir K X cur ss = Outcome.panic msg ss)) := by
  constructor
  · intro h
    refine ⟨?_, ?_, ?_, ?_, ?_, ?_, ?_, ?_⟩
    · intro nbyte off
      simp [fs_inode_read, h]
    · intro nbyte off
      simp [fs_inode_write, h]
    · intro fuel nbyte off
      simp [fs_inode_read_dir, h]
    · simp [fs_inode_stat, h]
    · simp [fs_inode_truncate, h]
    · intro name mode dev istore
      simp [fs_inode_create, h]
    · intro name istore
      simp [fs_inode_lookup, h]
    · intro mode
      simp [fs_inode_chmod, h]
  · intro h
    cases hi : fs_inode_holding cur ss.inode with
    | false =>
      refine ⟨fun name => ⟨"inode not locked", ?_⟩, ⟨"inode not locked", ?_⟩,
        ⟨"inode not locked", ?_⟩⟩
      · simp [fs_inode_link, hi]
      · simp [fs_inode_unlink, hi]
      · simp [fs_inode_rmdir, hi]
    | true =>
      have hd : fs_inode_holding cur ss.dir = false := by
        rcases h with h | h
        · rw [hi] at h
          exact absurd h (by simp)
        · exact h
      refine ⟨fun name => ⟨"directory not locked", ?_⟩, ⟨"directory not locked", ?_⟩,
        ⟨"directory not locked", ?_⟩⟩
      · simp [fs_inode_link, hi, hd]
      · simp [fs_inode_unlink, hi, hd]
      · simp [fs_inode_rmdir, hi, hd]

/-- Witness for C17: a file whose mutex is held by another process, and a
directory held by the caller with a file in it that nobody holds. -/
theorem fs_inode_not_holding_panics_witness :
    fs_inode_holding Process.sample IState.foreignFile.ip = false ∧
    fs_inode_holding Process.sample IIState.unlockedFile.inode = false ∧
    fs_inode_read Config.sample Ext2.sample Drivers.sample Process.sample 10 0 IState.foreignFile
      = Outcome.panic "not locked" IState.foreignFile ∧
    fs_inode_chmod Config.sample Drivers.sample Process.sample 0o100600 IState.foreignFile
      = Outcome.panic "not holding" IState.foreignFile ∧
    ∃ msg, fs_inode_unlink Config.sample Ext2.sample Process.sample IIState.unlockedFile
      = Outcome.panic msg IIState.unlockedFile := by
  have h := fs_inode_not_holding_panics Config.sample Ext2.sample Drivers.sample Process.sample
    IState.foreignFile IIState.unlockedFile
  have h1 := h.1 (by decide)
  have h2 := h.2 (Or.inl (by decide))
  exact ⟨by decide, by decide, h1.1 10 0, h1.2.2.2.2.2.2.2 0o100600, h2.2.1⟩

/-! ## Locking two inodes -/

/-- C18. Address-ordered locking: for two inodes at different addresses,
`fs_inode_lock_two (a, b)` and `fs_inode_lock_two (b, a)` make the same sequence
of `fs_inode_lock` calls, the lower address first and the higher address second
(so they have the same effect on every cache state), and
`fs_inode_unlock_two` unlocks in the reverse order, the higher address first,
whichever way round the arguments are given. -/
theorem fs_inode_lock_two_order (a b : Nat) (hne : a ≠ b) :
    fs_inode_lock_two a b = fs_inode_lock_two b a ∧
    fs_inode_lock_two a b =
      [InodeCall.lock (min a b), InodeCall.lock (max a b)] ∧
    fs_inode_unlock_two a b = fs_inode_unlock_two b a ∧
    fs_inode_unlock_two a b =
      [InodeCall.unlock (max a b), InodeCall.unlock (min a b)] ∧
    (∀ (K : Config) (X : Ext2) (cur : Process) (s : FsState),
      InodeCall.run_all K X cur (fs_inode_lock_two a b) s =
        InodeCall.run_all K X cur (fs_inode_lock_two b a) s) := by
  have hlock : fs_inode_lock_two a b = fs_inode_lock_two b a := by
    unfold fs_inode_lock_two
    rcases Nat.lt_or_gt_of_ne hne with h | h
    · rw [if_pos h, if_neg (by omega)]
    · rw [if_neg (by omega), if_pos h]
  refine ⟨hlock, ?_, ?_, ?_, ?_⟩
  · unfold fs_inode_lock_two
    rcases Nat.lt_or_gt_of_ne hne with h | h
    · rw [if_pos h, Nat.min_eq_left (by omega), Nat.max_eq_right (by omega)]
    · rw [if_neg (by omega), Nat.min_eq_right (by omega), Nat.max_eq_left (by omega)]
  · unfold fs_inode_unlock_two
    rcases Nat.lt_or_gt_of_ne hne with h | h
    · rw [if_pos h, if_neg (by omega)]
    · rw [if_neg (by omega), if_pos h]
  · unfold fs_inode_unlock_two
    rcases Nat.lt_or_gt_of_ne hne with h | h
    · rw [if_pos h, Nat.min_eq_left (by omega), Nat.max_eq_right (by omega)]
    · rw [if_neg (by omega), Nat.min_eq_right (by omega), Nat.max_eq_left (by omega)]
  · intro K X cur s
    rw [hlock]

/-- Witness for C18: the inodes at addresses 7 and 3. -/
theorem fs_inode_lock_two_order_witness :
    (7 : Nat) ≠ 3 ∧
    fs_inode_lock_two 7 3 = fs_inode_lock_two 3 7 ∧
    fs_inode_lock_two 7 3 = [InodeCall.lock 3, InodeCall.lock 7] ∧
    fs_inode_unlock_two 7 3 = fs_inode_unlock_two 3 7 ∧
    fs_inode_unlock_two 7 3 = [InodeCall.unlock 7, InodeCall.unlock 3] := by
  have h := fs_inode_lock_two_order 7 3 (by decide)
  exact ⟨by decide, h.1, h.2.1, h.2.2.1, h.2.2.2.1⟩

/-! ## Spinlocks -/

theorem irq_restore_irq_save_count (c : Cpu) :
    (irq_restore (irq_save c)).irq_save_count = c.irq_save_count := by
  simp [irq_restore, irq_save]

theorem irq_restore_irq_save_id (c : Cpu) : (irq_restore (irq_save c)).id = c.id := by
  simp [irq_restore, irq_save]

/-- The result of `spin_holding` and what it leaves unchanged. -/
theorem spin_holding_eq (s : SpinState) :
    ((spin_holding s).1 = 1 ↔ (s.lock.locked ≠ 0 ∧ s.lock.cpu = some s.cpu.id)) ∧
    ((spin_holding s).1 = 0 ↔ ¬ (s.lock.locked ≠ 0 ∧ s.lock.cpu = some s.cpu.id)) ∧
    (spin_holding s).2.lock = s.lock ∧
    (spin_holding s).2.cpu.id = s.cpu.id ∧
    (spin_holding s).2.cpu.irq_save_count = s.cpu.irq_save_count := by
  have hid : (irq_save s.cpu).id = s.cpu.id := rfl
  refine ⟨?_, ?_, rfl, irq_restore_irq_save_id s.cpu, irq_restore_irq_save_count s.cpu⟩
  · simp only [spin_holding, hid]
    split <;> simp_all
  · simp only [spin_holding, hid]
    split <;> simp_all

/-- C19. `spin_holding (L)` evaluated on a CPU returns 1 if and only if
`L.locked` is non-zero and `L.cpu` is that CPU, and 0 otherwise; hence for two
different CPUs and one lock state it cannot return 1 on both.  The call leaves
the lock unchanged, and its `irq_save` is matched by its `irq_restore`: the IRQ
nesting counter of the CPU is the same after the call. -/
theorem spin_holding_spec (L : SpinLock) (c1 c2 : Cpu) :
    ((spin_holding { lock := L, cpu := c1 }).1 = 1 ↔ (L.locked ≠ 0 ∧ L.cpu = some c1.id)) ∧
    ((spin_holding { lock := L, cpu := c1 }).1 = 1 ∨
      (spin_holding { lock := L, cpu := c1 }).1 = 0) ∧
    (c1.id ≠ c2.id →
      ¬ ((spin_holding { lock := L, cpu := c1 }).1 = 1 ∧
         (spin_holding { lock := L, cpu := c2 }).1 = 1)) ∧
    (spin_holding { lock := L, cpu := c1 }).2.lock = L ∧
    (spin_holding { lock := L, cpu := c1 }).2.cpu.id = c1.id ∧
    (spin_holding { lock := L, cpu := c1 }).2.cpu.irq_save_count = c1.irq_save_count := by
  have h1 := spin_holding_eq { lock := L, cpu := c1 }
  have h2 := spin_holding_eq { lock := L, cpu := c2 }
  refine ⟨h1.1, ?_, ?_, h1.2.2.1, h1.2.2.2.1, h1.2.2.2.2⟩
  · by_cases hc : L.locked ≠ 0 ∧ L.cpu = some c1.id
    · exact Or.inl (h1.1.2 hc)
    · exact Or.inr (h1.2.1.2 hc)
  · intro hne ⟨ha, hb⟩
    have ha1 := (h1.1.1 ha).2
    have hb1 := (h2.1.1 hb).2
    simp only at ha1 hb1
    rw [ha1] at hb1
    exact hne (Option.some.inj hb1)

/-- Witness for C19: the lock held by CPU 0, seen from CPU 0 and from CPU 1. -/
theorem spin_holding_spec_witness :
    Cpu.sample.id ≠ Cpu.other.id ∧
    (spin_holding { lock := SpinLock.sample, cpu := Cpu.sample }).1 = 1 ∧
    ¬ ((spin_holding { lock := SpinLock.sample, cpu := Cpu.sample }).1 = 1 ∧
       (spin_holding { lock := SpinLock.sample, cpu := Cpu.other }).1 = 1) :=
  ⟨by decide,
   (spin_holding_spec SpinLock.sample Cpu.sample Cpu.other).1.2 (by decide),
   (spin_holding_spec SpinLock.sample Cpu.sample Cpu.other).2.2.1 (by decide)⟩

/-- What `spin_lock` and `spin_unlock` do, by the state of the lock. -/
theorem spin_lock_cases (K : Config) (stack : List Nat) (s : SpinState) :
    ((s.lock.locked ≠ 0 ∧ s.lock.cpu = some s.cpu.id) →
      spin_lock K stack s = Outcome.panic "CPU %d is already holding %s"
        (spin_holding { s with cpu := irq_save s.cpu }).2) ∧
    (¬ (s.lock.locked ≠ 0 ∧ s.lock.cpu = some s.cpu.id) → s.lock.locked ≠ 0 →
      spin_lock K stack s = Outcome.blocked (spin_holding { s with cpu := irq_save s.cpu }).2) ∧
    (s.lock.locked = 0 →
      spin_lock K stack s = Outcome.ret ()
        { lock := { s.lock with locked := 1, cpu := some s.cpu.id,
                                pcs := spin_save_caller_pcs K stack },
          cpu := (spin_holding { s with cpu := irq_save s.cpu }).2.cpu }) := by
  have h := spin_holding_eq { s with cpu := irq_save s.cpu }
  have hid : (irq_save s.cpu).id = s.cpu.id := rfl
  simp only [hid] at h
  refine ⟨?_, ?_, ?_⟩
  · intro hc
    have h1 : (spin_holding { s with cpu := irq_save s.cpu }).1 = 1 := h.1.2 hc
    simp [spin_lock, h1]
  · intro hc hl
    have h0 : (spin_holding { s with cpu := irq_save s.cpu }).1 = 0 := h.2.1.2 hc
    have hl1 : (spin_holding { s with cpu := irq_save s.cpu }).2.lock.locked ≠ 0 := by
      rw [h.2.2.1]
      exact hl
    simp [spin_lock, h0, hl1]
  · intro hl
    have hc : ¬ (s.lock.locked ≠ 0 ∧ s.lock.cpu = some s.cpu.id) := fun hc => hc.1 hl
    have h0 : (spin_holding { s with cpu := irq_save s.cpu }).1 = 0 := h.2.1.2 hc
    have hl1 : (spin_holding { s with cpu := irq_save s.cpu }).2.lock.locked = 0 := by
      rw [h.2.2.1]
      exact hl
    have hlock := h.2.2.1
    have hcid := h.2.2.2.1
    simp only [spin_lock, h0, hlock, hcid, hl, ne_eq, not_true_eq_false, if_false]

theorem spin_unlock_cases (s : SpinState) :
    ((s.lock.locked ≠ 0 ∧ s.lock.cpu = some s.cpu.id) →
      spin_unlock s = Outcome.ret ()
        { lock := { s.lock with cpu := none, pcs := s.lock.pcs.set 0 0, locked := 0 },
          cpu := irq_restore (spin_holding s).2.cpu }) ∧
    (¬ (s.lock.locked ≠ 0 ∧ s.lock.cpu = some s.cpu.id) →
      spin_unlock s = Outcome.panic "CPU %d cannot release %s: held by %d" (spin_holding s).2) := by
  have h := spin_holding_eq s
  constructor
  · intro hc
    have h1 : (spin_holding s).1 = 1 := h.1.2 hc
    have hlock := h.2.2.1
    simp only [spin_unlock, h1, one_ne_zero, if_false, hlock]
  · intro hc
    have h0 : (spin_holding s).1 = 0 := h.2.1.2 hc
    simp [spin_unlock, h0]

/-- C20. Spinlock misuse aborts.  `spin_lock` on a CPU for which `spin_holding`
is true panics and the lock is as before (no test-and-set took place);
`spin_unlock` on a CPU for which `spin_holding` is false panics and leaves
`locked` and `cpu` unchanged; `spin_unlock` by the owning CPU returns with
`locked = 0` and `cpu = NULL`; `spin_lock` on a free lock returns with
`locked = 1` and `cpu` the calling CPU.  Hence after `spin_init`, after every
`spin_lock` that returns and after every `spin_unlock` that returns, the owner
field is non-NULL exactly when `locked` is set. -/
theorem spin_misuse_spec (K : Config) (stack : List Nat) (s : SpinState) :
    ((spin_holding s).1 = 1 →
      ∃ t, spin_lock K stack s = Outcome.panic "CPU %d is already holding %s" t ∧
        t.lock = s.lock) ∧
    ((spin_holding s).1 = 0 →
      ∃ t, spin_unlock s = Outcome.panic "CPU %d cannot release %s: held by %d" t ∧
        t.lock = s.lock) ∧
    ((spin_holding s).1 = 1 →
      ∃ t, spin_unlock s = Outcome.ret () t ∧ t.lock.locked = 0 ∧ t.lock.cpu = none) ∧
    (s.lock.locked = 0 →
      ∃ t, spin_lock K stack s = Outcome.ret () t ∧ t.lock.locked = 1 ∧
        t.lock.cpu = some s.cpu.id) ∧
    (∀ name, ((spin_init s.lock name).cpu ≠ none ↔ (spin_init s.lock name).locked ≠ 0)) ∧
    (∀ t, spin_lock K stack s = Outcome.ret () t → (t.lock.cpu ≠ none ↔ t.lock.locked ≠ 0)) ∧
    (∀ t, spin_unlock s = Outcome.ret () t → (t.lock.cpu ≠ none ↔ t.lock.locked ≠ 0)) := by
  have hh := spin_holding_eq s
  have hl := spin_lock_cases K stack s
  have hu := spin_unlock_cases s
  have hlk : (spin_holding { s with cpu := irq_save s.cpu }).2.lock = s.lock :=
    (spin_holding_eq { s with cpu := irq_save s.cpu }).2.2.1
  refine ⟨?_, ?_, ?_, ?_, ?_, ?_, ?_⟩
  · intro h1
    exact ⟨_, hl.1 (hh.1.1 h1), hlk⟩
  · intro h0
    exact ⟨_, hu.2 (hh.2.1.1 h0), hh.2.2.1⟩
  · intro h1
    exact ⟨_, hu.1 (hh.1.1 h1), rfl, rfl⟩
  · intro h0
    exact ⟨_, hl.2.2 h0, rfl, rfl⟩
  · intro name
    simp [spin_init]
  · intro t ht
    by_cases hc : s.lock.locked ≠ 0 ∧ s.lock.cpu = some s.cpu.id
    · rw [hl.1 hc] at ht
      exact absurd ht (by simp)
    · by_cases h0 : s.lock.locked = 0
      · rw [hl.2.2 h0] at ht
        simp only [Outcome.ret.injEq, true_and] at ht
        rw [← ht]
        simp
      · rw [hl.2.1 hc h0] at ht
        exact absurd ht (by simp)
  · intro t ht
    by_cases hc : s.lock.locked ≠ 0 ∧ s.lock.cpu = some s.cpu.id
    · rw [hu.1 hc] at ht
      simp only [Outcome.ret.injEq, true_and] at ht
      rw [← ht]
      simp
    · rw [hu.2 hc] at ht
      exact absurd ht (by simp)

/-- Witness for C20: CPU 0 holds the lock; a second `spin_lock` on CPU 0 and a
`spin_unlock` on CPU 1 panic, the `spin_unlock` on CPU 0 frees the lock. -/
theorem spin_misuse_spec_witness :
    (spin_holding { lock := SpinLock.sample, cpu := Cpu.sample }).1 = 1 ∧
    (spin_holding { lock := SpinLock.sample, cpu := Cpu.other }).1 = 0 ∧
    (∃ t, spin_lock Config.sample [] { lock := SpinLock.sample, cpu := Cpu.sample }
        = Outcome.panic "CPU %d is already holding %s" t ∧ t.lock = SpinLock.sample) ∧
    (∃ t, spin_unlock { lock := SpinLock.sample, cpu := Cpu.other }
        = Outcome.panic "CPU %d cannot release %s: held by %d" t ∧ t.lock = SpinLock.sample) ∧
    (∃ t, spin_unlock { lock := SpinLock.sample, cpu := Cpu.sample } = Outcome.ret () t ∧
        t.lock.locked = 0 ∧ t.lock.cpu = none) :=
  ⟨by decide, by decide,
   (spin_misuse_spec Config.sample [] { lock := SpinLock.sample, cpu := Cpu.sample }).1
     (by decide),
   (spin_misuse_spec Config.sample [] { lock := SpinLock.sample, cpu := Cpu.other }).2.1
     (by decide),
   (spin_misuse_spec Config.sample [] { lock := SpinLock.sample, cpu := Cpu.sample }).2.2.1
     (by decide)⟩

/-! ## Key maps -/

set_option maxRecDepth 100000 in
/-- C23. The Ctrl key map evaluated at scan code 0x15: the `shiftmap` entry is
the uppercase letter 'Y', but the `ctrlmap` entry is 'Y' itself (89) and not
`C ('Y')` = 25.  Scan code 0x15 is the only one whose `shiftmap` entry is an
uppercase letter and whose `ctrlmap` entry is not `C` of that letter. -/
theorem ctrlmap_Y_is_not_a_control_code :
    shiftmap[0x15]? = some 'Y'.toNat ∧
    ctrlmap[0x15]? = some 89 ∧ to_uint8 (C (key 'Y')) = 25 ∧
    ctrlmap[0x15]? ≠ (shiftmap[0x15]?).map (fun (k : Nat) => to_uint8 (C k)) ∧
    (List.range 256).filter (fun sc =>
      decide ('A'.toNat ≤ shiftmap.getD sc 0 ∧ shiftmap.getD sc 0 ≤ 'Z'.toNat ∧
        ctrlmap.getD sc 0 ≠ to_uint8 (C (shiftmap.getD sc 0)))) = [0x15] := by
  refine ⟨by decide, by decide, by decide, by decide, ?_⟩
  decide

/-! ## The PL011 UART -/

/-- C29. The baud divisor registers written by `pl011_init` for a 24 MHz
reference clock and 115200 baud (no product overflows, the integer divisor is
13): IBRD = 13, but FBRD = 13 as well, the low six bits of the integer part,
so that `64 * IBRD + FBRD` = 845 while `4 * uart_clock / baud_rate` = 833
(whose low six bits are 1). -/
theorem pl011_init_fbrd_is_not_the_fraction :
    4 * 24000000 < Config.sample.word ∧ 16 * 115200 < Config.sample.word ∧
    24000000 / (16 * 115200) < 2 ^ 16 ∧
    (∃ r, pl011_init Config.sample Pl011.sample 24000000 115200 = some (0, r) ∧
      r.UARTIBRD = 13 ∧ r.UARTFBRD = 13 ∧
      64 * r.UARTIBRD + r.UARTFBRD = 845 ∧ 64 * r.UARTIBRD + r.UARTFBRD ≠ 4 * 24000000 / 115200) ∧
    4 * 24000000 / 115200 = 833 ∧ 833 % 64 = 1 := by
  refine ⟨by decide, by decide, by decide, ⟨_, rfl, ?_, ?_, ?_, ?_⟩, by decide, by decide⟩ <;>
    decide

/-! ## Ownership of the inode found by a lookup -/

/-- C22. `fs_inode_lookup` with `istore == NULL` on a directory that the caller
holds and may read: when the name is not found the code calls
`fs_inode_put (NULL)` and the run ends in a fault; when the name is found the
function returns 0 and the only call made is `ext2_inode_lookup`, the inode
found is not released.  With `istore` non-NULL the pointer found is stored and
0 is returned. -/
theorem fs_inode_lookup_null_istore_inverted :
    fs_inode_holding Process.sample IState.heldDir.ip = true ∧
    S_ISDIR Config.sample IState.heldDir.ip.mode = true ∧
    fs_inode_can_read Config.sample Process.sample IState.heldDir.ip ≠ 0 ∧
    (Ext2.sample.ext2_inode_lookup IState.heldDir.ip "zz").1 = none ∧
    fs_inode_lookup Config.sample Ext2.sample Process.sample "zz" false IState.heldDir
      = Outcome.fault ∧
    (Ext2.sample.ext2_inode_lookup IState.heldDir.ip "f").1 = some 2 ∧
    fs_inode_lookup Config.sample Ext2.sample Process.sample "f" false IState.heldDir
      = Outcome.ret (0, none)
          { ip := Inode.sampleDir 1 2 2, calls := [Call.ext2_inode_lookup 1 "f"] } ∧
    fs_inode_lookup Config.sample Ext2.sample Process.sample "f" true IState.heldDir
      = Outcome.ret (0, some (some 2))
          { ip := Inode.sampleDir 1 2 2, calls := [Call.ext2_inode_lookup 1 "f"] } ∧
    fs_inode_lookup Config.sample Ext2.sample Process.sample "zz" true IState.heldDir
      = Outcome.ret (0, some none)
          { ip := Inode.sampleDir 1 2 2, calls := [Call.ext2_inode_lookup 1 "zz"] } := by
  refine ⟨by decide, by decide, by decide, by decide, by decide, by decide, by decide,
    by decide, by decide⟩

/-! ## The file type under chmod -/

/-- C25. `fs_inode_chmod` evaluated by the owner on a held regular file with
mode 0600 and on a held directory with mode 0755 (permission bits only): both
calls return 0 and leave `mode & S_IFMT` = 0, so the file is no longer S_IFREG
and the directory no longer S_ISDIR; a following `fs_inode_lookup` in that
directory returns `-ENOTDIR`. -/
theorem fs_inode_chmod_drops_file_type :
    (0o600 &&& Config.sample.S_IFMT = 0 ∧ 0o755 &&& Config.sample.S_IFMT = 0) ∧
    IState.heldFile.ip.mode &&& Config.sample.S_IFMT = Config.sample.S_IFREG ∧
    S_ISDIR Config.sample IState.heldDir.ip.mode = true ∧
    (∃ t, fs_inode_chmod Config.sample Drivers.sample Process.sample 0o600 IState.heldFile
        = Outcome.ret 0 t ∧
      t.ip.mode &&& Config.sample.S_IFMT = 0 ∧
      t.ip.mode &&& Config.sample.S_IFMT ≠ IState.heldFile.ip.mode &&& Config.sample.S_IFMT) ∧
    (∃ t, fs_inode_chmod Config.sample Drivers.sample Process.sample 0o755 IState.heldDir
        = Outcome.ret 0 t ∧
      S_ISDIR Config.sample t.ip.mode = false ∧
      fs_inode_lookup Config.sample Ext2.sample Process.sample "f" true t
        = Outcome.ret (-Config.sample.ENOTDIR, none) t) := by
  refine ⟨by decide, by decide, by decide, ⟨_, rfl, ?_, ?_⟩, ⟨_, rfl, ?_, ?_⟩⟩ <;> decide

/-! ## The buffer of fs_inode_read_dir -/

/-- C26. `fs_inode_read_dir` evaluated on a held readable directory whose
entries give records of 16 bytes.  With a buffer of 40 bytes the call returns 32
with two records accepted, but `fs_filldir` was called three times and the third
record was written at offsets 32 to 47, past the end of the buffer.  With a
buffer of 10 bytes the call returns `-EINVAL`, after a record of 16 bytes was
written at offset 0. -/
theorem fs_inode_read_dir_writes_past_buffer :
    fs_inode_holding Process.sample IState.heldDir.ip = true ∧
    fs_inode_can_read Config.sample Process.sample IState.heldDir.ip ≠ 0 ∧
    fs_inode_read_dir Config.sample Ext2.sample Process.sample 3 40 0 IState.heldDir
      = some (Outcome.ret ReadDir.sample IState.afterReadDir) ∧
    ReadDir.sample.writes.filter (fun w => decide (40 < w.1 + w.2)) = [(32, 16)] ∧
    (ReadDir.sample.stored.map (fun e => e.2.d_reclen)).sum = 32 ∧
    fs_inode_read_dir Config.sample Ext2.sample Process.sample 1 10 0 IState.heldDir
      = some (Outcome.ret
          { ret := -Config.sample.EINVAL, off := 0, stored := [], writes := [(0, 16)] }
          { IState.heldDir with calls := [Call.ext2_readdir 1 0] }) := by
  refine ⟨by decide, by decide, by decide, by decide, by decide, by decide⟩

/-! ## Unlock and put -/

/-- An operation that returns, run on a slot of the cache. -/
theorem on_inode_ret {α : Type} (s : FsState) (p : Nat) (ip : Inode)
    (f : IState → Outcome IState α) (a : α) (t : IState) (hp : s.deref p = some ip)
    (hf : f { ip := ip, calls := s.calls } = Outcome.ret a t) (ha : t.ip.addr = p) :
    s.on_inode p f = Outcome.ret a { inode_cache := s.store p t.ip, calls := t.calls } ∧
    ({ inode_cache := s.store p t.ip, calls := t.calls } : FsState).deref p = some t.ip := by
  constructor
  · simp only [FsState.on_inode, hp, hf]
  · exact find?_store p t.ip ha s.inode_cache ip hp

/-- `fs_inode_unlock` by the holder on a VALID inode returns with DIRTY clear
and the mutex free. -/
theorem fs_inode_unlock_held (K : Config) (X : Ext2) (cur : Process) (s : IState)
    (hh : fs_inode_holding cur s.ip = true) (hv : s.ip.has K.FS_INODE_VALID = true) :
    ∃ t, fs_inode_unlock K X cur s = Outcome.ret () t ∧ t.ip.mutex = none ∧
      t.ip.has K.FS_INODE_DIRTY = false ∧ t.ip.addr = s.ip.addr ∧
      t.ip.ref_count = s.ip.ref_count ∧
      (s.ip.has K.FS_INODE_DIRTY = true →
        t.calls = s.calls ++ [Call.ext2_write_inode s.ip.addr]) ∧
      (s.ip.has K.FS_INODE_DIRTY = false → t.calls = s.calls) := by
  have hm : s.ip.mutex = some cur.pid := by
    simpa [fs_inode_holding, kmutex_holding] using hh
  have hu := kmutex_unlock_holder cur.pid
  cases hd : s.ip.has K.FS_INODE_DIRTY with
  | true =>
    have hret : fs_inode_unlock K X cur s = Outcome.ret ()
        { ip := { s.ip with toMeta := X.ext2_write_inode s.ip,
                            flags := clear_bits s.ip.flags K.FS_INODE_DIRTY,
                            mutex := none },
          calls := s.calls ++ [Call.ext2_write_inode s.ip.addr] } := by
      simp only [fs_inode_unlock, hv, hd, hm, hu, Bool.not_true, Bool.false_eq_true, if_false,
        if_true]
    refine ⟨_, hret, rfl, ?_, rfl, rfl, fun _ => rfl, fun h => absurd h (by simp)⟩
    simp [Inode.has, clear_bits_and_self]
  | false =>
    have hret : fs_inode_unlock K X cur s = Outcome.ret ()
        { s with ip := { s.ip with mutex := none } } := by
      simp only [fs_inode_unlock, hv, hd, hm, hu, Bool.not_true, Bool.false_eq_true, if_false]
    exact ⟨_, hret, rfl, hd, rfl, rfl, fun h => absurd h (by simp), fun _ => rfl⟩

/-- `fs_inode_unlock_put` on a slot that the caller holds and that is VALID
returns; the inode was written back if it was DIRTY. -/
theorem fs_inode_unlock_put_cases (K : Config) (X : Ext2) (cur : Process) (s : FsState) (p : Nat)
    (ip : Inode) (hp : s.deref p = some ip) (hh : fs_inode_holding cur ip = true)
    (hv : ip.has K.FS_INODE_VALID = true) :
    ∃ t ip1, fs_inode_unlock_put K X cur s p = Outcome.ret () t ∧
      (ip.has K.FS_INODE_DIRTY = true → Call.ext2_write_inode p ∈ t.calls) ∧
      t.deref p = some ip1 ∧ ip1.mutex = none ∧ ip1.ref_count = ip.ref_count - 1 := by
  have ha := deref_addr s p ip hp
  obtain ⟨u, hu, hum, hud, hua, hur, hucd, _⟩ :=
    fs_inode_unlock_held K X cur { ip := ip, calls := s.calls } hh hv
  have hua1 : u.ip.addr = p := by rw [hua]; exact ha
  obtain ⟨hon, hderef⟩ := on_inode_ret s p ip (fs_inode_unlock K X cur) () u hp hu hua1
  obtain ⟨t, ip1, hput, hd1, hrc, _, _, _, hm1, hdel, hkeep, _, _⟩ :=
    (fs_inode_put_cases K X cur _ p u.ip hderef hum).2 hud
  refine ⟨t, ip1, ?_, ?_, hd1, hm1, ?_⟩
  · simp only [fs_inode_unlock_put, hon, Outcome.bind]
    exact hput
  · intro hdirty
    have hc : u.calls = s.calls ++ [Call.ext2_write_inode p] := by
      rw [hucd hdirty]
      simp only [ha]
    by_cases hcase : u.ip.has K.FS_INODE_VALID = true ∧ u.ip.nlink = 0 ∧ u.ip.ref_count = 1
    · rw [(hdel hcase).1]
      simp [hc]
    · rw [(hkeep hcase).1]
      simp [hc]
  · rw [hrc, hur]

/-- `fs_inode_lock` on an inode whose mutex is free and whose DIRTY flag is
clear returns with the mutex held and VALID set. -/
theorem fs_inode_lock_free (K : Config) (X : Ext2) (cur : Process) (s : IState) (hK : K.FlagsOk)
    (hm : s.ip.mutex = none) (hd : s.ip.has K.FS_INODE_DIRTY = false) :
    ∃ t, fs_inode_lock K X cur s = Outcome.ret () t ∧ fs_inode_holding cur t.ip = true ∧
      t.ip.has K.FS_INODE_VALID = true ∧ t.ip.addr = s.ip.addr ∧
      t.ip.ref_count = s.ip.ref_count ∧
      (s.ip.has K.FS_INODE_VALID = true → t.ip.uid = s.ip.uid) := by
  obtain ⟨hV, _, _⟩ := hK
  have hhold : kmutex_holding cur.pid (some cur.pid) = true := by simp [kmutex_holding]
  have hd1 : ({ s.ip with mutex := some cur.pid } : Inode).has K.FS_INODE_DIRTY = false := hd
  cases hv : s.ip.has K.FS_INODE_VALID with
  | true =>
    have hv1 : ({ s.ip with mutex := some cur.pid } : Inode).has K.FS_INODE_VALID = true := hv
    have hret : fs_inode_lock K X cur s
        = Outcome.ret () { s with ip := { s.ip with mutex := some cur.pid } } := by
      simp only [fs_inode_lock, hm, kmutex_lock_free, hv1, if_true]
    exact ⟨_, hret, hhold, hv, rfl, rfl, fun _ => rfl⟩
  | false =>
    have hv1 : ({ s.ip with mutex := some cur.pid } : Inode).has K.FS_INODE_VALID = false := hv
    have hret : fs_inode_lock K X cur s = Outcome.ret ()
        { ip := { s.ip with toMeta := X.ext2_read_inode { s.ip with mutex := some cur.pid },
                            flags := s.ip.flags ||| K.FS_INODE_VALID,
                            mutex := some cur.pid },
          calls := s.calls ++ [Call.ext2_read_inode s.ip.addr] } := by
      simp only [fs_inode_lock, hm, kmutex_lock_free, hv1, hd1, Bool.false_eq_true, if_false]
    refine ⟨_, hret, hhold, ?_, rfl, rfl, fun h => absurd h (by simp)⟩
    simp only [Inode.has, bne_iff_ne, or_and_self]
    exact hV

/-- C28. `fs_inode_unlock_put` on a slot that the caller holds and that is
VALID, with DIRTY set or not: the run of `fs_inode_unlock` followed by
`fs_inode_put` returns (it reaches no panic), the inode was written back when
DIRTY was set, and the slot is left with its mutex free and one reference less.
And `fs_chmod` on a path that `fs_name_lookup` resolves to a slot whose mutex is
free and whose DIRTY flag is clear returns, with 0 or `-EPERM`; it returns 0,
after `ext2_write_inode` was called on the inode, when the caller is the
superuser or owns the (VALID) inode. -/
theorem fs_inode_unlock_put_never_dirty (K : Config) (X : Ext2) (D : Drivers) (cur : Process)
    (hK : K.FlagsOk) :
    (∀ (s : FsState) (p : Nat) (ip : Inode), s.deref p = some ip →
      fs_inode_holding cur ip = true → ip.has K.FS_INODE_VALID = true →
      ∃ t ip1, fs_inode_unlock_put K X cur s p = Outcome.ret () t ∧
        (ip.has K.FS_INODE_DIRTY = true → Call.ext2_write_inode p ∈ t.calls) ∧
        t.deref p = some ip1 ∧ ip1.mutex = none ∧ ip1.ref_count = ip.ref_count - 1) ∧
    (∀ (fs_name_lookup : String → FsState → Int × Nat × FsState) (path : String) (mode : Nat)
      (s : FsState) (ip : Inode), 0 ≤ (fs_name_lookup path s).1 →
      (fs_name_lookup path s).2.2.deref (fs_name_lookup path s).2.1 = some ip →
      ip.mutex = none → ip.has K.FS_INODE_DIRTY = false →
      ∃ r t, fs_chmod K X D cur fs_name_lookup path mode s = Outcome.ret r t ∧
        (r = 0 ∨ r = -K.EPERM) ∧
        ((cur.uid = 0 ∨ (ip.has K.FS_INODE_VALID = true ∧ ip.uid = cur.uid)) →
          r = 0 ∧ Call.ext2_write_inode (fs_name_lookup path s).2.1 ∈ t.calls)) := by
  constructor
  · intro s p ip hp hh hv
    exact fs_inode_unlock_put_cases K X cur s p ip hp hh hv
  · intro lookup path mode s ip hr hp hm hd
    have hK1 := hK
    obtain ⟨_, hD, hVD⟩ := hK1
    have hDV : K.FS_INODE_DIRTY &&& K.FS_INODE_VALID = 0 := by rw [Nat.and_comm]; exact hVD
    have ha := deref_addr _ _ ip hp
    obtain ⟨t1, hlock, hh1, hv1, ha1, _, huid⟩ :=
      fs_inode_lock_free K X cur { ip := ip, calls := (lookup path s).2.2.calls } hK hm hd
    have ha1p : t1.ip.addr = (lookup path s).2.1 := by rw [ha1]; exact ha
    obtain ⟨hon1, hderef1⟩ :=
      on_inode_ret _ _ ip (fs_inode_lock K X cur) () t1 hp hlock ha1p
    have hnot : ¬ (lookup path s).1 < 0 := not_lt.mpr hr
    have hcases := fs_inode_chmod_cases K D cur mode t1 hh1
    by_cases hc : cur.uid ≠ 0 ∧ t1.ip.uid ≠ cur.uid
    · have hchmod := hcases.1 hc
      obtain ⟨hon2, hderef2⟩ :=
        on_inode_ret _ _ t1.ip (fs_inode_chmod K D cur mode) (-K.EPERM) t1 hderef1 hchmod ha1p
      obtain ⟨t, ip1, hup, _, _, _, _⟩ :=
        fs_inode_unlock_put_cases K X cur _ _ t1.ip hderef2 hh1 hv1
      refine ⟨-K.EPERM, t, ?_, Or.inr rfl, ?_⟩
      · simp only [fs_chmod, hnot, if_false, hon1, Outcome.bind, hon2, hup]
      · intro hown
        exfalso
        rcases hown with h0 | ⟨hv, hu⟩
        · exact hc.1 h0
        · exact hc.2 ((huid hv).trans hu)
    · have hchmod := hcases.2 hc
      have hh2 : fs_inode_holding cur
          ({ t1.ip with mode := mode, ctime := D.rtc_get_time,
                        flags := t1.ip.flags ||| K.FS_INODE_DIRTY } : Inode) = true := hh1
      have hv2 : ({ t1.ip with mode := mode, ctime := D.rtc_get_time,
                               flags := t1.ip.flags ||| K.FS_INODE_DIRTY } : Inode).has
          K.FS_INODE_VALID = true := by
        simp only [Inode.has, or_and_other _ _ _ hDV]
        exact hv1
      have hd2 : ({ t1.ip with mode := mode, ctime := D.rtc_get_time,
                               flags := t1.ip.flags ||| K.FS_INODE_DIRTY } : Inode).has
          K.FS_INODE_DIRTY = true := by
        simp only [Inode.has, bne_iff_ne, or_and_self]
        exact hD
      obtain ⟨hon2, hderef2⟩ :=
        on_inode_ret _ _ t1.ip (fs_inode_chmod K D cur mode) 0 _ hderef1 hchmod ha1p
      obtain ⟨t, ip1, hup, hw, _, _, _⟩ :=
        fs_inode_unlock_put_cases K X cur _ _ _ hderef2 hh2 hv2
      refine ⟨0, t, ?_, Or.inl rfl, fun _ => ⟨rfl, hw hd2⟩⟩
      simp only [fs_chmod, hnot, if_false, hon1, Outcome.bind, hon2, hup]

/-- Witness for C28: a VALID and DIRTY file held by the caller is unlocked and
put without a panic, and `fs_chmod` by the owner of a file returns 0 after the
inode was written back. -/
theorem fs_inode_unlock_put_never_dirty_witness :
    Config.sample.FlagsOk ∧
    (∃ t ip1, fs_inode_unlock_put Config.sample Ext2.sample Process.sample
        FsState.withDirtyFile 2 = Outcome.ret () t ∧
      (({ Inode.sampleFile 2 12 1 with flags := 3 } : Inode).has Config.sample.FS_INODE_DIRTY
          = true → Call.ext2_write_inode 2 ∈ t.calls) ∧
      t.deref 2 = some ip1 ∧ ip1.mutex = none ∧
      ip1.ref_count = ({ Inode.sampleFile 2 12 1 with flags := 3 } : Inode).ref_count - 1) ∧
    ({ Inode.sampleFile 2 12 1 with flags := 3 } : Inode).has Config.sample.FS_INODE_DIRTY = true ∧
    fs_chmod Config.sample Ext2.sample Drivers.sample Process.sample fs_name_lookup.sample
        "/f" 0o600 FsState.withFile
      = Outcome.ret 0
          { inode_cache := [Inode.zero 0, Inode.zero 1,
              { Inode.sampleFile 2 12 1 with mutex := none, mode := 0o600, ctime := 1000 }],
            calls := [Call.ext2_write_inode 2] } ∧
    (∃ r t, fs_chmod Config.sample Ext2.sample Drivers.sample Process.sample fs_name_lookup.sample
        "/f" 0o600 FsState.withFile = Outcome.ret r t ∧
      (r = 0 ∨ r = -Config.sample.EPERM) ∧
      ((Process.sample.uid = 0 ∨
        (({ Inode.sampleFile 2 12 1 with mutex := none, ref_count := 2 } : Inode).has
            Config.sample.FS_INODE_VALID = true ∧
          ({ Inode.sampleFile 2 12 1 with mutex := none, ref_count := 2 } : Inode).uid
            = Process.sample.uid)) →
        r = 0 ∧
          Call.ext2_write_inode (fs_name_lookup.sample "/f" FsState.withFile).2.1 ∈ t.calls)) :=
  ⟨by decide,
   (fs_inode_unlock_put_never_dirty Config.sample Ext2.sample Drivers.sample Process.sample
     (by decide)).1 FsState.withDirtyFile 2 { Inode.sampleFile 2 12 1 with flags := 3 }
     (by decide) (by decide) (by decide),
   by decide, by decide,
   (fs_inode_unlock_put_never_dirty Config.sample Ext2.sample Drivers.sample Process.sample
     (by decide)).2 fs_name_lookup.sample "/f" 0o600 FsState.withFile
     { Inode.sampleFile 2 12 1 with mutex := none, ref_count := 2 }
     (by decide) (by decide) (by decide) (by decide)⟩

/-! ## Mutexes -/

/-- `spin_lock` on the inner spinlock of a mutex, when that lock is free. -/
theorem on_lock_spin_lock (K : Config) (stack : List Nat) (s : MutexState)
    (h : s.mutex.lock.locked = 0) :
    ∃ t, s.on_lock (spin_lock K stack) = Outcome.ret () t ∧
      t.mutex.process = s.mutex.process ∧ t.calls = s.calls ∧
      (t.mutex.lock.locked ≠ 0 ∧ t.mutex.lock.cpu = some t.cpu.id) ∧
      t.cpu.irq_save_count = s.cpu.irq_save_count + 1 := by
  have hs := (spin_lock_cases K stack { lock := s.mutex.lock, cpu := s.cpu }).2.2 h
  have he := spin_holding_eq { lock := s.mutex.lock, cpu := irq_save s.cpu }
  have hret : s.on_lock (spin_lock K stack) = Outcome.ret ()
      { mutex := { s.mutex with
                   lock := { s.mutex.lock with locked := 1, cpu := some s.cpu.id,
                                               pcs := spin_save_caller_pcs K stack } },
        cpu := (spin_holding { lock := s.mutex.lock, cpu := irq_save s.cpu }).2.cpu,
        calls := s.calls } := by
    simp only [MutexState.on_lock, hs]
  refine ⟨_, hret, rfl, rfl, ⟨by simp, ?_⟩, ?_⟩
  · simp only [he.2.2.2.1]
    rfl
  · simp only [he.2.2.2.2]
    rfl

/-- `spin_unlock` on the inner spinlock of a mutex by the CPU that holds it. -/
theorem on_lock_spin_unlock (s : MutexState)
    (h : s.mutex.lock.locked ≠ 0 ∧ s.mutex.lock.cpu = some s.cpu.id) :
    ∃ t, s.on_lock spin_unlock = Outcome.ret () t ∧
      t.mutex.process = s.mutex.process ∧ t.calls = s.calls ∧
      t.mutex.lock.locked = 0 ∧ t.mutex.lock.cpu = none ∧
      t.cpu.irq_save_count = s.cpu.irq_save_count - 1 := by
  have hs := (spin_unlock_cases { lock := s.mutex.lock, cpu := s.cpu }).1 h
  have he := spin_holding_eq { lock := s.mutex.lock, cpu := s.cpu }
  have hret : s.on_lock spin_unlock = Outcome.ret ()
      { mutex := { s.mutex with
                   lock := { s.mutex.lock with cpu := none, pcs := s.mutex.lock.pcs.set 0 0,
                                               locked := 0 } },
        cpu := irq_restore (spin_holding { lock := s.mutex.lock, cpu := s.cpu }).2.cpu,
        calls := s.calls } := by
    simp only [MutexState.on_lock, hs]
  refine ⟨_, hret, rfl, rfl, rfl, rfl, ?_⟩
  · have hc := he.2.2.2.2
    simp only at hc
    simp only [irq_restore]
    split
    · rename_i h0
      rw [← hc, h0]
    · simp only [hc]

/-- `mutex_holding` on a mutex whose inner spinlock is free. -/
theorem mutex_holding_cases (K : Config) (stack : List Nat) (me : Option Nat) (s : MutexState)
    (hfree : s.mutex.lock.locked = 0) :
    ∃ t, mutex_holding K stack me s
        = Outcome.ret (if s.mutex.process ≠ none ∧ s.mutex.process = me then 1 else 0) t ∧
      t.mutex.process = s.mutex.process ∧ t.calls = s.calls ∧
      t.mutex.lock.locked = 0 ∧ t.mutex.lock.cpu = none ∧
      t.cpu.irq_save_count = s.cpu.irq_save_count := by
  obtain ⟨t1, h1, hp1, hc1, hl1, hi1⟩ := on_lock_spin_lock K stack s hfree
  obtain ⟨t2, h2, hp2, hc2, hl2, hcpu2, hi2⟩ := on_lock_spin_unlock t1 hl1
  refine ⟨t2, ?_, hp2.trans hp1, hc2.trans hc1, hl2, hcpu2, ?_⟩
  · simp only [mutex_holding, h1, Outcome.bind, h2, hp1]
  · rw [hi2, hi1]
    omega

/-- C21. The mutex holder protocol, on a mutex whose inner spinlock is free.
`mutex_lock` with holder NULL returns, without a call of `process_sleep`, with
the holder set to the calling process and the inner spinlock released (with a
holder it goes to sleep in `process_sleep`).  `mutex_holding` returns 1 if the
holder is non-NULL and equal to the calling process and 0 otherwise, and changes
neither the holder nor the call log.  `mutex_unlock` by the holder returns with
the holder NULL after exactly one call of `process_wakeup`; by anybody else
(the mutex held by another process or not held) it panics with "not holding",
holder and call log unchanged. -/
theorem mutex_protocol (K : Config) (stack1 stack : List Nat) (me : Option Nat)
    (s : MutexState) (hfree : s.mutex.lock.locked = 0) :
    (s.mutex.process = none →
      ∃ t, mutex_lock K stack me s = Outcome.ret () t ∧ t.mutex.process = me ∧
        t.mutex.lock.locked = 0 ∧ t.mutex.lock.cpu = none ∧ t.calls = s.calls ∧
        t.cpu.irq_save_count = s.cpu.irq_save_count) ∧
    (s.mutex.process ≠ none →
      ∃ t, mutex_lock K stack me s = Outcome.blocked t ∧
        t.mutex.process = s.mutex.process ∧ t.calls = s.calls ++ [SyncCall.process_sleep]) ∧
    (∃ h t, mutex_holding K stack me s = Outcome.ret h t ∧
      (h = 1 ↔ (s.mutex.process ≠ none ∧ s.mutex.process = me)) ∧ (h = 1 ∨ h = 0) ∧
      t.mutex.process = s.mutex.process ∧ t.calls = s.calls ∧ t.mutex.lock.locked = 0) ∧
    ((s.mutex.process ≠ none ∧ s.mutex.process = me) →
      ∃ t, mutex_unlock K stack1 stack me s = Outcome.ret () t ∧ t.mutex.process = none ∧
        t.calls = s.calls ++ [SyncCall.process_wakeup] ∧
        t.mutex.lock.locked = 0 ∧ t.mutex.lock.cpu = none) ∧
    (¬ (s.mutex.process ≠ none ∧ s.mutex.process = me) →
      ∃ t, mutex_unlock K stack1 stack me s = Outcome.panic "not holding" t ∧
        t.mutex.process = s.mutex.process ∧ t.calls = s.calls) := by
  refine ⟨?_, ?_, ?_, ?_, ?_⟩
  · intro hnone
    obtain ⟨t1, h1, hp1, hc1, hl1, hi1⟩ := on_lock_spin_lock K stack s hfree
    have hp : ¬ t1.mutex.process ≠ none := by rw [hp1, hnone]; simp
    obtain ⟨t2, h2, hp2, hc2, hl2, hcpu2, hi2⟩ :=
      on_lock_spin_unlock { t1 with mutex := { t1.mutex with process := me } } hl1
    refine ⟨t2, ?_, hp2, hl2, hcpu2, hc2.trans hc1, ?_⟩
    · simp only [mutex_lock, h1, Outcome.bind, if_neg hp, h2]
    · rw [hi2]
      show t1.cpu.irq_save_count - 1 = s.cpu.irq_save_count
      rw [hi1]
      omega
  · intro hsome
    obtain ⟨t1, h1, hp1, hc1, _, _⟩ := on_lock_spin_lock K stack s hfree
    have hp : t1.mutex.process ≠ none := by rw [hp1]; exact hsome
    refine ⟨{ t1 with calls := t1.calls ++ [SyncCall.process_sleep] }, ?_, hp1, ?_⟩
    · simp only [mutex_lock, h1, Outcome.bind, if_pos hp]
    · show t1.calls ++ [SyncCall.process_sleep] = s.calls ++ [SyncCall.process_sleep]
      rw [hc1]
  · obtain ⟨t, ht, hp, hc, hl, _, _⟩ := mutex_holding_cases K stack me s hfree
    refine ⟨_, t, ht, ?_, ?_, hp, hc, hl⟩
    · by_cases hh : s.mutex.process ≠ none ∧ s.mutex.process = me
      · simp [hh]
      · simp only [if_neg hh, hh, iff_false]
        decide
    · by_cases hh : s.mutex.process ≠ none ∧ s.mutex.process = me
      · exact Or.inl (if_pos hh)
      · exact Or.inr (if_neg hh)
  · intro hh
    obtain ⟨t0, ht0, hp0, hc0, hl0, _, _⟩ := mutex_holding_cases K stack1 me s hfree
    obtain ⟨t1, h1, hp1, hc1, hl1, _⟩ := on_lock_spin_lock K stack t0 hl0
    obtain ⟨t2, h2, hp2, hc2, hl2, hcpu2, _⟩ :=
      on_lock_spin_unlock
        { t1 with mutex := { t1.mutex with process := none },
                  calls := t1.calls ++ [SyncCall.process_wakeup] } hl1
    refine ⟨t2, ?_, hp2, ?_, hl2, hcpu2⟩
    · simp only [mutex_unlock, ht0, if_pos hh, Outcome.bind, one_ne_zero, if_false, h1, h2]
    · rw [hc2]
      show t1.calls ++ [SyncCall.process_wakeup] = s.calls ++ [SyncCall.process_wakeup]
      rw [hc1, hc0]
  · intro hh
    obtain ⟨t0, ht0, hp0, hc0, _, _, _⟩ := mutex_holding_cases K stack1 me s hfree
    refine ⟨t0, ?_, hp0, hc0⟩
    simp only [mutex_unlock, ht0, if_neg hh, Outcome.bind, if_true]

/-- Witness for C21: process 1 locks the free mutex and unlocks the mutex it
holds; process 2 cannot unlock the mutex held by process 1, and nobody can
unlock the free mutex. -/
theorem mutex_protocol_witness :
    MutexState.sample.mutex.lock.locked = 0 ∧ MutexState.held.mutex.lock.locked = 0 ∧
    (∃ t, mutex_lock Config.sample [] (some 1) MutexState.sample = Outcome.ret () t ∧
      t.mutex.process = some 1 ∧ t.mutex.lock.locked = 0 ∧ t.mutex.lock.cpu = none ∧
      t.calls = MutexState.sample.calls ∧
      t.cpu.irq_save_count = MutexState.sample.cpu.irq_save_count) ∧
    (mutex_lock Config.sample [] (some 1) MutexState.sample).bind
        (fun _ t => mutex_holding Config.sample [] (some 1) t)
      = Outcome.ret 1 { MutexState.held with cpu := { Cpu.other with irq_flags := true } } ∧
    (∃ t, mutex_unlock Config.sample [] [] (some 1) MutexState.held = Outcome.ret () t ∧
      t.mutex.process = none ∧
      t.calls = MutexState.held.calls ++ [SyncCall.process_wakeup] ∧
      t.mutex.lock.locked = 0 ∧ t.mutex.lock.cpu = none) ∧
    (∃ t, mutex_unlock Config.sample [] [] (some 2) MutexState.held
        = Outcome.panic "not holding" t ∧
      t.mutex.process = MutexState.held.mutex.process ∧ t.calls = MutexState.held.calls) ∧
    (∃ t, mutex_unlock Config.sample [] [] (some 1) MutexState.sample
        = Outcome.panic "not holding" t ∧
      t.mutex.process = MutexState.sample.mutex.process ∧ t.calls = MutexState.sample.calls) :=
  ⟨by decide, by decide,
   (mutex_protocol Config.sample [] [] (some 1) MutexState.sample (by decide)).1 (by decide),
   by decide,
   (mutex_protocol Config.sample [] [] (some 1) MutexState.held (by decide)).2.2.2.1
     (by decide),
   (mutex_protocol Config.sample [] [] (some 2) MutexState.held (by decide)).2.2.2.2
     (by decide),
   (mutex_protocol Config.sample [] [] (some 1) MutexState.sample (by decide)).2.2.2.2
     (by decide)⟩

/-! ## Uniqueness of the keys of referenced slots -/

theorem pairwise_set {α : Type} (R : α → α → Prop) (y : α) :
    ∀ (l : List α) (k : Nat) (x : α), l.Pairwise R → l[k]? = some x →
      (∀ j a, j < k → l[j]? = some a → R a y) →
      (∀ j b, k < j → l[j]? = some b → R y b) → (l.set k y).Pairwise R
  | [], k, x, _, h, _, _ => by simp at h
  | x0 :: l, 0, x, hp, _, _, hafter => by
    rw [List.set_cons_zero, List.pairwise_cons]
    refine ⟨?_, (List.pairwise_cons.mp hp).2⟩
    intro b hb
    obtain ⟨j, hj⟩ := List.mem_iff_getElem?.mp hb
    exact hafter (j + 1) b (by omega) (by simpa using hj)
  | x0 :: l, k + 1, x, hp, h, hbefore, hafter => by
    rw [List.set_cons_succ, List.pairwise_cons]
    have hp1 := List.pairwise_cons.mp hp
    constructor
    · intro b hb
      rcases List.mem_or_eq_of_mem_set hb with hin | heq
      · exact hp1.1 b hin
      · rw [heq]
        exact hbefore 0 x0 (by omega) (by simp)
    · refine pairwise_set R y l k x hp1.2 (by simpa using h) ?_ ?_
      · intro j a hj ha
        exact hbefore (j + 1) a (by omega) (by simpa using ha)
      · intro j b hj hb
        exact hafter (j + 1) b (by omega) (by simpa using hb)

theorem pairwise_or_of_mem {α : Type} (R : α → α → Prop) (l : List α) (h : l.Pairwise R)
    (a b : α) (ha : a ∈ l) (hb : b ∈ l) (hne : a ≠ b) : R a b ∨ R b a := by
  have hsym : Symmetric (fun x y => R x y ∨ R y x) := fun _ _ hxy => hxy.symm
  have h1 : l.Pairwise (fun x y => R x y ∨ R y x) := h.imp (fun hab => Or.inl hab)
  exact h1.forall hsym ha hb hne

theorem deref_mem (s : FsState) (p : Nat) (ip : Inode) (h : s.deref p = some ip) :
    ip ∈ s.inode_cache :=
  List.mem_of_find?_eq_some h

/-- The slot that a pointer refers to is the only slot at that address. -/
theorem deref_unique (s : FsState) (p : Nat) (ip a : Inode) (hd : s.Distinct)
    (h : s.deref p = some ip) (ha : a ∈ s.inode_cache) (hap : a.addr = p) : a = ip :=
  List.inj_on_of_nodup_map hd ha (deref_mem s p ip h)
    (by rw [hap, deref_addr s p ip h])

/-- A referenced slot has a key that no other slot before it carries, and the
slots after it with the same key are unreferenced. -/
theorem referenced_slot_key (s : FsState) (p : Nat) (ip b : Inode) (hk : s.KeysOk)
    (h : s.deref p = some ip) (href : 1 ≤ ip.ref_count) (hb : b ∈ s.inode_cache)
    (hne : b ≠ ip) : ip.ino = b.ino → ip.dev = b.dev → b.ref_count = 0 := by
  intro hi hd
  rcases pairwise_or_of_mem later_unreferenced _ hk.1 ip b (deref_mem s p ip h) hb
    (fun e => hne e.symm) with h1 | h2
  · exact h1 hi hd
  · have := h2 hi.symm hd.symm
    omega

theorem pairwise_getElem? {α : Type} (R : α → α → Prop) :
    ∀ (l : List α) (i j : Nat) (a b : α), l.Pairwise R → i < j → l[i]? = some a →
      l[j]? = some b → R a b
  | [], _, _, _, _, _, _, h, _ => by simp at h
  | x :: l, 0, 0, _, _, _, hij, _, _ => by omega
  | x :: l, 0, j + 1, a, b, hp, _, ha, hb => by
    simp at ha hb
    subst ha
    exact (List.pairwise_cons.mp hp).1 b (List.getElem?_mem hb)
  | x :: l, i + 1, 0, _, _, _, hij, _, _ => by omega
  | x :: l, i + 1, j + 1, a, b, hp, hij, ha, hb => by
    simp at ha hb
    exact pairwise_getElem? R l i j a b (List.pairwise_cons.mp hp).2 (by omega) ha hb

/-- Replacing the contents of a referenced slot by an inode with the same key
keeps the keys in order. -/
theorem keys_ok_store (s t : FsState) (p : Nat) (ip ip1 : Inode) (hd : s.Distinct)
    (hk : s.KeysOk) (h : s.deref p = some ip) (href : 1 ≤ ip.ref_count)
    (hi : ip1.ino = ip.ino) (hdv : ip1.dev = ip.dev) (hr : 0 ≤ ip1.ref_count)
    (ht : t.inode_cache = s.store p ip1) : t.KeysOk := by
  unfold FsState.KeysOk
  rw [ht]
  constructor
  · unfold FsState.store
    rw [List.pairwise_map]
    refine List.Pairwise.imp_of_mem ?_ hk.1
    intro a b ha hb hab
    by_cases hap : a.addr = p
    · have hae := deref_unique s p ip a hd h ha hap
      subst hae
      by_cases hbp : b.addr = p
      · have hbe := deref_unique s p a b hd h hb hbp
        subst hbe
        have := hab rfl rfl
        omega
      · simp only [hap, hbp, if_true, if_false]
        intro h1 h2
        exact hab (hi ▸ h1) (hdv ▸ h2)
    · by_cases hbp : b.addr = p
      · have hbe := deref_unique s p ip b hd h hb hbp
        subst hbe
        simp only [hap, hbp, if_true, if_false]
        intro h1 h2
        have := hab (h1.trans hi) (h2.trans hdv)
        omega
      · simp only [hap, hbp, if_false]
        exact hab
  · intro a ha
    obtain ⟨x, hx, hxa⟩ := List.mem_map.mp ha
    by_cases hxp : x.addr = p
    · simp only [hxp, if_true] at hxa
      rw [← hxa]
      exact hr
    · simp only [hxp, if_false] at hxa
      rw [← hxa]
      exact hk.2 x hx

/-- Moving a slot whose last reference is dropped to the front of the list
keeps the keys in order. -/
theorem keys_ok_front (s t : FsState) (p : Nat) (ip ip1 : Inode) (hk : s.KeysOk)
    (h : s.deref p = some ip) (href : 1 ≤ ip.ref_count)
    (hi : ip1.ino = ip.ino) (hdv : ip1.dev = ip.dev) (hr : 0 ≤ ip1.ref_count)
    (ht : t.inode_cache = ip1 :: s.inode_cache.filter (fun jp => jp.addr ≠ p)) : t.KeysOk := by
  unfold FsState.KeysOk
  rw [ht]
  constructor
  · rw [List.pairwise_cons]
    refine ⟨?_, hk.1.filter _⟩
    intro b hb
    have hbm := List.mem_filter.mp hb
    have hbp : b.addr ≠ p := by simpa using hbm.2
    have hne : b ≠ ip := by
      intro e
      apply hbp
      rw [e]
      exact deref_addr s p ip h
    intro h1 h2
    exact referenced_slot_key s p ip b hk h href hbm.1 hne (hi ▸ h1) (hdv ▸ h2)
  · intro a ha
    rcases List.mem_cons.mp ha with rfl | hin
    · exact hr
    · exact hk.2 a (List.mem_filter.mp hin).1

/-- `fs_inode_get` keeps the keys in order: a hit is at the first slot with the
key, and a free slot is filled only when no slot carries the key. -/
theorem keys_ok_get (ino dev : Nat) (s : FsState) (hk : s.KeysOk) :
    (fs_inode_get ino dev s).2.KeysOk := by
  by_cases hex : ∃ ip ∈ s.inode_cache, ip.ino = ino ∧ ip.dev = dev
  · obtain ⟨k, ip, hkk, hm, hfirst, hloop⟩ :=
      fs_inode_get_loop_hit ino dev s.inode_cache 0 none hex
    simp only [Nat.zero_add] at hloop
    have hc : (fs_inode_get ino dev s).2.inode_cache
        = s.inode_cache.set k { ip with ref_count := ip.ref_count + 1 } := by
      simp only [fs_inode_get, hloop]
      exact modify_eq_set_of_getElem? _ _ k ip hkk
    have hip := hk.2 ip (List.getElem?_mem hkk)
    unfold FsState.KeysOk
    rw [hc]
    constructor
    · refine pairwise_set later_unreferenced _ _ k ip hk.1 hkk ?_ ?_
      · intro j a hj ha h1 h2
        exact absurd ⟨h1.trans hm.1, h2.trans hm.2⟩ (hfirst j a hj ha)
      · intro j b hj hb h1 h2
        exact pairwise_getElem? later_unreferenced _ k j ip b hk.1 hj hkk hb h1 h2
    · intro a ha
      rcases List.mem_or_eq_of_mem_set ha with hin | heq
      · exact hk.2 a hin
      · rw [heq]
        show 0 ≤ ip.ref_count + 1
        omega
  · have hnone : ∀ ip ∈ s.inode_cache, ¬ (ip.ino = ino ∧ ip.dev = dev) :=
      fun ip hip hm => hex ⟨ip, hip, hm⟩
    rcases fs_inode_get_loop_miss ino dev s.inode_cache 0 none hnone
      with ⟨k, ip, hkk, _, _, hloop⟩ | ⟨_, hloop⟩
    · simp only [Nat.zero_add] at hloop
      have hc : (fs_inode_get ino dev s).2.inode_cache
          = s.inode_cache.set k { ip with ref_count := 1, ino := ino, dev := dev, flags := 0 } := by
        simp only [fs_inode_get, hloop]
        exact modify_eq_set_of_getElem? _ _ k ip hkk
      unfold FsState.KeysOk
      rw [hc]
      constructor
      · refine pairwise_set later_unreferenced _ _ k ip hk.1 hkk ?_ ?_
        · intro j a _ ha h1 h2
          exact absurd ⟨h1, h2⟩ (hnone a (List.getElem?_mem ha))
        · intro j b _ hb h1 h2
          exact absurd ⟨h1.symm, h2.symm⟩ (hnone b (List.getElem?_mem hb))
      · intro a ha
        rcases List.mem_or_eq_of_mem_set ha with hin | heq
        · exact hk.2 a hin
        · rw [heq]
          show (0 : Int) ≤ 1
          omega
    · have hc : (fs_inode_get ino dev s).2 = s := by
        simp only [fs_inode_get, hloop]
      rw [hc]
      exact hk

theorem keys_ok_init (n : Nat) : (fs_inode_cache_init n).KeysOk := by
  unfold FsState.KeysOk fs_inode_cache_init
  constructor
  · rw [List.pairwise_map]
    exact List.pairwise_of_forall (fun _ _ _ _ => rfl)
  · intro a ha
    obtain ⟨x, _, hxa⟩ := List.mem_map.mp ha
    rw [← hxa]
    exact le_refl _

/-- An operation that changes neither key nor reference count of any slot keeps
the keys in order. -/
theorem keys_ok_map (f : Inode → Inode) (calls : List Call) (s : FsState) (hk : s.KeysOk)
    (hf : ∀ ip, (f ip).addr = ip.addr ∧ (f ip).ino = ip.ino ∧ (f ip).dev = ip.dev ∧
      (f ip).ref_count = ip.ref_count) :
    ({ inode_cache := s.inode_cache.map f, calls := calls } : FsState).KeysOk := by
  unfold FsState.KeysOk
  constructor
  · rw [List.pairwise_map]
    refine hk.1.imp ?_
    intro a b hab h1 h2
    rw [(hf b).2.2.2]
    rw [(hf a).2.1, (hf b).2.1] at h1
    rw [(hf a).2.2.1, (hf b).2.2.1] at h2
    exact hab h1 h2
  · intro a ha
    obtain ⟨x, hx, hxa⟩ := List.mem_map.mp ha
    rw [← hxa, (hf x).2.2.2]
    exact hk.2 x hx

theorem ReachableRef.reachable (K : Config) (s : FsState) (h : ReachableRef K s) :
    Reachable K s := by
  induction h with
  | init => exact Reachable.init
  | get ino dev s _ ih => exact Reachable.get ino dev s ih
  | duplicate p r s t ip _ _ _ hd ih => exact Reachable.duplicate p r s t ih hd
  | put X cur p s t ip _ _ _ hput ih => exact Reachable.put X cur p s t ih hput
  | inode_op f calls s _ hf ih => exact Reachable.inode_op f calls s ih hf

/-- The keys are in order in every state reached with `fs_inode_duplicate` and
`fs_inode_put` applied to referenced slots only. -/
theorem ReachableRef.keys_ok (K : Config) (s : FsState) (h : ReachableRef K s) : s.KeysOk := by
  induction h with
  | init => exact keys_ok_init _
  | get ino dev s _ ih => exact keys_ok_get ino dev s ih
  | duplicate p r s t ip hs hp href hdup ih =>
    have hd := Reachable.distinct K s (ReachableRef.reachable K s hs)
    have hip := ih.2 ip (deref_mem s p ip hp)
    simp only [fs_inode_duplicate, hp, Outcome.ret.injEq] at hdup
    refine keys_ok_store s t p ip { ip with ref_count := ip.ref_count + 1 } hd ih hp href
      rfl rfl ?_ ?_
    · show 0 ≤ ip.ref_count + 1
      omega
    · rw [← hdup.2]
  | put X cur p s t ip hs hp href hput ih =>
    have hd := Reachable.distinct K s (ReachableRef.reachable K s hs)
    cases hm : ip.mutex with
    | some q => simp [fs_inode_put, hp, hm, kmutex_lock_held] at hput
    | none =>
      have hspec := fs_inode_put_cases K X cur s p ip hp hm
      cases hdirty : ip.has K.FS_INODE_DIRTY with
      | true =>
        obtain ⟨u, hu, _⟩ := hspec.1 hdirty
        rw [hu] at hput
        exact absurd hput (by simp)
      | false =>
        obtain ⟨u, ip1, hu, _, hrc, _, hino, hdev, _, _, _, hfront, hstay⟩ := hspec.2 hdirty
        rw [hu] at hput
        simp only [Outcome.ret.injEq, true_and] at hput
        subst hput
        have hr1 : 0 ≤ ip1.ref_count := by rw [hrc]; omega
        by_cases hr : ip.ref_count = 1
        · exact keys_ok_front s u p ip ip1 ih hp href hino hdev hr1 (hfront hr)
        · exact keys_ok_store s u p ip ip1 hd ih hp href hino hdev hr1 (hstay hr)
  | inode_op f calls s _ hf ih => exact keys_ok_map f calls s ih hf

/-- C24. Cache key uniqueness.  In every cache state reached from
`fs_inode_cache_init` by `fs_inode_get`, `fs_inode_duplicate` and
`fs_inode_put` (the last two applied to slots with `ref_count ≥ 1`; operations
on single inodes may come in between), the slots are at pairwise distinct
addresses, no two different slots with `ref_count > 0` carry the same
(dev, ino), and no reference count is negative. -/
theorem cache_keys_unique (K : Config) (s : FsState) (h : ReachableRef K s) :
    s.Distinct ∧
    (∀ a ∈ s.inode_cache, ∀ b ∈ s.inode_cache, a.addr ≠ b.addr →
      0 < a.ref_count → 0 < b.ref_count → ¬ (a.dev = b.dev ∧ a.ino = b.ino)) ∧
    (∀ a ∈ s.inode_cache, 0 ≤ a.ref_count) := by
  have hk := ReachableRef.keys_ok K s h
  refine ⟨Reachable.distinct K s (ReachableRef.reachable K s h), ?_, hk.2⟩
  intro a ha b hb hne hra hrb hkey
  have hab : a ≠ b := fun e => hne (by rw [e])
  rcases pairwise_or_of_mem later_unreferenced _ hk.1 a b ha hb hab with h1 | h2
  · have := h1 hkey.2 hkey.1
    omega
  · have := h2 hkey.2.symm hkey.1.symm
    omega

/-- Witness for C24: the cache after three calls of `fs_inode_get`, a put, a
duplicate and another put.  The slot at address 0 is referenced, and the
unreferenced slots at addresses 1 and 2 carry the same key (0, 0). -/
theorem cache_keys_unique_witness :
    ReachableRef Config.sample FsState.afterPuts ∧
    FsState.afterGets.inode_cache
      = [Inode.sample 0 0 0 1 0, Inode.zero 1, Inode.zero 2, Inode.sample 3 5 7 2 0] ∧
    FsState.afterPuts.Distinct ∧
    (∀ a ∈ FsState.afterPuts.inode_cache, ∀ b ∈ FsState.afterPuts.inode_cache,
      a.addr ≠ b.addr → 0 < a.ref_count → 0 < b.ref_count → ¬ (a.dev = b.dev ∧ a.ino = b.ino)) ∧
    (∀ a ∈ FsState.afterPuts.inode_cache, 0 ≤ a.ref_count) :=
  have h0 : ReachableRef Config.sample FsState.afterGets :=
    ReachableRef.get 5 7 _ (ReachableRef.get 0 0 _ (ReachableRef.get 5 7 _ ReachableRef.init))
  have h1 : ReachableRef Config.sample FsState.afterGetsPut :=
    ReachableRef.put Ext2.sample Process.sample 3 FsState.afterGets _ (Inode.sample 3 5 7 2 0) h0
      (by decide) (by decide) (by decide)
  have h2 : ReachableRef Config.sample
      { inode_cache := [Inode.sample 0 0 0 2 0, Inode.zero 1, Inode.zero 2, Inode.sample 3 5 7 1 0],
        calls := [] } :=
    ReachableRef.duplicate 0 0 FsState.afterGetsPut _ (Inode.sample 0 0 0 1 0) h1
      (by decide) (by decide) (by decide)
  have h3 : ReachableRef Config.sample FsState.afterPuts :=
    ReachableRef.put Ext2.sample Process.sample 3 _ _ (Inode.sample 3 5 7 1 0) h2
      (by decide) (by decide) (by decide)
  ⟨h3, by decide, cache_keys_unique Config.sample FsState.afterPuts h3⟩

/-! ## Reference balance of the path-level operations -/

theorem deref_store_other (s : FsState) (p q : Nat) (b : Inode) (c : List Call)
    (hb : b.addr = p) (hq : q ≠ p) :
    ({ inode_cache := s.store p b, calls := c } : FsState).deref q = s.deref q :=
  find?_store_ne p q b hb hq s.inode_cache

/-- `fs_inode_lock` on a slot of the cache whose mutex is free and whose DIRTY
flag is clear: the slot is then held by the caller and VALID, and no other slot
has changed. -/
theorem lock_step (K : Config) (X : Ext2) (cur : Process) (hK : K.FlagsOk) (s : FsState)
    (p : Nat) (a : Inode) (hp : s.deref p = some a) (hm : a.mutex = none)
    (hd : a.has K.FS_INODE_DIRTY = false) :
    ∃ t b, s.on_inode p (fs_inode_lock K X cur) = Outcome.ret () t ∧ t.deref p = some b ∧
      fs_inode_holding cur b = true ∧ b.has K.FS_INODE_VALID = true ∧
      b.ref_count = a.ref_count ∧ ∀ q, q ≠ p → t.deref q = s.deref q := by
  obtain ⟨u, hu, hh, hv, ha, hr, _⟩ :=
    fs_inode_lock_free K X cur { ip := a, calls := s.calls } hK hm hd
  have hap : u.ip.addr = p := by rw [ha]; exact deref_addr s p a hp
  obtain ⟨hon, hderef⟩ := on_inode_ret s p a (fs_inode_lock K X cur) () u hp hu hap
  exact ⟨_, u.ip, hon, hderef, hh, hv, hr, fun q hq => deref_store_other s p q u.ip _ hap hq⟩

/-- `fs_inode_unlock` on a slot of the cache that the caller holds and that is
VALID: the slot is then free and not DIRTY, and no other slot has changed. -/
theorem unlock_step (K : Config) (X : Ext2) (cur : Process) (s : FsState)
    (p : Nat) (a : Inode) (hp : s.deref p = some a) (hh : fs_inode_holding cur a = true)
    (hv : a.has K.FS_INODE_VALID = true) :
    ∃ t b, s.on_inode p (fs_inode_unlock K X cur) = Outcome.ret () t ∧ t.deref p = some b ∧
      b.mutex = none ∧ b.has K.FS_INODE_DIRTY = false ∧
      b.ref_count = a.ref_count ∧ ∀ q, q ≠ p → t.deref q = s.deref q := by
  obtain ⟨u, hu, hm, hd, ha, hr, _, _⟩ :=
    fs_inode_unlock_held K X cur { ip := a, calls := s.calls } hh hv
  have hap : u.ip.addr = p := by rw [ha]; exact deref_addr s p a hp
  obtain ⟨hon, hderef⟩ := on_inode_ret s p a (fs_inode_unlock K X cur) () u hp hu hap
  exact ⟨_, u.ip, hon, hderef, hm, hd, hr, fun q hq => deref_store_other s p q u.ip _ hap hq⟩

/-- `fs_inode_put` on a slot whose mutex is free and whose DIRTY flag is clear:
the call returns, the slot has one reference less, and no other slot has
changed. -/
theorem put_step (K : Config) (X : Ext2) (cur : Process) (s : FsState)
    (p : Nat) (a : Inode) (hp : s.deref p = some a) (hm : a.mutex = none)
    (hd : a.has K.FS_INODE_DIRTY = false) :
    ∃ t b, fs_inode_put K X cur s p = Outcome.ret () t ∧ t.deref p = some b ∧
      b.ref_count = a.ref_count - 1 ∧ b.mutex = none ∧
      ∀ q, q ≠ p → t.deref q = s.deref q := by
  obtain ⟨t, b, hput, hderef, hrc, hba, _, _, hbm, _, _, hfront, hstay⟩ :=
    (fs_inode_put_cases K X cur s p a hp hm).2 hd
  have hb : b.addr = p := by rw [hba]; exact deref_addr s p a hp
  refine ⟨t, b, hput, hderef, hrc, hbm, ?_⟩
  intro q hq
  unfold FsState.deref
  by_cases hr : a.ref_count = 1
  · have hne : ¬ b.addr = q := by rw [hb]; exact fun h => hq h.symm
    rw [hfront hr, List.find?_cons]
    simp only [hne, decide_False]
    exact find?_filter_ne p q hq s.inode_cache
  · rw [hstay hr]
    exact find?_store_ne p q b hb hq s.inode_cache

/-- `fs_inode_put` on a slot whose mutex is held, by the caller or by somebody
else, does not return: the caller sleeps in `kmutex_lock`. -/
theorem put_held_blocks (K : Config) (X : Ext2) (cur : Process) (s : FsState)
    (p : Nat) (a : Inode) (q : Nat) (hp : s.deref p = some a) (hm : a.mutex = some q) :
    fs_inode_put K X cur s p = Outcome.blocked s := by
  simp only [fs_inode_put, hp, hm, kmutex_lock_held]

/-- An operation on an inode and a directory that the caller holds, run on two
different slots of the cache. -/
theorem on_two_step (cur : Process) (f : IIState → Outcome IIState Int) (hf : KeepsSlots cur f)
    (s : FsState) (pi pd : Nat) (i d : Inode) (hne : pd ≠ pi)
    (hi : s.deref pi = some i) (hd : s.deref pd = some d)
    (hhi : fs_inode_holding cur i = true) (hhd : fs_inode_holding cur d = true) :
    ∃ r t i1 d1, s.on_two pi pd f = Outcome.ret r t ∧
      t.deref pi = some i1 ∧ t.deref pd = some d1 ∧
      i1.mutex = i.mutex ∧ i1.flags = i.flags ∧ i1.ref_count = i.ref_count ∧
      d1.mutex = d.mutex ∧ d1.flags = d.flags ∧ d1.ref_count = d.ref_count ∧
      ∀ q, q ≠ pd → q ≠ pi → t.deref q = s.deref q := by
  obtain ⟨r, u, hu, hia, him, hif, hir, hda, hdm, hdf, hdr⟩ :=
    hf { inode := i, dir := d, calls := s.calls } hhi hhd
  have hiap : u.inode.addr = pi := by rw [hia]; exact deref_addr s pi i hi
  have hdap : u.dir.addr = pd := by rw [hda]; exact deref_addr s pd d hd
  have hret : s.on_two pi pd f = Outcome.ret r
      { inode_cache :=
          ({ inode_cache := s.store pd u.dir, calls := u.calls } : FsState).store pi u.inode,
        calls := u.calls } := by
    simp only [FsState.on_two, hi, hd, hu]
  have hmid_i : ({ inode_cache := s.store pd u.dir, calls := u.calls } : FsState).deref pi
      = some i := by
    rw [deref_store_other s pd pi u.dir _ hdap (fun h => hne h.symm)]
    exact hi
  have hmid_d : ({ inode_cache := s.store pd u.dir, calls := u.calls } : FsState).deref pd
      = some u.dir := find?_store pd u.dir hdap s.inode_cache d hd
  refine ⟨r, _, u.inode, u.dir, hret, ?_, ?_, him, hif, hir, hdm, hdf, hdr, ?_⟩
  · exact find?_store pi u.inode hiap _ i hmid_i
  · rw [deref_store_other _ pi pd u.inode _ hiap hne]
    exact hmid_d
  · intro q hqd hqi
    rw [deref_store_other _ pi q u.inode _ hiap hqi, deref_store_other s pd q u.dir _ hdap hqd]

/-- Two different slots with free mutexes, locked one after the other. -/
theorem lock_pair (K : Config) (X : Ext2) (cur : Process) (hK : K.FlagsOk) (s : FsState)
    (a b : Nat) (x y : Inode) (hab : a ≠ b) (ha : s.deref a = some x) (hb : s.deref b = some y)
    (hxm : x.mutex = none) (hxd : x.has K.FS_INODE_DIRTY = false)
    (hym : y.mutex = none) (hyd : y.has K.FS_INODE_DIRTY = false) :
    ∃ t x1 y1, InodeCall.run_all K X cur [InodeCall.lock a, InodeCall.lock b] s
        = Outcome.ret () t ∧
      t.deref a = some x1 ∧ t.deref b = some y1 ∧
      (fs_inode_holding cur x1 = true ∧ x1.has K.FS_INODE_VALID = true ∧
        x1.ref_count = x.ref_count) ∧
      (fs_inode_holding cur y1 = true ∧ y1.has K.FS_INODE_VALID = true ∧
        y1.ref_count = y.ref_count) ∧
      ∀ q, q ≠ a → q ≠ b → t.deref q = s.deref q := by
  obtain ⟨t1, x1, h1, hx1, hxh, hxv, hxr, hf1⟩ := lock_step K X cur hK s a x ha hxm hxd
  have hb1 : t1.deref b = some y := by rw [hf1 b (fun h => hab h.symm)]; exact hb
  obtain ⟨t2, y1, h2, hy1, hyh, hyv, hyr, hf2⟩ := lock_step K X cur hK t1 b y hb1 hym hyd
  refine ⟨t2, x1, y1, ?_, ?_, hy1, ⟨hxh, hxv, hxr⟩, ⟨hyh, hyv, hyr⟩, ?_⟩
  · simp only [InodeCall.run_all, InodeCall.run, h1, Outcome.bind, h2]
  · rw [hf2 a hab]
    exact hx1
  · intro q hqa hqb
    rw [hf2 q hqb, hf1 q hqa]

/-- `fs_inode_lock_two` on two different slots with free mutexes. -/
theorem lock_two_step (K : Config) (X : Ext2) (cur : Process) (hK : K.FlagsOk) (s : FsState)
    (pd pi : Nat) (d i : Inode) (hne : pd ≠ pi) (hd : s.deref pd = some d)
    (hi : s.deref pi = some i)
    (hdm : d.mutex = none) (hdd : d.has K.FS_INODE_DIRTY = false)
    (him : i.mutex = none) (hid : i.has K.FS_INODE_DIRTY = false) :
    ∃ t d1 i1, InodeCall.run_all K X cur (fs_inode_lock_two pd pi) s = Outcome.ret () t ∧
      t.deref pd = some d1 ∧ t.deref pi = some i1 ∧
      (fs_inode_holding cur d1 = true ∧ d1.has K.FS_INODE_VALID = true ∧
        d1.ref_count = d.ref_count) ∧
      (fs_inode_holding cur i1 = true ∧ i1.has K.FS_INODE_VALID = true ∧
        i1.ref_count = i.ref_count) ∧
      ∀ q, q ≠ pd → q ≠ pi → t.deref q = s.deref q := by
  by_cases h : pd < pi
  · simp only [fs_inode_lock_two, if_pos h]
    exact lock_pair K X cur hK s pd pi d i hne hd hi hdm hdd him hid
  · simp only [fs_inode_lock_two, if_neg h]
    obtain ⟨t, i1, d1, hrun, hi1, hd1, hpi, hpd, hf⟩ :=
      lock_pair K X cur hK s pi pd i d (fun e => hne e.symm) hi hd him hid hdm hdd
    exact ⟨t, d1, i1, hrun, hd1, hi1, hpd, hpi, fun q hqd hqi => hf q hqi hqd⟩

/-- Two different slots held by the caller, unlocked one after the other. -/
theorem unlock_pair (K : Config) (X : Ext2) (cur : Process) (s : FsState)
    (a b : Nat) (x y : Inode) (hab : a ≠ b) (ha : s.deref a = some x) (hb : s.deref b = some y)
    (hxh : fs_inode_holding cur x = true) (hxv : x.has K.FS_INODE_VALID = true)
    (hyh : fs_inode_holding cur y = true) (hyv : y.has K.FS_INODE_VALID = true) :
    ∃ t x1 y1, InodeCall.run_all K X cur [InodeCall.unlock a, InodeCall.unlock b] s
        = Outcome.ret () t ∧
      t.deref a = some x1 ∧ t.deref b = some y1 ∧
      (x1.mutex = none ∧ x1.has K.FS_INODE_DIRTY = false ∧ x1.ref_count = x.ref_count) ∧
      (y1.mutex = none ∧ y1.has K.FS_INODE_DIRTY = false ∧ y1.ref_count = y.ref_count) ∧
      ∀ q, q ≠ a → q ≠ b → t.deref q = s.deref q := by
  obtain ⟨t1, x1, h1, hx1, hxm, hxd, hxr, hf1⟩ := unlock_step K X cur s a x ha hxh hxv
  have hb1 : t1.deref b = some y := by rw [hf1 b (fun h => hab h.symm)]; exact hb
  obtain ⟨t2, y1, h2, hy1, hym, hyd, hyr, hf2⟩ := unlock_step K X cur t1 b y hb1 hyh hyv
  refine ⟨t2, x1, y1, ?_, ?_, hy1, ⟨hxm, hxd, hxr⟩, ⟨hym, hyd, hyr⟩, ?_⟩
  · simp only [InodeCall.run_all, InodeCall.run, h1, Outcome.bind, h2]
  · rw [hf2 a hab]
    exact hx1
  · intro q hqa hqb
    rw [hf2 q hqb, hf1 q hqa]

/-- `fs_inode_unlock_two` on two different slots held by the caller. -/
theorem unlock_two_step (K : Config) (X : Ext2) (cur : Process) (s : FsState)
    (pd pi : Nat) (d i : Inode) (hne : pd ≠ pi) (hd : s.deref pd = some d)
    (hi : s.deref pi = some i)
    (hdh : fs_inode_holding cur d = true) (hdv : d.has K.FS_INODE_VALID = true)
    (hih : fs_inode_holding cur i = true) (hiv : i.has K.FS_INODE_VALID = true) :
    ∃ t d1 i1, InodeCall.run_all K X cur (fs_inode_unlock_two pd pi) s = Outcome.ret () t ∧
      t.deref pd = some d1 ∧ t.deref pi = some i1 ∧
      (d1.mutex = none ∧ d1.has K.FS_INODE_DIRTY = false ∧ d1.ref_count = d.ref_count) ∧
      (i1.mutex = none ∧ i1.has K.FS_INODE_DIRTY = false ∧ i1.ref_count = i.ref_count) ∧
      ∀ q, q ≠ pd → q ≠ pi → t.deref q = s.deref q := by
  by_cases h : pd < pi
  · simp only [fs_inode_unlock_two, if_pos h]
    obtain ⟨t, i1, d1, hrun, hi1, hd1, hpi, hpd, hf⟩ :=
      unlock_pair K X cur s pi pd i d (fun e => hne e.symm) hi hd hih hiv hdh hdv
    exact ⟨t, d1, i1, hrun, hd1, hi1, hpd, hpi, fun q hqd hqi => hf q hqi hqd⟩
  · simp only [fs_inode_unlock_two, if_neg h]
    exact unlock_pair K X cur s pd pi d i hne hd hi hdh hdv hih hiv

/-- `fs_inode_lock_two` on one and the same slot does not return: the second
`fs_inode_lock` finds the mutex held by the caller and sleeps. -/
theorem lock_two_same_blocks (K : Config) (X : Ext2) (cur : Process) (hK : K.FlagsOk)
    (s : FsState) (p : Nat) (a : Inode) (hp : s.deref p = some a) (hm : a.mutex = none)
    (hd : a.has K.FS_INODE_DIRTY = false) :
    ∃ t, InodeCall.run_all K X cur (fs_inode_lock_two p p) s = Outcome.blocked t := by
  obtain ⟨t1, b, h1, hb, hh, _, _, _⟩ := lock_step K X cur hK s p a hp hm hd
  have hbm : b.mutex = some cur.pid := by
    simpa [fs_inode_holding, kmutex_holding] using hh
  have h2 : t1.on_inode p (fs_inode_lock K X cur)
      = Outcome.blocked { inode_cache := t1.store p b, calls := t1.calls } := by
    simp only [FsState.on_inode, hb, fs_inode_lock, hbm, kmutex_lock_held]
  refine ⟨{ inode_cache := t1.store p b, calls := t1.calls }, ?_⟩
  simp only [fs_inode_lock_two, lt_irrefl, if_false, InodeCall.run_all, InodeCall.run, h1,
    Outcome.bind, h2]

theorem keeps_slots_link (K : Config) (X : Ext2) (cur : Process) (name : String) :
    KeepsSlots cur (fs_inode_link K X cur name) := by
  intro u hi hd
  simp only [fs_inode_link, hi, hd, Bool.not_true, Bool.false_eq_true, if_false]
  split_ifs <;> exact ⟨_, _, rfl, rfl, rfl, rfl, rfl, rfl, rfl, rfl, rfl⟩

theorem keeps_slots_unlink (K : Config) (X : Ext2) (cur : Process) :
    KeepsSlots cur (fs_inode_unlink K X cur) := by
  intro u hi hd
  simp only [fs_inode_unlink, hi, hd, Bool.not_true, Bool.false_eq_true, if_false]
  split_ifs <;> exact ⟨_, _, rfl, rfl, rfl, rfl, rfl, rfl, rfl, rfl, rfl⟩

theorem keeps_slots_rmdir (K : Config) (X : Ext2) (cur : Process) :
    KeepsSlots cur (fs_inode_rmdir K X cur) := by
  intro u hi hd
  simp only [fs_inode_rmdir, hi, hd, Bool.not_true, Bool.false_eq_true, if_false]
  split_ifs <;> exact ⟨_, _, rfl, rfl, rfl, rfl, rfl, rfl, rfl, rfl, rfl⟩

/-- The locked section of a path-level operation on two different slots with
free mutexes: both are locked, the operation runs, both are unlocked, and the
rest of the function `k` runs on a state in which both slots are free, not
DIRTY and have the reference counts they had. -/
theorem locked_section (K : Config) (X : Ext2) (cur : Process) (hK : K.FlagsOk)
    (f : IIState → Outcome IIState Int) (hf : KeepsSlots cur f) (s : FsState)
    (pd pi : Nat) (d i : Inode) (hne : pd ≠ pi) (hd : s.deref pd = some d)
    (hi : s.deref pi = some i)
    (hdm : d.mutex = none) (hdd : d.has K.FS_INODE_DIRTY = false)
    (him : i.mutex = none) (hid : i.has K.FS_INODE_DIRTY = false)
    {β : Type} (k : Int → FsState → Outcome FsState β) :
    ∃ r t d1 i1,
      (InodeCall.run_all K X cur (fs_inode_lock_two pd pi) s).bind (fun _ s1 =>
        (s1.on_two pi pd f).bind (fun r s2 =>
          (InodeCall.run_all K X cur (fs_inode_unlock_two pd pi) s2).bind (fun _ s3 => k r s3)))
        = k r t ∧
      t.deref pd = some d1 ∧ t.deref pi = some i1 ∧
      (d1.mutex = none ∧ d1.has K.FS_INODE_DIRTY = false ∧ d1.ref_count = d.ref_count) ∧
      (i1.mutex = none ∧ i1.has K.FS_INODE_DIRTY = false ∧ i1.ref_count = i.ref_count) ∧
      ∀ q, q ≠ pd → q ≠ pi → t.deref q = s.deref q := by
  obtain ⟨t1, d1, i1, h1, hd1, hi1, ⟨hdh, hdv, hdr⟩, ⟨hih, hiv, hir⟩, hf1⟩ :=
    lock_two_step K X cur hK s pd pi d i hne hd hi hdm hdd him hid
  obtain ⟨r, t2, i2, d2, h2, hi2, hd2, him2, hif2, hir2, hdm2, hdf2, hdr2, hf2⟩ :=
    on_two_step cur f hf t1 pi pd i1 d1 hne hi1 hd1 hih hdh
  have hdh2 : fs_inode_holding cur d2 = true := by
    unfold fs_inode_holding at *
    rw [hdm2]
    exact hdh
  have hih2 : fs_inode_holding cur i2 = true := by
    unfold fs_inode_holding at *
    rw [him2]
    exact hih
  have hdv2 : d2.has K.FS_INODE_VALID = true := by
    unfold Inode.has at *
    rw [hdf2]
    exact hdv
  have hiv2 : i2.has K.FS_INODE_VALID = true := by
    unfold Inode.has at *
    rw [hif2]
    exact hiv
  obtain ⟨t3, d3, i3, h3, hd3, hi3, ⟨hdm3, hdd3, hdr3⟩, ⟨him3, hid3, hir3⟩, hf3⟩ :=
    unlock_two_step K X cur t2 pd pi d2 i2 hne hd2 hi2 hdh2 hdv2 hih2 hiv2
  refine ⟨r, t3, d3, i3, ?_, hd3, hi3, ⟨hdm3, hdd3, ?_⟩, ⟨him3, hid3, ?_⟩, ?_⟩
  · simp only [h1, Outcome.bind, h2, h3]
  · rw [hdr3, hdr2, hdr]
  · rw [hir3, hir2, hir]
  · intro q hqd hqi
    rw [hf3 q hqd hqi, hf2 q hqd hqi, hf1 q hqd hqi]

theorem idle_deref (K : Config) (s : FsState) (p : Nat) (h : s.idle K p) :
    ∃ a, s.deref p = some a ∧ a.mutex = none ∧ a.has K.FS_INODE_DIRTY = false := by
  unfold FsState.idle at h
  cases hp : s.deref p with
  | none => simp [hp] at h
  | some a =>
    simp only [hp] at h
    exact ⟨a, rfl, h.1, h.2⟩

theorem released_of_deref (s t : FsState) (p : Nat) (a b : Inode) (hs : s.deref p = some a)
    (ht : t.deref p = some b) (hr : b.ref_count = a.ref_count - 1) (hm : b.mutex = none) :
    s.released t p := by
  unfold FsState.released
  simp only [hs, ht]
  exact ⟨hr, hm⟩

/-- One `fs_inode_put` at the end of a path-level operation. -/
theorem put_balanced (K : Config) (X : Ext2) (cur : Process) (s : FsState) (p : Nat) (r : Int)
    (hp : s.idle K p) :
    ∃ t, (fs_inode_put K X cur s p).bind (fun _ s1 => Outcome.ret r s1) = Outcome.ret r t ∧
      s.released t p ∧ s.untouched t [p] := by
  obtain ⟨a, ha, hm, hd⟩ := idle_deref K s p hp
  obtain ⟨t, b, hput, hb, hr, hbm, hf⟩ := put_step K X cur s p a ha hm hd
  refine ⟨t, ?_, released_of_deref s t p a b ha hb hr hbm, ?_⟩
  · simp only [hput, Outcome.bind]
  · intro q hq
    exact hf q (by simpa using hq)

/-- The locked section followed by the two calls of `fs_inode_put`. -/
theorem locked_section_balanced (K : Config) (X : Ext2) (cur : Process) (hK : K.FlagsOk)
    (f : IIState → Outcome IIState Int) (hf : KeepsSlots cur f) (s : FsState)
    (pd pi : Nat) (hne : pd ≠ pi) (hd : s.idle K pd) (hi : s.idle K pi) :
    ∃ r t,
      (InodeCall.run_all K X cur (fs_inode_lock_two pd pi) s).bind (fun _ s1 =>
        (s1.on_two pi pd f).bind (fun r s2 =>
          (InodeCall.run_all K X cur (fs_inode_unlock_two pd pi) s2).bind (fun _ s3 =>
            (fs_inode_put K X cur s3 pd).bind (fun _ s4 =>
              (fs_inode_put K X cur s4 pi).bind (fun _ s5 => Outcome.ret r s5)))))
        = Outcome.ret r t ∧
      s.released t pd ∧ s.released t pi ∧ s.untouched t [pd, pi] := by
  obtain ⟨d, hd0, hdm, hdd⟩ := idle_deref K s pd hd
  obtain ⟨i, hi0, him, hid⟩ := idle_deref K s pi hi
  obtain ⟨r, t3, d3, i3, hsec, hd3, hi3, ⟨hdm3, hdd3, hdr3⟩, ⟨him3, hid3, hir3⟩, hf3⟩ :=
    locked_section K X cur hK f hf s pd pi d i hne hd0 hi0 hdm hdd him hid
      (fun r s3 => (fs_inode_put K X cur s3 pd).bind (fun _ s4 =>
        (fs_inode_put K X cur s4 pi).bind (fun _ s5 => Outcome.ret r s5)))
  obtain ⟨t4, d4, hput4, hd4, hdr4, hdm4, hf4⟩ := put_step K X cur t3 pd d3 hd3 hdm3 hdd3
  have hi4 : t4.deref pi = some i3 := by
    rw [hf4 pi (fun e => hne e.symm)]
    exact hi3
  obtain ⟨t5, i5, hput5, hi5, hir5, him5, hf5⟩ := put_step K X cur t4 pi i3 hi4 him3 hid3
  have hd5 : t5.deref pd = some d4 := by
    rw [hf5 pd hne]
    exact hd4
  refine ⟨r, t5, ?_, ?_, ?_, ?_⟩
  · rw [hsec]
    simp only [hput4, Outcome.bind, hput5]
  · exact released_of_deref s t5 pd d d4 hd0 hd5 (by rw [hdr4, hdr3]) hdm4
  · exact released_of_deref s t5 pi i i5 hi0 hi5 (by rw [hir5, hir3]) him5
  · intro q hq
    have hq1 : q ≠ pd ∧ q ≠ pi := by simpa using hq
    rw [hf5 q hq1.2, hf4 q hq1.1, hf3 q hq1.1 hq1.2]

/-- When the lookups hand over one and the same slot as the directory and as the
inode, the path-level operations do not return: the second `fs_inode_lock` of
`fs_inode_lock_two` sleeps on the mutex that the first one took. -/
theorem same_inode_blocks (K : Config) (X : Ext2) (cur : Process) (hK : K.FlagsOk)
    (fs_name_lookup : String → FsState → Int × Nat × FsState)
    (fs_path_lookup : String → Bool → FsState → PathLookup × FsState)
    (path1 path2 path : String) (s : FsState)
    (r1 : Int) (ip1 : Nat) (s1 : FsState) (l2 : PathLookup) (s2 : FsState)
    (l : PathLookup) (s3 : FsState)
    (hn : fs_name_lookup path1 s = (r1, ip1, s1))
    (hl2 : fs_path_lookup path2 false s1 = (l2, s2))
    (hl : fs_path_lookup path true s = (l, s3)) :
    (0 ≤ r1 → 0 ≤ l2.r → l2.dir = ip1 → s2.idle K ip1 →
      ∃ t, fs_link K X cur fs_name_lookup fs_path_lookup path1 path2 s = Outcome.blocked t) ∧
    (0 ≤ l.r → l.ip = some l.dir → s3.idle K l.dir →
      (∃ t, fs_unlink K X cur fs_path_lookup path s = Outcome.blocked t) ∧
      (∃ t, fs_rmdir K X cur fs_path_lookup path s = Outcome.blocked t)) := by
  constructor
  · intro h1 h2 hsame hidle
    obtain ⟨a, ha, hm, hd⟩ := idle_deref K s2 ip1 hidle
    obtain ⟨t, ht⟩ := lock_two_same_blocks K X cur hK s2 ip1 a ha hm hd
    refine ⟨t, ?_⟩
    simp only [fs_link, hn, hl2, if_neg (not_lt.mpr h1), if_neg (not_lt.mpr h2), hsame, ht,
      Outcome.bind]
  · intro h1 hsame hidle
    obtain ⟨a, ha, hm, hd⟩ := idle_deref K s3 l.dir hidle
    obtain ⟨t, ht⟩ := lock_two_same_blocks K X cur hK s3 l.dir a ha hm hd
    constructor
    · refine ⟨t, ?_⟩
      simp only [fs_unlink, hl, if_neg (not_lt.mpr h1), hsame, ht, Outcome.bind]
    · refine ⟨t, ?_⟩
      simp only [fs_rmdir, hl, if_neg (not_lt.mpr h1), hsame, ht, Outcome.bind]

end Argentum
